import Mathlib

/-!
DFIR-ORC output writers: the tabular (Parquet) writer and the nested document (JSON) writer.

A shallow embedding of `src/OrcParquetLib/ParquetWriter.cpp` and of the container and table
scanning functions of `src/OrcLib/JSONOutputWriter.cpp`: the writer object is an explicit state
record, every member function is a function from a state to an outcome, and the properties of
the row engine (cursor, row counters, accumulators, flush) and of the document writer (tokens
handed to the backend) are proved about those functions.
-/

namespace Orc

/-! ## Result codes and exceptions -/

/-- The `HRESULT` values the writer returns. -/
inductive HRESULT where
  | S_OK
  | E_FAIL
  | E_INVALIDARG
  | E_POINTER
  deriving DecidableEq, Repr

/-- The `FAILED(hr)` test. -/
def FAILED : HRESULT → Bool
  | .S_OK => false
  | _ => true

/-- The `SUCCEEDED(hr)` test. -/
def SUCCEEDED (hr : HRESULT) : Bool := !FAILED hr

/-- Severity carried by an `Orc::Exception`; the writer only ever throws `Fatal`. -/
inductive ExceptionSeverity where
  | Fatal
  deriving DecidableEq, Repr

/-- What a value-write operation was trying to append when it met a builder of the wrong class;
one constructor per distinct "Not a valid arrow builder for ..." text of the source. -/
inductive ValueKind where
  | UnicodeString
  | AnsiString
  | FILETIME
  | LONGLONG_fileTime
  | time_t
  | LARGE_INTEGER_FileSize
  | ULONGLONG_FileSize
  | boolean
  | enum
  | GUID
  | XML
  | DWORD
  | LONGLONG
  | ULONGLONG
  | LONGLONG_hex
  deriving DecidableEq, Repr

/-- The message of an `Orc::Exception`, with the values substituted for its `%d` arguments. -/
inductive Message where
  /-- Text "Too many columns written to Parquet (got %d, max is %d)". -/
  | TooManyColumns (got max : Nat)
  /-- Text "Too few columns written to Parquet (got %d, max is %d)". -/
  | TooFewColumns (got max : Nat)
  /-- Text "Cannot append WriteNothing via Array Builder". -/
  | CannotAppendWriteNothing
  /-- Text "Cannot append AbandonRow via Array Builder". -/
  | CannotAppendAbandonRow
  /-- Text "Not a valid arrow builder for ...", one per kind of value. -/
  | NotAValidArrowBuilder (what : ValueKind)
  /-- Text "Failed to create builder for field". -/
  | FailedToCreateBuilderForField
  /-- Text "Failed to create builder for type %S". -/
  | FailedToCreateBuilderForType
  deriving DecidableEq, Repr

/-- What a member function can throw: an `Orc::Exception`, or the `std::bad_optional_access`
of `std::optional::value()` on an empty optional. -/
inductive Exception where
  | Orc (severity : ExceptionSeverity) (code : Option HRESULT) (msg : Message)
  | bad_optional_access
  deriving DecidableEq, Repr

/-- The exception is an `Orc::Exception` of severity `Fatal`. -/
def Exception.isFatal : Exception → Bool
  | .Orc .Fatal _ _ => true
  | .bad_optional_access => false

/-- The exception is one of the two row-protocol errors ("too few" or "too many" columns). -/
def Exception.isRowProtocol : Exception → Bool
  | .Orc _ _ (.TooManyColumns _ _) => true
  | .Orc _ _ (.TooFewColumns _ _) => true
  | _ => false

/-! ## Values -/

/-- A 16-bit string: its UTF-16 code units. -/
abbrev WString := List Nat

/-- Conversion to `uint64_t` (`static_cast` to a fixed-width type keeps the value modulo the
width). -/
def toUInt64 (n : Int) : Nat := (n % 2 ^ 64).toNat

/-- Conversion to `int32_t` (two's complement). -/
def toInt32 (n : Int) : Int :=
  if n % 2 ^ 32 < 2 ^ 31 then n % 2 ^ 32 else n % 2 ^ 32 - 2 ^ 32

/-- Conversion to `int64_t` (two's complement). -/
def toInt64 (n : Int) : Int :=
  if n % 2 ^ 64 < 2 ^ 63 then n % 2 ^ 64 else n % 2 ^ 64 - 2 ^ 64

/-- The bytes of a 16-bit string as laid out in memory (little endian), which is what
`reinterpret_cast<const uint8_t*>(str.data())` reads. -/
def wideBytes : WString → List Nat
  | [] => []
  | c :: cs => (c % 256) :: (c / 256 % 256) :: wideBytes cs

/-- The `n` low bytes of a number, least significant first. -/
def leBytes : Nat → Nat → List Nat
  | 0, _ => []
  | n + 1, v => (v % 256) :: leBytes n (v / 256)

/-- The Windows `FILETIME` structure. -/
structure FILETIME where
  dwLowDateTime : Nat
  dwHighDateTime : Nat
  deriving DecidableEq, Repr

/-- The C `struct tm`. -/
structure tm where
  tm_sec : Int
  tm_min : Int
  tm_hour : Int
  tm_mday : Int
  tm_mon : Int
  tm_year : Int
  tm_wday : Int
  tm_yday : Int
  tm_isdst : Int
  deriving DecidableEq, Repr

/-- The Windows `LARGE_INTEGER` union: `HighPart` is a signed and `LowPart` an unsigned 32-bit
half of the signed 64-bit `QuadPart`. -/
structure LARGE_INTEGER where
  HighPart : Int
  LowPart : Nat
  deriving DecidableEq, Repr

/-- The `QuadPart` view of a `LARGE_INTEGER`. -/
def LARGE_INTEGER.QuadPart (v : LARGE_INTEGER) : Int :=
  toInt64 (toInt32 v.HighPart * 2 ^ 32 + (v.LowPart % 2 ^ 32 : Nat))

/-- A `const BYTE*` argument: the value of the pointer and the bytes it points to. -/
structure BytePtr where
  address : Nat
  bytes : List Nat
  deriving DecidableEq, Repr

/-- One buffered entry of a column accumulator. -/
inductive Cell where
  | null
  | bool (b : Bool)
  | uint32 (v : Nat)
  | int32 (v : Int)
  | uint64 (v : Nat)
  | int64 (v : Int)
  | timestamp (v : Int)
  | string (s : String)
  | binary (bytes : List Nat)
  | fixed (bytes : List Nat)
  deriving DecidableEq, Repr

/-! ## The arrow side: types, fields, builders, tables -/

/-- The `arrow::Type::type` identifiers that `GetBuilders` switches on; `OTHER` stands for every
identifier that falls to its `default` branch. -/
inductive Type_id where
  | NA | BOOL | UINT8 | INT8 | UINT16 | INT16 | UINT32 | INT32 | UINT64 | INT64
  | TIMESTAMP | STRING | BINARY | FIXED_SIZE_BINARY | DICTIONARY | LIST | STRUCT | MAP | OTHER
  deriving DecidableEq, Repr

/-- The unit of an arrow timestamp type. -/
inductive TimeUnit where
  | SECOND | MILLI | MICRO | NANO
  deriving DecidableEq, Repr

/-- An `arrow::DataType`. Nested types keep the identifiers of their children, which is all
`GetBuilders` looks at. -/
inductive DataType where
  | null
  | boolean
  | uint8
  | int8
  | uint16
  | int16
  | uint32
  | int32
  | uint64
  | int64
  | timestamp (unit : TimeUnit)
  | utf8
  | binary
  | fixed_size_binary (byte_width : Nat)
  | dictionary
  | list (value_type : Type_id)
  | struct (children : List Type_id)
  | map
  | other
  deriving DecidableEq, Repr

/-- The `type()->id()` of a data type. -/
def DataType.type_id : DataType → Type_id
  | .null => .NA
  | .boolean => .BOOL
  | .uint8 => .UINT8
  | .int8 => .INT8
  | .uint16 => .UINT16
  | .int16 => .INT16
  | .uint32 => .UINT32
  | .int32 => .INT32
  | .uint64 => .UINT64
  | .int64 => .INT64
  | .timestamp _ => .TIMESTAMP
  | .utf8 => .STRING
  | .binary => .BINARY
  | .fixed_size_binary _ => .FIXED_SIZE_BINARY
  | .dictionary => .DICTIONARY
  | .list _ => .LIST
  | .struct _ => .STRUCT
  | .map => .MAP
  | .other => .OTHER

/-- An `arrow::Field`: name, type, nullability and optional key/value metadata. -/
structure Field where
  name : String
  type : DataType
  nullable : Bool
  metadata : Option (List (String × String))
  deriving DecidableEq, Repr

/-- The classes of `arrow` builder a slot of `m_arrowBuilders` can hold: the alternatives of the
`Builder` variant, which are the builder classes the source names. -/
inductive BuilderKind where
  | ArrayBuilder
  | NullBuilder
  | BooleanBuilder
  | UInt8Builder
  | Int8Builder
  | UInt16Builder
  | Int16Builder
  | UInt32Builder
  | Int32Builder
  | UInt64Builder
  | Int64Builder
  | TimestampBuilder
  | StringBuilder
  | BinaryBuilder
  | FixedSizeBinaryBuilder
  | StringDictionaryBuilder
  | ListBuilder
  | StructBuilder
  deriving DecidableEq, Repr

/-- A column accumulator: an arrow builder of some class, the column type it was built for, and
the entries appended since it was created or last finished. -/
structure Builder where
  kind : BuilderKind
  type : DataType
  values : List Cell
  deriving DecidableEq, Repr

/-- The call `arg->Append(value)`: one more entry at the end. -/
def Builder.Append (arg : Builder) (value : Cell) : Builder :=
  { arg with values := arg.values ++ [value] }

/-- The call `arg->AppendNull()`. -/
def Builder.AppendNull (arg : Builder) : Builder :=
  arg.Append .null

/-- The width of the entries of a fixed-size binary builder. -/
def Builder.byte_width (arg : Builder) : Nat :=
  match arg.type with
  | .fixed_size_binary n => n
  | _ => 0

/-- The call `arg->Finish(&column_array)` of the arrow library: the buffered entries become the
array, and the builder is left empty. This is the array. -/
def Builder.Finish (arg : Builder) : List Cell := arg.values

/-- The builder as `Finish` leaves it. -/
def Builder.afterFinish (arg : Builder) : Builder :=
  { arg with values := [] }

/-- An `arrow::Table`: the schema pointer it was made with and its column arrays. -/
structure Table where
  schema : Option (List Field)
  arrays : List (List Cell)
  deriving DecidableEq, Repr


/-! ## The table side: schema, options, writer state -/

/-- Modelled from the spec: the `ColumnType` enumeration of the table-output schema (its header
is not among the sources). The nineteen semantic types are the labels of the `switch` in
`SetSchema`; `Other` stands for any value that reaches its `default` branch. -/
inductive ColumnType where
  | Nothing
  | BoolType
  | UInt8Type
  | Int8Type
  | UInt16Type
  | Int16Type
  | UInt32Type
  | Int32Type
  | UInt64Type
  | Int64Type
  | TimeStampType
  | UTF16Type
  | UTF8Type
  | BinaryType
  | FixedBinaryType
  | GUIDType
  | EnumType
  | XMLType
  | FlagsType
  | Other
  deriving DecidableEq, Repr

/-- One entry of a column's `EnumValues`. -/
structure EnumValue where
  Index : Nat
  strValue : WString
  deriving DecidableEq, Repr

/-- One entry of a column's `FlagsValues`. -/
structure FlagValue where
  dwFlag : Nat
  strFlag : WString
  deriving DecidableEq, Repr

/-- Modelled from the spec: a column descriptor of the table-output schema (its header is not
among the sources), with the members `SetSchema` reads. The source member `Type` is `ColType`
here. -/
structure Column where
  ColumnName : WString
  ColType : ColumnType
  dwLen : Option Nat
  EnumValues : Option (List EnumValue)
  FlagsValues : Option (List FlagValue)
  deriving DecidableEq, Repr

/-- Modelled from the spec: the table-output `Schema`, an ordered sequence of column
descriptors; `!columns` holds of the empty schema. -/
abbrev Schema := List Column

/-- Modelled from the spec: the writer options (`batchSize`: optional row-count threshold). -/
structure Options where
  BatchSize : Option Nat
  deriving DecidableEq, Repr

/-- Modelled from the spec: the data members of `Orc::TableOutput::Parquet::Writer`, which
`ParquetWriter.h` (not among the sources) declares. The cursor, the column count and the row
counters are natural numbers, as the row cursor of the spec: the wrap-around of a 32-bit counter
at 2^32 columns or rows is outside the model. A null `m_arrowSchema` or `m_arrowWriter` is
`none`, and an open `m_arrowWriter` holds the tables appended to the file so far.
`m_pTermination` records whether the termination handler is registered. -/
structure Writer where
  m_Options : Option Options
  m_Schema : Schema
  m_dwColumnNumber : Nat
  m_dwColumnCounter : Nat
  m_dwBatchRowCount : Nat
  m_dwTotalRowCount : Nat
  m_arrowSchema : Option (List Field)
  m_arrowBuilders : List Builder
  m_arrowWriter : Option (List Table)
  m_pTermination : Bool
  deriving DecidableEq, Repr

/-- The functions the writer calls that live outside `ParquetWriter.cpp`: text transcoding, the
timestamp conversions of `ParquetDefinitions.h`, and the arrow and parquet library calls whose
status the writer tests. -/
structure Env where
  /-- Transcoding of a 16-bit string; `none` when the returned `HRESULT` is a failure. -/
  WideToAnsi : WString → Option String
  /-- Conversion `ConvertTo(FILETIME)` to a timestamp value. -/
  ConvertTo_FILETIME : FILETIME → Int
  /-- Conversion `ConvertTo(time_t)` to a timestamp value. -/
  ConvertTo_time_t : Int → Int
  /-- Conversion `ConvertTo(tm)` to a timestamp value. -/
  ConvertTo_tm : tm → Int
  /-- Whether `arrow::MakeBuilder` returns an ok status for a type. -/
  MakeBuilder : Type_id → Bool
  /-- Whether `arrow::Table::Make` returns a table (a non-null pointer). -/
  TableMake : Table → Bool
  /-- Whether `WriteTable` returns an ok status, given the tables already in the file. -/
  WriteTable : List Table → Table → Bool

/-- How a call of a member function ends: it returns a value, it throws, or it runs into
undefined behaviour (an element access past the end of `m_arrowBuilders`, or a call through a
null `m_arrowSchema` or `m_arrowWriter`). The writer state is what the call leaves behind. -/
inductive Exec (α : Type) where
  | ok (a : α) (w : Writer)
  | raise (e : Exception) (w : Writer)
  | undefined
  deriving DecidableEq, Repr

/-- Sequencing: the rest of the function body runs only after a normal return. -/
def Exec.andThen {α β : Type} (x : Exec α) (k : α → Writer → Exec β) : Exec β :=
  match x with
  | .ok a w => k a w
  | .raise e w => .raise e w
  | .undefined => .undefined

/-- The state a call leaves behind, when it returned or threw. -/
def Exec.state {α : Type} : Exec α → Option Writer
  | .ok _ w => some w
  | .raise _ w => some w
  | .undefined => none

/-- The expression `throw Orc::Exception(ExceptionSeverity::Fatal, msg, ...)`. -/
def fatal (msg : Message) : Exception := .Orc .Fatal none msg

/-- The call `std::visit(f, m_arrowBuilders[i])`: `f` either updates the builder or throws. -/
def visit (f : Builder → Except Exception Builder) (i : Nat) (w : Writer) : Exec Unit :=
  match w.m_arrowBuilders[i]? with
  | none => .undefined
  | some arg =>
    match f arg with
    | .error e => .raise e w
    | .ok arg1 => .ok () { w with m_arrowBuilders := w.m_arrowBuilders.set i arg1 }

/-! ## Builders, schema assignment, flush -/

/-- The child types of a struct type (`column->type()->children()`). -/
def DataType.children : DataType → List Type_id
  | .struct children => children
  | _ => []

/-- The loop of `GetBuilders` over the fields of `m_arrowSchema`, `retval` being the builders
made so far: one new, empty builder per field, of the class the field's type identifier selects.
A `MAP` field gets no builder; any other identifier throws. -/
def GetBuilders.fields (env : Env) : List Field → List Builder → Except Exception (List Builder)
  | [], retval => .ok retval
  | column :: rest, retval =>
    match column.type.type_id with
    | .NA => GetBuilders.fields env rest (retval ++ [⟨.NullBuilder, column.type, []⟩])
    | .BOOL => GetBuilders.fields env rest (retval ++ [⟨.BooleanBuilder, column.type, []⟩])
    | .UINT8 => GetBuilders.fields env rest (retval ++ [⟨.UInt8Builder, column.type, []⟩])
    | .INT8 => GetBuilders.fields env rest (retval ++ [⟨.Int8Builder, column.type, []⟩])
    | .UINT16 => GetBuilders.fields env rest (retval ++ [⟨.UInt16Builder, column.type, []⟩])
    | .INT16 => GetBuilders.fields env rest (retval ++ [⟨.Int16Builder, column.type, []⟩])
    | .UINT32 => GetBuilders.fields env rest (retval ++ [⟨.UInt32Builder, column.type, []⟩])
    | .INT32 => GetBuilders.fields env rest (retval ++ [⟨.Int32Builder, column.type, []⟩])
    | .UINT64 => GetBuilders.fields env rest (retval ++ [⟨.UInt64Builder, column.type, []⟩])
    | .INT64 => GetBuilders.fields env rest (retval ++ [⟨.Int64Builder, column.type, []⟩])
    | .TIMESTAMP => GetBuilders.fields env rest (retval ++ [⟨.TimestampBuilder, column.type, []⟩])
    | .STRING => GetBuilders.fields env rest (retval ++ [⟨.StringBuilder, column.type, []⟩])
    | .BINARY => GetBuilders.fields env rest (retval ++ [⟨.BinaryBuilder, column.type, []⟩])
    | .FIXED_SIZE_BINARY =>
      GetBuilders.fields env rest (retval ++ [⟨.FixedSizeBinaryBuilder, column.type, []⟩])
    | .DICTIONARY =>
      GetBuilders.fields env rest (retval ++ [⟨.StringDictionaryBuilder, column.type, []⟩])
    | .LIST => GetBuilders.fields env rest (retval ++ [⟨.ListBuilder, column.type, []⟩])
    | .STRUCT =>
      if column.type.children.all env.MakeBuilder then
        GetBuilders.fields env rest (retval ++ [⟨.StructBuilder, column.type, []⟩])
      else
        .error (.Orc .Fatal (some .E_POINTER) .FailedToCreateBuilderForField)
    | .MAP => GetBuilders.fields env rest retval
    | .OTHER => .error (.Orc .Fatal (some .E_INVALIDARG) .FailedToCreateBuilderForType)

/-- Member function `GetBuilders`: fresh builders for the fields of `m_arrowSchema`. It reads
the writer and changes nothing in it. -/
def GetBuilders (env : Env) (w : Writer) : Exec (List Builder) :=
  match w.m_arrowSchema with
  | none => .undefined
  | some fields =>
    match GetBuilders.fields env fields [] with
    | .ok retval => .ok retval w
    | .error e => .raise e w

/-- The text `fmt::format("{:#08x}", n)`: hexadecimal with the `0x` mark, zero-padded to eight
characters in all. -/
def fmtHex08 (n : Nat) : String :=
  let digits := Nat.toDigits 16 n
  String.mk ('0' :: 'x' :: (List.replicate (6 - digits.length) '0' ++ digits))

/-- The metadata `SetSchema` attaches to an enum column: one pair per value whose name
transcodes. -/
def enumMetadata (env : Env) : List EnumValue → List (String × String)
  | [] => []
  | value :: rest =>
    match env.WideToAnsi value.strValue with
    | some str => (fmtHex08 value.Index, str) :: enumMetadata env rest
    | none => enumMetadata env rest

/-- The metadata `SetSchema` attaches to a flags column. -/
def flagsMetadata (env : Env) : List FlagValue → List (String × String)
  | [] => []
  | value :: rest =>
    match env.WideToAnsi value.strFlag with
    | some str => (fmtHex08 value.dwFlag, str) :: flagsMetadata env rest
    | none => flagsMetadata env rest

/-- How the column loop of `SetSchema` ends: it falls out of the loop (at the end of the schema
or by the `break` of a column name that does not transcode), it returns a failure, or it
throws. -/
inductive SchemaLoop where
  | done (schema_definition : List Field)
  | returned (hr : HRESULT)
  | thrown (e : Exception)
  deriving DecidableEq, Repr

/-- The column loop of `SetSchema`, `schema_definition` being the fields pushed so far. -/
def SetSchema.columns (env : Env) : List Column → List Field → SchemaLoop
  | [], schema_definition => .done schema_definition
  | column :: rest, schema_definition =>
    match env.WideToAnsi column.ColumnName with
    | none => .done schema_definition
    | some strName =>
      match column.ColType with
      | .Nothing =>
        SetSchema.columns env rest (schema_definition ++ [⟨strName, .null, true, none⟩])
      | .BoolType =>
        SetSchema.columns env rest (schema_definition ++ [⟨strName, .boolean, true, none⟩])
      | .UInt8Type =>
        SetSchema.columns env rest (schema_definition ++ [⟨strName, .uint8, true, none⟩])
      | .Int8Type =>
        SetSchema.columns env rest (schema_definition ++ [⟨strName, .int8, true, none⟩])
      | .UInt16Type =>
        SetSchema.columns env rest (schema_definition ++ [⟨strName, .uint16, true, none⟩])
      | .Int16Type =>
        SetSchema.columns env rest (schema_definition ++ [⟨strName, .int16, true, none⟩])
      | .UInt32Type =>
        SetSchema.columns env rest (schema_definition ++ [⟨strName, .uint32, true, none⟩])
      | .Int32Type =>
        SetSchema.columns env rest (schema_definition ++ [⟨strName, .int32, true, none⟩])
      | .UInt64Type =>
        SetSchema.columns env rest (schema_definition ++ [⟨strName, .uint64, true, none⟩])
      | .Int64Type =>
        SetSchema.columns env rest (schema_definition ++ [⟨strName, .int64, true, none⟩])
      | .TimeStampType =>
        SetSchema.columns env rest
          (schema_definition ++ [⟨strName, .timestamp .MICRO, true, none⟩])
      | .UTF16Type =>
        SetSchema.columns env rest (schema_definition ++ [⟨strName, .binary, true, none⟩])
      | .UTF8Type =>
        SetSchema.columns env rest (schema_definition ++ [⟨strName, .utf8, true, none⟩])
      | .BinaryType =>
        SetSchema.columns env rest (schema_definition ++ [⟨strName, .binary, true, none⟩])
      | .FixedBinaryType =>
        match column.dwLen with
        | some dwLen =>
          SetSchema.columns env rest
            (schema_definition ++ [⟨strName, .fixed_size_binary dwLen, true, none⟩])
        | none => .thrown .bad_optional_access
      | .GUIDType =>
        SetSchema.columns env rest
          (schema_definition ++ [⟨strName, .fixed_size_binary 16, true, none⟩])
      | .EnumType =>
        SetSchema.columns env rest
          (schema_definition ++
            [⟨strName, .uint32, true, column.EnumValues.map (enumMetadata env)⟩])
      | .XMLType =>
        SetSchema.columns env rest (schema_definition ++ [⟨strName, .binary, true, none⟩])
      | .FlagsType =>
        SetSchema.columns env rest
          (schema_definition ++
            [⟨strName, .uint32, true, column.FlagsValues.map (flagsMetadata env)⟩])
      | .Other => .returned .E_FAIL

/-- Member function `SetSchema`. The writer properties it builds are constants and have no part
in the model. -/
def SetSchema (env : Env) (columns : Schema) (w : Writer) : Exec HRESULT :=
  if columns.isEmpty then .ok .E_INVALIDARG w
  else
    let w := { w with m_Schema := columns }
    let w := { w with m_dwColumnNumber := w.m_Schema.length }
    match SetSchema.columns env w.m_Schema [] with
    | .returned hr => .ok hr w
    | .thrown e => .raise e w
    | .done schema_definition =>
      let w := { w with m_arrowSchema := some schema_definition }
      (GetBuilders env w).andThen fun builders w =>
      .ok .S_OK { w with m_arrowBuilders := builders }

/-- Member function `Flush`: every builder is finished into an array, the arrays are made into a
table, the table is written, and the builders are replaced by fresh ones. -/
def Flush (env : Env) (w : Writer) : Exec HRESULT :=
  let arrays := w.m_arrowBuilders.map Builder.Finish
  let w := { w with m_arrowBuilders := w.m_arrowBuilders.map Builder.afterFinish }
  let table : Table := ⟨w.m_arrowSchema, arrays⟩
  if !env.TableMake table then .ok .E_FAIL w
  else
    match w.m_arrowWriter with
    | none => .undefined
    | some written =>
      if !env.WriteTable written table then .ok .E_FAIL w
      else
        let w := { w with m_arrowWriter := some (written ++ [table]) }
        (GetBuilders env w).andThen fun builders w =>
        .ok .S_OK { w with m_arrowBuilders := builders }

/-- Member function `Close`. -/
def Close (env : Env) (w : Writer) : Exec HRESULT :=
  (Flush env w).andThen fun hr w =>
  if FAILED hr then .ok hr w
  else if w.m_pTermination then .ok .S_OK { w with m_pTermination := false }
  else .ok .S_OK w

/-! ## The row engine -/

/-- Member function `AddColumnAndCheckNumbers`. -/
def AddColumnAndCheckNumbers (w : Writer) : Exec HRESULT :=
  let w := { w with m_dwColumnCounter := w.m_dwColumnCounter + 1 }
  if w.m_dwColumnCounter > w.m_dwColumnNumber then
    let counter := w.m_dwColumnCounter
    let w := { w with m_dwColumnCounter := 0 }
    .raise (fatal (.TooManyColumns counter w.m_dwColumnNumber)) w
  else .ok .S_OK w

/-- Member function `WriteNothing`. -/
def WriteNothing (w : Writer) : Exec HRESULT :=
  (visit (fun arg =>
      match arg.kind with
      | .ArrayBuilder => .error (fatal .CannotAppendWriteNothing)
      | _ => .ok arg.AppendNull)
    w.m_dwColumnCounter w).andThen fun _ w =>
  (AddColumnAndCheckNumbers w).andThen fun _ w =>
  .ok .S_OK w

/-- The loop of `AbandonRow`, with `n` iterations to go and loop variable `i`. -/
def AbandonRow.loop : Nat → Nat → Writer → Exec Unit
  | 0, _, w => .ok () w
  | n + 1, i, w =>
    (visit (fun arg =>
        match arg.kind with
        | .ArrayBuilder => .error (fatal .CannotAppendAbandonRow)
        | _ => .ok arg.AppendNull)
      i w).andThen fun _ w =>
    (AddColumnAndCheckNumbers w).andThen fun _ w =>
    AbandonRow.loop n (i + 1) w

/-- Member function `AbandonRow`: the loop runs for `i` from `m_dwColumnCounter` up to
`m_dwColumnNumber - 1`. -/
def AbandonRow (w : Writer) : Exec HRESULT :=
  (AbandonRow.loop (w.m_dwColumnNumber - w.m_dwColumnCounter) w.m_dwColumnCounter w).andThen
    fun _ w =>
  .ok .S_OK w

/-- Member function `AbandonColumn`. -/
def AbandonColumn (w : Writer) : Exec HRESULT :=
  WriteNothing w

/-- Member function `WriteEndOfLine`. -/
def WriteEndOfLine (env : Env) (w : Writer) : Exec HRESULT :=
  (if w.m_dwColumnCounter = w.m_dwColumnNumber then
      (.ok () { w with m_dwColumnCounter := 0 } : Exec Unit)
    else if w.m_dwColumnCounter < w.m_dwColumnNumber then
      let counter := w.m_dwColumnCounter
      .raise (fatal (.TooFewColumns counter w.m_dwColumnNumber)) { w with m_dwColumnCounter := 0 }
    else if w.m_dwColumnCounter > w.m_dwColumnNumber then
      let counter := w.m_dwColumnCounter
      .raise (fatal (.TooManyColumns counter w.m_dwColumnNumber)) { w with m_dwColumnCounter := 0 }
    else .ok () w).andThen fun _ w =>
  let w := { w with m_dwBatchRowCount := w.m_dwBatchRowCount + 1 }
  let w := { w with m_dwTotalRowCount := w.m_dwTotalRowCount + 1 }
  match w.m_Options with
  | none => .ok .S_OK w
  | some options =>
    match options.BatchSize with
    | none => .ok .S_OK w
    | some BatchSize =>
      if w.m_dwBatchRowCount ≥ BatchSize then
        (Flush env w).andThen fun hr w =>
        if FAILED hr then .ok hr w else .ok .S_OK w
      else .ok .S_OK w

/-! ## Value writes -/

/-- A GUID argument: its 16 bytes as laid out in memory. -/
abbrev GUID := List Nat

/-- The bytes of an 8-bit string. -/
def ansiBytes (s : String) : List Nat := s.data.map fun c => c.toNat % 256

/-- The first `n` characters of an 8-bit string (`Append(szString, n)`). -/
def ansiTake (s : String) (n : Nat) : String := String.mk (s.data.take n)

/-- The visitor shared by the 16-bit string writes: a binary builder takes the raw bytes of the
first `count` characters, a string builder takes the transcoded text, or a null when the
transcoding fails. -/
def unicodeStringVisitor (env : Env) (str : WString) (count : Nat) (arg : Builder) :
    Except Exception Builder :=
  match arg.kind with
  | .BinaryBuilder => .ok (arg.Append (.binary (wideBytes (str.take count))))
  | .StringBuilder =>
    match env.WideToAnsi str with
    | some utf8 => .ok (arg.Append (.string utf8))
    | none => .ok arg.AppendNull
  | _ => .error (fatal (.NotAValidArrowBuilder .UnicodeString))

/-- Member function `WriteString(const std::wstring&)`; the byte count is
`(uint32_t)strString.size() * sizeof(WCHAR)`. -/
def WriteString_wstring (env : Env) (strString : WString) (w : Writer) : Exec HRESULT :=
  (visit (unicodeStringVisitor env strString (strString.length % 2 ^ 32))
    w.m_dwColumnCounter w).andThen fun _ w =>
  (AddColumnAndCheckNumbers w).andThen fun _ w =>
  .ok .S_OK w

/-- Member function `WriteString(const std::wstring_view&)`. -/
def WriteString_wstring_view (env : Env) (strString : WString) (w : Writer) : Exec HRESULT :=
  (visit (unicodeStringVisitor env strString (strString.length % 2 ^ 32))
    w.m_dwColumnCounter w).andThen fun _ w =>
  (AddColumnAndCheckNumbers w).andThen fun _ w =>
  .ok .S_OK w

/-- Member function `WriteString(const WCHAR*)`; `szString` is the text before the terminating
zero. -/
def WriteString_WCHAR (env : Env) (szString : WString) (w : Writer) : Exec HRESULT :=
  (visit (unicodeStringVisitor env szString (szString.length % 2 ^ 32))
    w.m_dwColumnCounter w).andThen fun _ w =>
  (AddColumnAndCheckNumbers w).andThen fun _ w =>
  .ok .S_OK w

/-- Member function `WriteCharArray(const WCHAR*, DWORD)`; `szString` is the array the pointer
addresses, of which `dwCharCount` characters are read. -/
def WriteCharArray_WCHAR (env : Env) (szString : WString) (dwCharCount : Nat) (w : Writer) :
    Exec HRESULT :=
  (visit (unicodeStringVisitor env (szString.take dwCharCount) dwCharCount)
    w.m_dwColumnCounter w).andThen fun _ w =>
  (AddColumnAndCheckNumbers w).andThen fun _ w =>
  .ok .S_OK w

/-- The visitor shared by the 8-bit string writes. -/
def ansiStringVisitor (str : String) (arg : Builder) : Except Exception Builder :=
  match arg.kind with
  | .StringBuilder => .ok (arg.Append (.string str))
  | _ => .error (fatal (.NotAValidArrowBuilder .AnsiString))

/-- Member function `WriteString(const std::string&)`. -/
def WriteString_string (strString : String) (w : Writer) : Exec HRESULT :=
  (visit (ansiStringVisitor strString) w.m_dwColumnCounter w).andThen fun _ w =>
  (AddColumnAndCheckNumbers w).andThen fun _ w =>
  .ok .S_OK w

/-- Member function `WriteString(const std::string_view&)`. -/
def WriteString_string_view (strString : String) (w : Writer) : Exec HRESULT :=
  (visit (ansiStringVisitor strString) w.m_dwColumnCounter w).andThen fun _ w =>
  (AddColumnAndCheckNumbers w).andThen fun _ w =>
  .ok .S_OK w

/-- Member function `WriteString(const CHAR*)`; `szString` is the text before the terminating
zero. -/
def WriteString_CHAR (szString : String) (w : Writer) : Exec HRESULT :=
  (visit (ansiStringVisitor szString) w.m_dwColumnCounter w).andThen fun _ w =>
  (AddColumnAndCheckNumbers w).andThen fun _ w =>
  .ok .S_OK w

/-- Member function `WriteCharArray(const CHAR*, DWORD)`. -/
def WriteCharArray_CHAR (szString : String) (dwCharCount : Nat) (w : Writer) : Exec HRESULT :=
  (visit (ansiStringVisitor (ansiTake szString dwCharCount)) w.m_dwColumnCounter w).andThen
    fun _ w =>
  (AddColumnAndCheckNumbers w).andThen fun _ w =>
  .ok .S_OK w

/-- Member function `WriteFormated_(const std::wstring_view&, wformat_args)`; `buffer` is the
text `fmt::vformat_to` produced from the format and its arguments. -/
def WriteFormated_W (env : Env) (buffer : WString) (w : Writer) : Exec HRESULT :=
  if buffer.isEmpty then WriteNothing w
  else WriteCharArray_WCHAR env buffer buffer.length w

/-- Member function `WriteFormated_(const std::string_view&, format_args)`; `buffer` is the text
`fmt::vformat_to` produced from the format and its arguments. -/
def WriteFormated_A (buffer : String) (w : Writer) : Exec HRESULT :=
  if buffer.data.isEmpty then WriteNothing w
  else WriteCharArray_CHAR buffer buffer.length w

/-- The Windows file attribute bits `WriteAttributes` tests. -/
def FILE_ATTRIBUTE_READONLY : Nat := 0x1
/-- Attribute bit HIDDEN. -/
def FILE_ATTRIBUTE_HIDDEN : Nat := 0x2
/-- Attribute bit SYSTEM. -/
def FILE_ATTRIBUTE_SYSTEM : Nat := 0x4
/-- Attribute bit DIRECTORY. -/
def FILE_ATTRIBUTE_DIRECTORY : Nat := 0x10
/-- Attribute bit ARCHIVE. -/
def FILE_ATTRIBUTE_ARCHIVE : Nat := 0x20
/-- Attribute bit NORMAL. -/
def FILE_ATTRIBUTE_NORMAL : Nat := 0x80
/-- Attribute bit TEMPORARY. -/
def FILE_ATTRIBUTE_TEMPORARY : Nat := 0x100
/-- Attribute bit SPARSE_FILE. -/
def FILE_ATTRIBUTE_SPARSE_FILE : Nat := 0x200
/-- Attribute bit REPARSE_POINT. -/
def FILE_ATTRIBUTE_REPARSE_POINT : Nat := 0x400
/-- Attribute bit COMPRESSED. -/
def FILE_ATTRIBUTE_COMPRESSED : Nat := 0x800
/-- Attribute bit OFFLINE. -/
def FILE_ATTRIBUTE_OFFLINE : Nat := 0x1000
/-- Attribute bit ENCRYPTED. -/
def FILE_ATTRIBUTE_ENCRYPTED : Nat := 0x4000
/-- Attribute bit VIRTUAL. -/
def FILE_ATTRIBUTE_VIRTUAL : Nat := 0x10000

/-- The thirteen characters `WriteAttributes` hands to the formatter, in order. -/
def attributesText (dwFileAttributes : Nat) : String :=
  String.mk
    [ if dwFileAttributes &&& FILE_ATTRIBUTE_ARCHIVE ≠ 0 then 'A' else '.',
      if dwFileAttributes &&& FILE_ATTRIBUTE_COMPRESSED ≠ 0 then 'C' else '.',
      if dwFileAttributes &&& FILE_ATTRIBUTE_DIRECTORY ≠ 0 then 'D' else '.',
      if dwFileAttributes &&& FILE_ATTRIBUTE_ENCRYPTED ≠ 0 then 'E' else '.',
      if dwFileAttributes &&& FILE_ATTRIBUTE_HIDDEN ≠ 0 then 'H' else '.',
      if dwFileAttributes &&& FILE_ATTRIBUTE_NORMAL ≠ 0 then 'N' else '.',
      if dwFileAttributes &&& FILE_ATTRIBUTE_OFFLINE ≠ 0 then 'O' else '.',
      if dwFileAttributes &&& FILE_ATTRIBUTE_READONLY ≠ 0 then 'R' else '.',
      if dwFileAttributes &&& FILE_ATTRIBUTE_REPARSE_POINT ≠ 0 then 'L' else '.',
      if dwFileAttributes &&& FILE_ATTRIBUTE_SPARSE_FILE ≠ 0 then 'P' else '.',
      if dwFileAttributes &&& FILE_ATTRIBUTE_SYSTEM ≠ 0 then 'S' else '.',
      if dwFileAttributes &&& FILE_ATTRIBUTE_TEMPORARY ≠ 0 then 'T' else '.',
      if dwFileAttributes &&& FILE_ATTRIBUTE_VIRTUAL ≠ 0 then 'V' else '.' ]

/-- Member function `WriteAttributes`. -/
def WriteAttributes (dwFileAttributes : Nat) (w : Writer) : Exec HRESULT :=
  (WriteFormated_A (attributesText dwFileAttributes) w).andThen fun hr w =>
  if FAILED hr then
    (AbandonColumn w).andThen fun _ w => .ok hr w
  else .ok .S_OK w

/-- Member function `WriteFileTime(FILETIME)`. -/
def WriteFileTime_FILETIME (env : Env) (fileTime : FILETIME) (w : Writer) : Exec HRESULT :=
  (visit (fun arg =>
      match arg.kind with
      | .TimestampBuilder => .ok (arg.Append (.timestamp (env.ConvertTo_FILETIME fileTime)))
      | _ => .error (fatal (.NotAValidArrowBuilder .FILETIME)))
    w.m_dwColumnCounter w).andThen fun _ w =>
  (AddColumnAndCheckNumbers w).andThen fun _ w =>
  .ok .S_OK w

/-- Member function `WriteFileTime(LONGLONG)`. -/
def WriteFileTime_LONGLONG (fileTime : Int) (w : Writer) : Exec HRESULT :=
  (visit (fun arg =>
      match arg.kind with
      | .TimestampBuilder => .ok (arg.Append (.timestamp (toInt64 fileTime)))
      | _ => .error (fatal (.NotAValidArrowBuilder .LONGLONG_fileTime)))
    w.m_dwColumnCounter w).andThen fun _ w =>
  (AddColumnAndCheckNumbers w).andThen fun _ w =>
  .ok .S_OK w

/-- Member function `WriteTimeStamp(time_t)`. -/
def WriteTimeStamp_time_t (env : Env) (tmStamp : Int) (w : Writer) : Exec HRESULT :=
  (visit (fun arg =>
      match arg.kind with
      | .TimestampBuilder => .ok (arg.Append (.timestamp (env.ConvertTo_time_t tmStamp)))
      | _ => .error (fatal (.NotAValidArrowBuilder .time_t)))
    w.m_dwColumnCounter w).andThen fun _ w =>
  (AddColumnAndCheckNumbers w).andThen fun _ w =>
  .ok .S_OK w

/-- Member function `WriteTimeStamp(tm)`. -/
def WriteTimeStamp_tm (env : Env) (tmStamp : tm) (w : Writer) : Exec HRESULT :=
  (visit (fun arg =>
      match arg.kind with
      | .TimestampBuilder => .ok (arg.Append (.timestamp (env.ConvertTo_tm tmStamp)))
      | _ => .error (fatal (.NotAValidArrowBuilder .time_t)))
    w.m_dwColumnCounter w).andThen fun _ w =>
  (AddColumnAndCheckNumbers w).andThen fun _ w =>
  .ok .S_OK w

/-- Member function `WriteFileSize(LARGE_INTEGER)`: the signed `QuadPart` is converted to the
unsigned 64-bit value the builder takes. -/
def WriteFileSize_LARGE_INTEGER (fileSize : LARGE_INTEGER) (w : Writer) : Exec HRESULT :=
  (visit (fun arg =>
      match arg.kind with
      | .UInt64Builder => .ok (arg.Append (.uint64 (toUInt64 fileSize.QuadPart)))
      | _ => .error (fatal (.NotAValidArrowBuilder .LARGE_INTEGER_FileSize)))
    w.m_dwColumnCounter w).andThen fun _ w =>
  (AddColumnAndCheckNumbers w).andThen fun _ w =>
  .ok .S_OK w

/-- Member function `WriteFileSize(ULONGLONG)`. -/
def WriteFileSize_ULONGLONG (fileSize : Nat) (w : Writer) : Exec HRESULT :=
  (visit (fun arg =>
      match arg.kind with
      | .UInt64Builder => .ok (arg.Append (.uint64 (fileSize % 2 ^ 64)))
      | _ => .error (fatal (.NotAValidArrowBuilder .ULONGLONG_FileSize)))
    w.m_dwColumnCounter w).andThen fun _ w =>
  (AddColumnAndCheckNumbers w).andThen fun _ w =>
  .ok .S_OK w

/-- Member function `WriteFileSize(DWORD, DWORD)`: the unsigned high half is stored into the
signed `HighPart`. -/
def WriteFileSize_DWORD_DWORD (nFileSizeHigh nFileSizeLow : Nat) (w : Writer) : Exec HRESULT :=
  WriteFileSize_LARGE_INTEGER ⟨toInt32 nFileSizeHigh, nFileSizeLow % 2 ^ 32⟩ w

/-- Member function `WriteBool`. -/
def WriteBool (bBoolean : Bool) (w : Writer) : Exec HRESULT :=
  (visit (fun arg =>
      match arg.kind with
      | .BooleanBuilder => .ok (arg.Append (.bool bBoolean))
      | _ => .error (fatal (.NotAValidArrowBuilder .boolean)))
    w.m_dwColumnCounter w).andThen fun _ w =>
  (AddColumnAndCheckNumbers w).andThen fun _ w =>
  .ok .S_OK w

/-- Member function `WriteEnum(DWORD)`. -/
def WriteEnum (dwEnum : Nat) (w : Writer) : Exec HRESULT :=
  (visit (fun arg =>
      match arg.kind with
      | .UInt32Builder => .ok (arg.Append (.uint32 (dwEnum % 2 ^ 32)))
      | .Int32Builder => .ok (arg.Append (.int32 (toInt32 dwEnum)))
      | _ => .error (fatal (.NotAValidArrowBuilder .enum)))
    w.m_dwColumnCounter w).andThen fun _ w =>
  (AddColumnAndCheckNumbers w).andThen fun _ w =>
  .ok .S_OK w

/-- Member function `WriteEnum(DWORD, const WCHAR*[])`: the name table is not used. -/
def WriteEnum_names (dwEnum : Nat) (_EnumValues : List WString) (w : Writer) : Exec HRESULT :=
  WriteEnum dwEnum w

/-- Member function `WriteFlags(DWORD)`. -/
def WriteFlags (dwFlags : Nat) (w : Writer) : Exec HRESULT :=
  (visit (fun arg =>
      match arg.kind with
      | .UInt32Builder => .ok (arg.Append (.uint32 (dwFlags % 2 ^ 32)))
      | .Int32Builder => .ok (arg.Append (.int32 (toInt32 dwFlags)))
      | _ => .error (fatal (.NotAValidArrowBuilder .enum)))
    w.m_dwColumnCounter w).andThen fun _ w =>
  (AddColumnAndCheckNumbers w).andThen fun _ w =>
  .ok .S_OK w

/-- Member function `WriteFlags(DWORD, const FlagsDefinition[], WCHAR)`: the definitions and
the separator are not used. -/
def WriteFlags_defs (dwFlags : Nat) (_FlagValues : List FlagValue) (_cSeparator : Nat)
    (w : Writer) : Exec HRESULT :=
  WriteFlags dwFlags w

/-- Member function `WriteExactFlags(DWORD)`: the body ends after the visit. -/
def WriteExactFlags (dwFlags : Nat) (w : Writer) : Exec HRESULT :=
  (visit (fun arg =>
      match arg.kind with
      | .UInt32Builder => .ok (arg.Append (.uint32 (dwFlags % 2 ^ 32)))
      | .Int32Builder => .ok (arg.Append (.int32 (toInt32 dwFlags)))
      | _ => .error (fatal (.NotAValidArrowBuilder .enum)))
    w.m_dwColumnCounter w).andThen fun _ w =>
  .ok .S_OK w

/-- Member function `WriteExactFlags(DWORD, const FlagsDefinition[])`. -/
def WriteExactFlags_defs (dwFlags : Nat) (_FlagValues : List FlagValue) (w : Writer) :
    Exec HRESULT :=
  WriteExactFlags dwFlags w

/-- Member function `WriteGUID`: the builder copies its byte width from the address of the
GUID. -/
def WriteGUID (guid : GUID) (w : Writer) : Exec HRESULT :=
  (visit (fun arg =>
      match arg.kind with
      | .FixedSizeBinaryBuilder => .ok (arg.Append (.fixed (guid.take arg.byte_width)))
      | _ => .error (fatal (.NotAValidArrowBuilder .GUID)))
    w.m_dwColumnCounter w).andThen fun _ w =>
  (AddColumnAndCheckNumbers w).andThen fun _ w =>
  .ok .S_OK w

/-- The visitor shared by the XML writes: only a binary builder takes the bytes. -/
def xmlVisitor (bytes : List Nat) (arg : Builder) : Except Exception Builder :=
  match arg.kind with
  | .BinaryBuilder => .ok (arg.Append (.binary bytes))
  | _ => .error (fatal (.NotAValidArrowBuilder .XML))

/-- Member function `WriteXML(const WCHAR*)`. -/
def WriteXML_WCHAR (szString : WString) (w : Writer) : Exec HRESULT :=
  (visit (xmlVisitor (wideBytes (szString.take (szString.length % 2 ^ 32))))
    w.m_dwColumnCounter w).andThen fun _ w =>
  (AddColumnAndCheckNumbers w).andThen fun _ w =>
  .ok .S_OK w

/-- Member function `WriteXML(const WCHAR*, DWORD)`. -/
def WriteXML_WCHAR_count (szString : WString) (dwCharCount : Nat) (w : Writer) : Exec HRESULT :=
  (visit (xmlVisitor (wideBytes (szString.take dwCharCount))) w.m_dwColumnCounter w).andThen
    fun _ w =>
  (AddColumnAndCheckNumbers w).andThen fun _ w =>
  .ok .S_OK w

/-- Member function `WriteXML(const CHAR*)`. -/
def WriteXML_CHAR (szString : String) (w : Writer) : Exec HRESULT :=
  (visit (xmlVisitor (ansiBytes szString)) w.m_dwColumnCounter w).andThen fun _ w =>
  (AddColumnAndCheckNumbers w).andThen fun _ w =>
  .ok .S_OK w

/-- Member function `WriteXML(const CHAR*, DWORD)`. -/
def WriteXML_CHAR_count (szString : String) (dwCharCount : Nat) (w : Writer) : Exec HRESULT :=
  (visit (xmlVisitor (ansiBytes (ansiTake szString dwCharCount))) w.m_dwColumnCounter w).andThen
    fun _ w =>
  (AddColumnAndCheckNumbers w).andThen fun _ w =>
  .ok .S_OK w

/-- Member function `WriteInteger(DWORD)`. -/
def WriteInteger_DWORD (dwInteger : Nat) (w : Writer) : Exec HRESULT :=
  (visit (fun arg =>
      match arg.kind with
      | .UInt32Builder => .ok (arg.Append (.uint32 (dwInteger % 2 ^ 32)))
      | .Int32Builder => .ok (arg.Append (.int32 (toInt32 dwInteger)))
      | .UInt64Builder => .ok (arg.Append (.uint64 (dwInteger % 2 ^ 32)))
      | .Int64Builder => .ok (arg.Append (.int64 ((dwInteger % 2 ^ 32 : Nat) : Int)))
      | _ => .error (fatal (.NotAValidArrowBuilder .DWORD)))
    w.m_dwColumnCounter w).andThen fun _ w =>
  (AddColumnAndCheckNumbers w).andThen fun _ w =>
  .ok .S_OK w

/-- Member function `WriteInteger(LONGLONG)`. -/
def WriteInteger_LONGLONG (llInteger : Int) (w : Writer) : Exec HRESULT :=
  (visit (fun arg =>
      match arg.kind with
      | .UInt64Builder => .ok (arg.Append (.uint64 (toUInt64 llInteger)))
      | .Int64Builder => .ok (arg.Append (.int64 (toInt64 llInteger)))
      | _ => .error (fatal (.NotAValidArrowBuilder .LONGLONG)))
    w.m_dwColumnCounter w).andThen fun _ w =>
  (AddColumnAndCheckNumbers w).andThen fun _ w =>
  .ok .S_OK w

/-- Member function `WriteInteger(ULONGLONG)`. -/
def WriteInteger_ULONGLONG (ullInteger : Nat) (w : Writer) : Exec HRESULT :=
  (visit (fun arg =>
      match arg.kind with
      | .UInt64Builder => .ok (arg.Append (.uint64 (ullInteger % 2 ^ 64)))
      | .Int64Builder => .ok (arg.Append (.int64 (toInt64 ullInteger)))
      | _ => .error (fatal (.NotAValidArrowBuilder .ULONGLONG)))
    w.m_dwColumnCounter w).andThen fun _ w =>
  (AddColumnAndCheckNumbers w).andThen fun _ w =>
  .ok .S_OK w

/-- Member function `WriteBytes(const BYTE[], DWORD)`: the builder is handed the address of the
parameter `pBytes` and the length `sizeof(dwLen)`, so it copies the four low bytes of the
pointer value. -/
def WriteBytes (pBytes : BytePtr) (_dwLen : Nat) (w : Writer) : Exec HRESULT :=
  (visit (fun arg =>
      match arg.kind with
      | .BinaryBuilder => .ok (arg.Append (.binary (leBytes 4 pBytes.address)))
      | _ => .error (fatal (.NotAValidArrowBuilder .LONGLONG_hex)))
    w.m_dwColumnCounter w).andThen fun _ w =>
  (AddColumnAndCheckNumbers w).andThen fun _ w =>
  .ok .S_OK w

/-- Member function `WriteBytes(const CBinaryBuffer&)`; the buffer is given by its data pointer,
and its count is the number of bytes there. -/
def WriteBytes_CBinaryBuffer (Buffer : BytePtr) (w : Writer) : Exec HRESULT :=
  WriteBytes Buffer (Buffer.bytes.length % 2 ^ 32) w

/-! ## Operations as data, and sequences of operations -/

/-- A call of one of the writer's public member functions, with its arguments. -/
inductive Op where
  | SetSchema (columns : Schema)
  | Flush
  | Close
  | WriteNothing
  | AbandonRow
  | AbandonColumn
  | WriteEndOfLine
  | WriteString_wstring (strString : WString)
  | WriteString_wstring_view (strString : WString)
  | WriteString_WCHAR (szString : WString)
  | WriteCharArray_WCHAR (szString : WString) (dwCharCount : Nat)
  | WriteFormated_W (buffer : WString)
  | WriteString_string (strString : String)
  | WriteString_string_view (strString : String)
  | WriteString_CHAR (szString : String)
  | WriteCharArray_CHAR (szString : String) (dwCharCount : Nat)
  | WriteFormated_A (buffer : String)
  | WriteAttributes (dwFileAttributes : Nat)
  | WriteFileTime_FILETIME (fileTime : FILETIME)
  | WriteFileTime_LONGLONG (fileTime : Int)
  | WriteTimeStamp_time_t (tmStamp : Int)
  | WriteTimeStamp_tm (tmStamp : tm)
  | WriteFileSize_LARGE_INTEGER (fileSize : LARGE_INTEGER)
  | WriteFileSize_ULONGLONG (fileSize : Nat)
  | WriteFileSize_DWORD_DWORD (nFileSizeHigh nFileSizeLow : Nat)
  | WriteBool (bBoolean : Bool)
  | WriteEnum (dwEnum : Nat)
  | WriteEnum_names (dwEnum : Nat) (EnumValues : List WString)
  | WriteFlags (dwFlags : Nat)
  | WriteFlags_defs (dwFlags : Nat) (FlagValues : List FlagValue) (cSeparator : Nat)
  | WriteExactFlags (dwFlags : Nat)
  | WriteExactFlags_defs (dwFlags : Nat) (FlagValues : List FlagValue)
  | WriteGUID (guid : GUID)
  | WriteXML_WCHAR (szString : WString)
  | WriteXML_WCHAR_count (szString : WString) (dwCharCount : Nat)
  | WriteXML_CHAR (szString : String)
  | WriteXML_CHAR_count (szString : String) (dwCharCount : Nat)
  | WriteInteger_DWORD (dwInteger : Nat)
  | WriteInteger_LONGLONG (llInteger : Int)
  | WriteInteger_ULONGLONG (ullInteger : Nat)
  | WriteBytes (pBytes : BytePtr) (dwLen : Nat)
  | WriteBytes_CBinaryBuffer (Buffer : BytePtr)
  deriving DecidableEq, Repr

/-- The call an `Op` stands for. -/
def Op.run (env : Env) : Op → Writer → Exec HRESULT
  | .SetSchema columns => Orc.SetSchema env columns
  | .Flush => Orc.Flush env
  | .Close => Orc.Close env
  | .WriteNothing => Orc.WriteNothing
  | .AbandonRow => Orc.AbandonRow
  | .AbandonColumn => Orc.AbandonColumn
  | .WriteEndOfLine => Orc.WriteEndOfLine env
  | .WriteString_wstring s => Orc.WriteString_wstring env s
  | .WriteString_wstring_view s => Orc.WriteString_wstring_view env s
  | .WriteString_WCHAR s => Orc.WriteString_WCHAR env s
  | .WriteCharArray_WCHAR s n => Orc.WriteCharArray_WCHAR env s n
  | .WriteFormated_W buffer => Orc.WriteFormated_W env buffer
  | .WriteString_string s => Orc.WriteString_string s
  | .WriteString_string_view s => Orc.WriteString_string_view s
  | .WriteString_CHAR s => Orc.WriteString_CHAR s
  | .WriteCharArray_CHAR s n => Orc.WriteCharArray_CHAR s n
  | .WriteFormated_A buffer => Orc.WriteFormated_A buffer
  | .WriteAttributes dwFileAttributes => Orc.WriteAttributes dwFileAttributes
  | .WriteFileTime_FILETIME fileTime => Orc.WriteFileTime_FILETIME env fileTime
  | .WriteFileTime_LONGLONG fileTime => Orc.WriteFileTime_LONGLONG fileTime
  | .WriteTimeStamp_time_t tmStamp => Orc.WriteTimeStamp_time_t env tmStamp
  | .WriteTimeStamp_tm tmStamp => Orc.WriteTimeStamp_tm env tmStamp
  | .WriteFileSize_LARGE_INTEGER fileSize => Orc.WriteFileSize_LARGE_INTEGER fileSize
  | .WriteFileSize_ULONGLONG fileSize => Orc.WriteFileSize_ULONGLONG fileSize
  | .WriteFileSize_DWORD_DWORD high low => Orc.WriteFileSize_DWORD_DWORD high low
  | .WriteBool bBoolean => Orc.WriteBool bBoolean
  | .WriteEnum dwEnum => Orc.WriteEnum dwEnum
  | .WriteEnum_names dwEnum EnumValues => Orc.WriteEnum_names dwEnum EnumValues
  | .WriteFlags dwFlags => Orc.WriteFlags dwFlags
  | .WriteFlags_defs dwFlags FlagValues cSeparator =>
    Orc.WriteFlags_defs dwFlags FlagValues cSeparator
  | .WriteExactFlags dwFlags => Orc.WriteExactFlags dwFlags
  | .WriteExactFlags_defs dwFlags FlagValues => Orc.WriteExactFlags_defs dwFlags FlagValues
  | .WriteGUID guid => Orc.WriteGUID guid
  | .WriteXML_WCHAR s => Orc.WriteXML_WCHAR s
  | .WriteXML_WCHAR_count s n => Orc.WriteXML_WCHAR_count s n
  | .WriteXML_CHAR s => Orc.WriteXML_CHAR s
  | .WriteXML_CHAR_count s n => Orc.WriteXML_CHAR_count s n
  | .WriteInteger_DWORD dwInteger => Orc.WriteInteger_DWORD dwInteger
  | .WriteInteger_LONGLONG llInteger => Orc.WriteInteger_LONGLONG llInteger
  | .WriteInteger_ULONGLONG ullInteger => Orc.WriteInteger_ULONGLONG ullInteger
  | .WriteBytes pBytes dwLen => Orc.WriteBytes pBytes dwLen
  | .WriteBytes_CBinaryBuffer Buffer => Orc.WriteBytes_CBinaryBuffer Buffer

/-- The value writes: every `Write...` member function that hands a value to the builder under
the cursor. -/
def Op.isValueWrite : Op → Bool
  | .SetSchema _ | .Flush | .Close | .WriteNothing | .AbandonRow | .AbandonColumn
  | .WriteEndOfLine => false
  | _ => true

/-- The two overloads of `WriteExactFlags`, the one value write whose body does not call
`AddColumnAndCheckNumbers`. -/
def Op.isExactFlags : Op → Bool
  | .WriteExactFlags _ | .WriteExactFlags_defs _ _ => true
  | _ => false

/-- The overloads of `WriteBool`, `WriteInteger`, `WriteString`, `WriteCharArray`,
`WriteFileTime`, `WriteTimeStamp`, `WriteFileSize`, `WriteEnum`, `WriteFlags`, `WriteGUID` and
`WriteXML`. -/
def Op.isTypedWrite : Op → Bool
  | .WriteString_wstring _ | .WriteString_wstring_view _ | .WriteString_WCHAR _
  | .WriteCharArray_WCHAR _ _ | .WriteString_string _ | .WriteString_string_view _
  | .WriteString_CHAR _ | .WriteCharArray_CHAR _ _ | .WriteFileTime_FILETIME _
  | .WriteFileTime_LONGLONG _ | .WriteTimeStamp_time_t _ | .WriteTimeStamp_tm _
  | .WriteFileSize_LARGE_INTEGER _ | .WriteFileSize_ULONGLONG _ | .WriteFileSize_DWORD_DWORD _ _
  | .WriteBool _ | .WriteEnum _ | .WriteEnum_names _ _ | .WriteFlags _ | .WriteFlags_defs _ _ _
  | .WriteGUID _ | .WriteXML_WCHAR _ | .WriteXML_WCHAR_count _ _ | .WriteXML_CHAR _
  | .WriteXML_CHAR_count _ _ | .WriteInteger_DWORD _ | .WriteInteger_LONGLONG _
  | .WriteInteger_ULONGLONG _ => true
  | _ => false

/-- The builder classes whose branch of the operation's visitor appends (every other class goes
to the `else` branch that throws). -/
def Op.accepts : Op → BuilderKind → Bool
  | .WriteString_wstring _, k | .WriteString_wstring_view _, k | .WriteString_WCHAR _, k
  | .WriteCharArray_WCHAR _ _, k => k = .BinaryBuilder || k = .StringBuilder
  | .WriteFormated_W buffer, k =>
    if buffer.isEmpty then k ≠ .ArrayBuilder else k = .BinaryBuilder || k = .StringBuilder
  | .WriteString_string _, k | .WriteString_string_view _, k | .WriteString_CHAR _, k
  | .WriteCharArray_CHAR _ _, k => k = .StringBuilder
  | .WriteFormated_A buffer, k =>
    if buffer.data.isEmpty then k ≠ .ArrayBuilder else k = .StringBuilder
  | .WriteAttributes _, k => k = .StringBuilder
  | .WriteFileTime_FILETIME _, k | .WriteFileTime_LONGLONG _, k | .WriteTimeStamp_time_t _, k
  | .WriteTimeStamp_tm _, k => k = .TimestampBuilder
  | .WriteFileSize_LARGE_INTEGER _, k | .WriteFileSize_ULONGLONG _, k
  | .WriteFileSize_DWORD_DWORD _ _, k => k = .UInt64Builder
  | .WriteBool _, k => k = .BooleanBuilder
  | .WriteEnum _, k | .WriteEnum_names _ _, k | .WriteFlags _, k | .WriteFlags_defs _ _ _, k
  | .WriteExactFlags _, k | .WriteExactFlags_defs _ _, k =>
    k = .UInt32Builder || k = .Int32Builder
  | .WriteGUID _, k => k = .FixedSizeBinaryBuilder
  | .WriteXML_WCHAR _, k | .WriteXML_WCHAR_count _ _, k | .WriteXML_CHAR _, k
  | .WriteXML_CHAR_count _ _, k | .WriteBytes _ _, k | .WriteBytes_CBinaryBuffer _, k =>
    k = .BinaryBuilder
  | .WriteInteger_DWORD _, k =>
    k = .UInt32Builder || k = .Int32Builder || k = .UInt64Builder || k = .Int64Builder
  | .WriteInteger_LONGLONG _, k | .WriteInteger_ULONGLONG _, k =>
    k = .UInt64Builder || k = .Int64Builder
  | _, _ => false

/-- A sequence of calls on one writer. A call that throws leaves the writer in the state it had
at the `throw`, and the next call goes on from there; after undefined behaviour there is no
state to go on from. -/
def runOps (env : Env) : List Op → Writer → Option Writer
  | [], w => some w
  | op :: ops, w =>
    match (op.run env w).state with
    | some w1 => runOps env ops w1
    | none => none

/-- The writer as constructed: no schema, no builders, no file, all counters zero, and the
termination handler registered by `MakeNew`. -/
def Writer.new (options : Option Options) : Writer :=
  { m_Options := options
    m_Schema := []
    m_dwColumnNumber := 0
    m_dwColumnCounter := 0
    m_dwBatchRowCount := 0
    m_dwTotalRowCount := 0
    m_arrowSchema := none
    m_arrowBuilders := []
    m_arrowWriter := none
    m_pTermination := true }

/-- An environment for worked examples: 7-bit text transcodes to itself and anything else fails,
timestamps are taken as they are, and the arrow and parquet calls succeed. -/
def Env.sample : Env :=
  { WideToAnsi := fun s =>
      if s.all (fun c => c < 128) then some (String.mk (s.map Char.ofNat)) else none
    ConvertTo_FILETIME := fun t => t.dwHighDateTime * 2 ^ 32 + t.dwLowDateTime
    ConvertTo_time_t := fun t => t
    ConvertTo_tm := fun t => t.tm_sec
    MakeBuilder := fun _ => true
    TableMake := fun _ => true
    WriteTable := fun _ _ => true }

/-- The configured batch-size threshold, if there is one: the test
`m_Options && m_Options->BatchSize.has_value()` of `WriteEndOfLine`. -/
def Writer.batchSize (w : Writer) : Option Nat :=
  match w.m_Options with
  | none => none
  | some options => options.BatchSize

/-- A two-column schema for worked examples: `name` (8-bit text) and `size` (unsigned 64-bit). -/
def Schema.sample : Schema :=
  [ ⟨[110, 97, 109, 101], .UTF8Type, none, none, none⟩,
    ⟨[115, 105, 122, 101], .UInt64Type, none, none, none⟩ ]

/-- A writer for worked examples, as `SetSchema` leaves it for `Schema.sample`, with an open,
still empty file and the given options. -/
def Writer.sample (options : Option Options) : Writer :=
  { m_Options := options
    m_Schema := Schema.sample
    m_dwColumnNumber := 2
    m_dwColumnCounter := 0
    m_dwBatchRowCount := 0
    m_dwTotalRowCount := 0
    m_arrowSchema := some [⟨"name", .utf8, true, none⟩, ⟨"size", .uint64, true, none⟩]
    m_arrowBuilders := [⟨.StringBuilder, .utf8, []⟩, ⟨.UInt64Builder, .uint64, []⟩]
    m_arrowWriter := some []
    m_pTermination := true }

/-- A one-column schema for worked examples: `flags` (a flags column). -/
def Schema.flagsSample : Schema :=
  [ ⟨[102, 108, 97, 103, 115], .FlagsType, none, none, none⟩ ]

/-- A writer for worked examples, as `SetSchema` leaves it for `Schema.flagsSample`, with an
open, still empty file and no options. -/
def Writer.flagsSample : Writer :=
  { m_Options := none
    m_Schema := Schema.flagsSample
    m_dwColumnNumber := 1
    m_dwColumnCounter := 0
    m_dwBatchRowCount := 0
    m_dwTotalRowCount := 0
    m_arrowSchema := some [⟨"flags", .uint32, true, none⟩]
    m_arrowBuilders := [⟨.UInt32Builder, .uint32, []⟩]
    m_arrowWriter := some []
    m_pTermination := true }

/-- The states a sequence of calls goes through, one after each call (see `runOps`). -/
def runTrace (env : Env) : List Op → Writer → List Writer
  | [], _ => []
  | op :: ops, w =>
    match (op.run env w).state with
    | some w1 => w1 :: runTrace env ops w1
    | none => []

/-- Along a sequence of calls, every `SetSchema` is given a schema with at least as many columns
as the cursor has advanced (as it is between rows, with the cursor at 0), or the empty schema. -/
def schemaCoversCursor (env : Env) : List Op → Writer → Bool
  | [], _ => true
  | op :: ops, w =>
    (match op with
      | .SetSchema columns => columns.isEmpty || decide (w.m_dwColumnCounter ≤ columns.length)
      | _ => true) &&
    (match (op.run env w).state with
      | some w1 => schemaCoversCursor env ops w1
      | none => true)

/-- What every call leaves alone unless it says otherwise: the two row counters, the column
count, the options. -/
structure Writer.SameRows (w w1 : Writer) : Prop where
  batch : w1.m_dwBatchRowCount = w.m_dwBatchRowCount
  total : w1.m_dwTotalRowCount = w.m_dwTotalRowCount
  number : w1.m_dwColumnNumber = w.m_dwColumnNumber
  options : w1.m_Options = w.m_Options

/-- What all calls but `SetSchema` and `WriteEndOfLine` keep: the row counters, the column
count, the options, and the cursor within the column count. -/
def Writer.Keeps (w w1 : Writer) : Prop :=
  w.SameRows w1 ∧
    (w.m_dwColumnCounter ≤ w.m_dwColumnNumber → w1.m_dwColumnCounter ≤ w1.m_dwColumnNumber)

/-- The builders are the ones `GetBuilders` makes for `m_arrowSchema`, with whatever entries
have been appended since: finished, they are exactly the fresh builders of the schema. This is
how `SetSchema` and `Flush` leave the writer, and appending keeps it. -/
def Writer.buildersMatchSchema (env : Env) (w : Writer) : Bool :=
  match w.m_arrowSchema with
  | none => false
  | some fields =>
    match GetBuilders.fields env fields [] with
    | .ok fresh => decide (fresh = w.m_arrowBuilders.map Builder.afterFinish)
    | .error _ => false

/-- The 16-bit text a wide string write hands to `WideToAnsi` when the builder under the cursor
is a string builder. -/
def Op.wideText : Op → Option WString
  | .WriteString_wstring strString => some strString
  | .WriteString_wstring_view strString => some strString
  | .WriteString_WCHAR szString => some szString
  | .WriteCharArray_WCHAR szString dwCharCount => some (szString.take dwCharCount)
  | _ => none

/-- The backend type of a column after the words of the spec: Bool and the eight sized integers
go to the type of the same name, Timestamp to a microsecond timestamp, Utf8Text to string,
Utf16Text, Binary and Xml to variable binary, FixedBinary(len) to fixed binary of width `len`,
Guid to fixed binary of width 16, Enum and Flags to uint32 (and the absent type to null). -/
def specBackendType (column : Column) : Option DataType :=
  match column.ColType with
  | .Nothing => some .null
  | .BoolType => some .boolean
  | .UInt8Type => some .uint8
  | .Int8Type => some .int8
  | .UInt16Type => some .uint16
  | .Int16Type => some .int16
  | .UInt32Type => some .uint32
  | .Int32Type => some .int32
  | .UInt64Type => some .uint64
  | .Int64Type => some .int64
  | .TimeStampType => some (.timestamp .MICRO)
  | .UTF16Type => some .binary
  | .UTF8Type => some .utf8
  | .BinaryType => some .binary
  | .FixedBinaryType => column.dwLen.map DataType.fixed_size_binary
  | .GUIDType => some (.fixed_size_binary 16)
  | .EnumType => some .uint32
  | .XMLType => some .binary
  | .FlagsType => some .uint32
  | .Other => none

/-- The accumulator kind that matches a semantic type, after the words of the spec. -/
def specBuilderKind : ColumnType → Option BuilderKind
  | .Nothing => some .NullBuilder
  | .BoolType => some .BooleanBuilder
  | .UInt8Type => some .UInt8Builder
  | .Int8Type => some .Int8Builder
  | .UInt16Type => some .UInt16Builder
  | .Int16Type => some .Int16Builder
  | .UInt32Type => some .UInt32Builder
  | .Int32Type => some .Int32Builder
  | .UInt64Type => some .UInt64Builder
  | .Int64Type => some .Int64Builder
  | .TimeStampType => some .TimestampBuilder
  | .UTF16Type => some .BinaryBuilder
  | .UTF8Type => some .StringBuilder
  | .BinaryType => some .BinaryBuilder
  | .FixedBinaryType => some .FixedSizeBinaryBuilder
  | .GUIDType => some .FixedSizeBinaryBuilder
  | .EnumType => some .UInt32Builder
  | .XMLType => some .BinaryBuilder
  | .FlagsType => some .UInt32Builder
  | .Other => none

/-- The thirteen attribute letters in their fixed order, each with the position of its bit in
the attribute mask: ARCHIVE, COMPRESSED, DIRECTORY, ENCRYPTED, HIDDEN, NORMAL, OFFLINE,
READONLY, REPARSE_POINT, SPARSE_FILE, SYSTEM, TEMPORARY, VIRTUAL. -/
def attributeTable : List (Char × Nat) :=
  [('A', 5), ('C', 11), ('D', 4), ('E', 14), ('H', 1), ('N', 7), ('O', 12), ('R', 0), ('L', 10),
    ('P', 9), ('S', 2), ('T', 8), ('V', 16)]

/-- A two-column schema whose second column has a name that does not transcode (a lone
surrogate). -/
def Schema.badNameSample : Schema :=
  [ ⟨[110, 97, 109, 101], .UTF8Type, none, none, none⟩,
    ⟨[55296], .UInt64Type, none, none, none⟩ ]

/-- The thirteen attribute bits `WriteAttributes` tests, as one mask. -/
def knownAttributes : Nat :=
  FILE_ATTRIBUTE_ARCHIVE ||| FILE_ATTRIBUTE_COMPRESSED ||| FILE_ATTRIBUTE_DIRECTORY |||
    FILE_ATTRIBUTE_ENCRYPTED ||| FILE_ATTRIBUTE_HIDDEN ||| FILE_ATTRIBUTE_NORMAL |||
    FILE_ATTRIBUTE_OFFLINE ||| FILE_ATTRIBUTE_READONLY ||| FILE_ATTRIBUTE_REPARSE_POINT |||
    FILE_ATTRIBUTE_SPARSE_FILE ||| FILE_ATTRIBUTE_SYSTEM ||| FILE_ATTRIBUTE_TEMPORARY |||
    FILE_ATTRIBUTE_VIRTUAL

/-- Reading attribute characters back against a table of letters and bit positions: a position
that holds its letter gives its bit. -/
def attributesDecode.positions : List Char → List (Char × Nat) → Nat
  | c :: cs, (letter, bit) :: rest =>
    (if c = letter then 2 ^ bit else 0) ||| attributesDecode.positions cs rest
  | _, _ => 0

/-- The decoding the round trip of the spec speaks of (the writer itself has no decoder): the
mask of the positions of an attribute text that hold their letter. -/
def attributesDecode (text : String) : Nat :=
  attributesDecode.positions text.data attributeTable

/-- A one-column schema for worked examples: `data` (a binary column). -/
def Schema.binarySample : Schema :=
  [ ⟨[100, 97, 116, 97], .BinaryType, none, none, none⟩ ]

/-- A writer for worked examples, as `SetSchema` leaves it for `Schema.binarySample`, with an
open, still empty file and no options. -/
def Writer.binarySample : Writer :=
  { m_Options := none
    m_Schema := Schema.binarySample
    m_dwColumnNumber := 1
    m_dwColumnCounter := 0
    m_dwBatchRowCount := 0
    m_dwTotalRowCount := 0
    m_arrowSchema := some [⟨"data", .binary, true, none⟩]
    m_arrowBuilders := [⟨.BinaryBuilder, .binary, []⟩]
    m_arrowWriter := some []
    m_pTermination := true }

/-- The calls the row alignment is about: the value writes other than `WriteExactFlags`,
`WriteNothing`, `AbandonColumn`, `AbandonRow`, `WriteEndOfLine`, and `Flush` when it is called
with the cursor at 0. -/
def Op.isRowCall (op : Op) (w : Writer) : Bool :=
  match op with
  | .WriteNothing | .AbandonColumn | .AbandonRow | .WriteEndOfLine => true
  | .Flush => decide (w.m_dwColumnCounter = 0)
  | op => op.isValueWrite && !op.isExactFlags

/-- The rows completed since the last flush, after the call `op` has returned from the state
`w` in which they were `r`: a `Flush` takes them to 0, a `WriteEndOfLine` completes one more
row and then flushes exactly when a batch size is configured and the incremented
`m_dwBatchRowCount` has reached it, and no other call changes them. -/
def rowsSinceFlush (op : Op) (w : Writer) (r : Nat) : Nat :=
  match op with
  | .Flush => 0
  | .WriteEndOfLine =>
    match w.batchSize with
    | some BatchSize => if BatchSize ≤ w.m_dwBatchRowCount + 1 then 0 else r + 1
    | none => r + 1
  | _ => r

/-- A sequence of row calls every one of which returns (with whatever result): the state it
leaves, with the rows completed since the last flush, counted from `r`. There is no result when
a call is not a row call, throws, or is undefined. -/
def runRows (env : Env) : List Op → Writer → Nat → Option (Writer × Nat)
  | [], w, r => some (w, r)
  | op :: ops, w, r =>
    if op.isRowCall w then
      match op.run env w with
      | .ok _ w1 => runRows env ops w1 (rowsSinceFlush op w r)
      | _ => none
    else none

/-- Row alignment, with `r` rows completed since the last flush: each of the builders before the
cursor holds `r + 1` entries and each of the builders from the cursor to the last column holds
`r` entries. -/
def Writer.rowAligned (w : Writer) (r : Nat) : Bool :=
  (List.range w.m_dwColumnNumber).all fun i =>
    match w.m_arrowBuilders[i]? with
    | some arg => decide (arg.values.length = if i < w.m_dwColumnCounter then r + 1 else r)
    | none => false

/-- The columns of a table all have the same length. -/
def Table.rectangular (t : Table) : Bool :=
  t.arrays.all fun a => decide (a.length = (t.arrays.headD []).length)

/-- What the row calls keep, with `r` rows completed since the last flush: the builders are
those of the backend schema, there is one for each column, the cursor is within the column
count, and the builders are row-aligned. -/
structure Writer.Aligned (env : Env) (w : Writer) (r : Nat) : Prop where
  fresh : w.buildersMatchSchema env = true
  count : w.m_arrowBuilders.length = w.m_dwColumnNumber
  cursor : w.m_dwColumnCounter ≤ w.m_dwColumnNumber
  entries : ∀ i arg, w.m_arrowBuilders[i]? = some arg →
    arg.values.length = if i < w.m_dwColumnCounter then r + 1 else r

/-- A sequence of row calls for worked examples, on the sample writer with a batch size of 2: a
row, a row whose text does not transcode and whose rest is abandoned (the batch is flushed at
its end), a row with an absent name (flushed at its end as well), and the first column of a
fourth row. -/
def Op.rowsSample : List Op :=
  [ .WriteString_string "a.txt", .WriteFileSize_ULONGLONG 10, .WriteEndOfLine,
    .WriteString_wstring [55296], .AbandonRow, .WriteEndOfLine,
    .WriteNothing, .WriteInteger_ULONGLONG 30, .WriteEndOfLine,
    .WriteString_string "d.txt" ]

/-- The state `Op.rowsSample` leaves the sample writer in. -/
def Writer.rowsSampleEnd : Writer :=
  { Writer.sample (some ⟨some 2⟩) with
    m_dwColumnCounter := 1
    m_dwBatchRowCount := 3
    m_dwTotalRowCount := 3
    m_arrowBuilders := [⟨.StringBuilder, .utf8, [.string "d.txt"]⟩, ⟨.UInt64Builder, .uint64, []⟩]
    m_arrowWriter := some
      [ ⟨some [⟨"name", .utf8, true, none⟩, ⟨"size", .uint64, true, none⟩],
          [[.string "a.txt", .null], [.uint64 10, .null]]⟩,
        ⟨some [⟨"name", .utf8, true, none⟩, ⟨"size", .uint64, true, none⟩],
          [[.null], [.uint64 30]]⟩ ] }

/-! ## The nested document writer (`JSONOutputWriter.cpp`) -/

namespace JSON

/-- A wide string literal of 7-bit characters, as its code units. -/
def L (s : String) : WString := s.data.map Char.toNat

/-- A call made on the backend document writer `rapidWriter`: a container token, a key, or a
leaf value. -/
inductive Token where
  | StartObject
  | EndObject
  | StartArray
  | EndArray
  | Key (str : WString)
  | String (str : WString)
  | Uint (u : Nat)
  deriving DecidableEq, Repr

/-- Modelled from the spec: the data members of `Orc::StructuredOutput::JSON::Writer`, which
`JSONOutputWriter.h` (not among the sources) declares. The backend document writer
`rapidWriter` is the sequence of calls made on it so far; the stream `m_Stream` is the number of
times it has been flushed. The writer has no other state: it keeps no stack of open elements. -/
structure Writer where
  rapidWriter : List Token
  m_Stream : Nat
  deriving DecidableEq, Repr

/-- The constructor: it calls `rapidWriter.StartObject()`. -/
def Writer.new : Writer :=
  { rapidWriter := [.StartObject]
    m_Stream := 0 }

/-- Member function `Close`. -/
def Close (w : Writer) : HRESULT × Writer :=
  let w : Writer := { w with rapidWriter := w.rapidWriter ++ [.EndObject] }
  let w : Writer := { w with m_Stream := w.m_Stream + 1 }
  (.S_OK, w)

/-- Member function `BeginElement`; a null `szElement` is `none`. -/
def BeginElement (szElement : Option WString) (w : Writer) : HRESULT × Writer :=
  let w : Writer :=
    match szElement with
    | some name => { w with rapidWriter := w.rapidWriter ++ [.Key name] }
    | none => w
  let w : Writer := { w with rapidWriter := w.rapidWriter ++ [.StartObject] }
  (.S_OK, w)

/-- Member function `EndElement`; the argument is not looked at. -/
def EndElement (_szElement : Option WString) (w : Writer) : HRESULT × Writer :=
  let w : Writer := { w with rapidWriter := w.rapidWriter ++ [.EndObject] }
  (.S_OK, w)

/-- Member function `BeginCollection`; a null `szCollection` is `none`. -/
def BeginCollection (szCollection : Option WString) (w : Writer) : HRESULT × Writer :=
  let w : Writer :=
    match szCollection with
    | some name => { w with rapidWriter := w.rapidWriter ++ [.Key name] }
    | none => w
  let w : Writer := { w with rapidWriter := w.rapidWriter ++ [.StartArray] }
  (.S_OK, w)

/-- Member function `EndCollection`; the argument is not looked at. -/
def EndCollection (_szCollection : Option WString) (w : Writer) : HRESULT × Writer :=
  let w : Writer := { w with rapidWriter := w.rapidWriter ++ [.EndArray] }
  (.S_OK, w)

/-- Member function `Write(LPCWSTR)`. -/
def Write_LPCWSTR (szValue : WString) (w : Writer) : HRESULT × Writer :=
  (.S_OK, { w with rapidWriter := w.rapidWriter ++ [.String szValue] })

/-- Member function `Write(ULONG32, bool)`. `WriteBuffer` is the formatting function of the base
class, which is not among the sources: it is a parameter, giving the text left in the buffer. -/
def Write_ULONG32 (WriteBuffer : Nat → Bool → WString) (dwValue : Nat) (bInHex : Bool)
    (w : Writer) : HRESULT × Writer :=
  if bInHex then
    let buffer := WriteBuffer dwValue bInHex
    (.S_OK, { w with rapidWriter := w.rapidWriter ++ [.String buffer] })
  else
    (.S_OK, { w with rapidWriter := w.rapidWriter ++ [.Uint dwValue] })

/-- How a function that scans a table ends: it returns, or it reads a table slot that does not
exist (undefined behaviour), or its loop is still running after the allowed number of
iterations. -/
inductive Scan (α : Type) where
  | done (a : α)
  | undefined
  | unfinished
  deriving DecidableEq, Repr

/-- The loop of `Write(DWORD, const WCHAR*[])` from loop variable `i` on, with `fuel` iterations
allowed; the result is `szValue` when the loop is left. The table is the slots of the array
`EnumValues`, a null pointer being `none`; `i` is an `unsigned int`. -/
def Write_enum.loop (dwEnum : Nat) (EnumValues : List (Option WString)) :
    Nat → Nat → Scan (Option WString)
  | 0, _ => .unfinished
  | fuel + 1, i =>
    match EnumValues[i]? with
    | none => .undefined
    | some none => .done none
    | some (some value) =>
      if i ≤ dwEnum then
        if i = dwEnum then .done (some value)
        else Write_enum.loop dwEnum EnumValues fuel ((i + 1) % 2 ^ 32)
      else .done none

/-- Member function `Write(DWORD dwEnum, const WCHAR* EnumValues[])`. The loop is given
`dwEnum + 1` iterations, as many as values of `i` pass its test `i <= dwEnum`. -/
def Write_enum (dwEnum : Nat) (EnumValues : List (Option WString)) (w : Writer) :
    Scan (HRESULT × Writer) :=
  match Write_enum.loop dwEnum EnumValues (dwEnum + 1) 0 with
  | .done szValue =>
    let szValue :=
      match szValue with
      | none => L "IllegalEnumValue"
      | some value => value
    .done (.S_OK, { w with rapidWriter := w.rapidWriter ++ [.String szValue] })
  | .undefined => .undefined
  | .unfinished => .unfinished

/-- Modelled from the spec: the `FlagsDefinition` structure (its header is not among the
sources), with the flag value and the two descriptions, either of which may be a null
pointer. -/
structure FlagsDefinition where
  dwFlag : Nat
  szShortDescr : Option WString
  szLongDescr : Option WString
  deriving DecidableEq, Repr

/-- The loop of `Write(DWORD, const FlagsDefinition[])` from loop variable `idx` on, with `fuel`
iterations allowed; the result is `szValue` when the loop is left. `idx` is an
`unsigned int`. -/
def Write_exactFlags.loop (dwFlags : Nat) (FlagValues : List FlagsDefinition) :
    Nat → Nat → Scan (Option WString)
  | 0, _ => .unfinished
  | fuel + 1, idx =>
    match FlagValues[idx]? with
    | none => .undefined
    | some definition =>
      if definition.dwFlag ≠ 0xFFFFFFFF then
        if dwFlags = definition.dwFlag then .done definition.szShortDescr
        else Write_exactFlags.loop dwFlags FlagValues fuel ((idx + 1) % 2 ^ 32)
      else .done none

/-- Member function `Write(DWORD dwFlags, const FlagsDefinition FlagValues[])`, the exact-flags
write. The loop is given one iteration per slot of the table and one more. -/
def Write_exactFlags (WriteBuffer : Nat → Bool → WString) (dwFlags : Nat)
    (FlagValues : List FlagsDefinition) (w : Writer) : Scan (HRESULT × Writer) :=
  let hr := HRESULT.E_FAIL
  match Write_exactFlags.loop dwFlags FlagValues (FlagValues.length + 1) 0 with
  | .done none =>
    let r := Write_ULONG32 WriteBuffer (dwFlags % 2 ^ 32) true w
    if FAILED r.1 then .done (hr, r.2)
    else .done (.S_OK, r.2)
  | .done (some szValue) => .done (Write_LPCWSTR szValue w)
  | .undefined => .undefined
  | .unfinished => .unfinished

/-- The two kinds of container of a document. -/
inductive Container where
  | Object
  | Array
  deriving DecidableEq, Repr

/-- What a token does to the stack of open containers (innermost first): a start token opens a
container, an end token closes the innermost one if it is of its kind and is otherwise
misplaced (`none`), a key or a leaf leaves the stack alone. -/
def Token.apply : Token → List Container → Option (List Container)
  | .StartObject, stack => some (.Object :: stack)
  | .EndObject, .Object :: stack => some stack
  | .StartArray, stack => some (.Array :: stack)
  | .EndArray, .Array :: stack => some stack
  | .Key _, stack => some stack
  | .String _, stack => some stack
  | .Uint _, stack => some stack
  | _, _ => none

/-- The containers left open by a sequence of tokens (innermost first), or `none` when some end
token is misplaced. The sequence is balanced when this is `some []`. -/
def openContainers (tokens : List Token) : Option (List Container) :=
  tokens.foldl (fun stack token => stack.bind token.apply) (some [])

/-- A call of one of the four container member functions, with its argument. -/
inductive Call where
  | BeginElement (szElement : Option WString)
  | EndElement (szElement : Option WString)
  | BeginCollection (szCollection : Option WString)
  | EndCollection (szCollection : Option WString)
  deriving DecidableEq, Repr

/-- The call a `Call` stands for. -/
def Call.run : Call → Writer → HRESULT × Writer
  | .BeginElement szElement => JSON.BeginElement szElement
  | .EndElement szElement => JSON.EndElement szElement
  | .BeginCollection szCollection => JSON.BeginCollection szCollection
  | .EndCollection szCollection => JSON.EndCollection szCollection

/-- A sequence of container calls on one writer: the writer it leaves and the results
returned. -/
def runCalls : List Call → Writer → List HRESULT × Writer
  | [], w => ([], w)
  | call :: calls, w =>
    let r := call.run w
    let rest := runCalls calls r.2
    (r.1 :: rest.1, rest.2)

/-- Proper nesting of a sequence of container calls, given the elements and collections it has
itself opened so far (innermost first): every end call closes the innermost of them and is of
its kind, and none is left open at the end. The root object is not among them, so a properly
nested sequence never ends it. -/
def properlyNested.under : List Container → List Call → Bool
  | stack, [] => stack.isEmpty
  | stack, .BeginElement _ :: calls => properlyNested.under (.Object :: stack) calls
  | .Object :: stack, .EndElement _ :: calls => properlyNested.under stack calls
  | stack, .BeginCollection _ :: calls => properlyNested.under (.Array :: stack) calls
  | .Array :: stack, .EndCollection _ :: calls => properlyNested.under stack calls
  | _, _ => false

/-- A properly nested sequence of container calls. -/
def properlyNested (calls : List Call) : Bool :=
  properlyNested.under [] calls

/-- A properly nested sequence for worked examples: an element `file` holding a collection
`streams` of one unnamed, empty element. -/
def Call.sample : List Call :=
  [ .BeginElement (some (L "file")), .BeginCollection (some (L "streams")), .BeginElement none,
    .EndElement none, .EndCollection none, .EndElement none ]

end JSON

/-! ## Basic facts about the building blocks -/

@[simp]
theorem Exec.andThen_ok {α β : Type} (a : α) (w : Writer) (k : α → Writer → Exec β) :
    (Exec.ok a w).andThen k = k a w := rfl

@[simp]
theorem Exec.andThen_raise {α β : Type} (e : Exception) (w : Writer)
    (k : α → Writer → Exec β) : (Exec.raise e w : Exec α).andThen k = .raise e w := rfl

@[simp]
theorem Exec.andThen_undefined {α β : Type} (k : α → Writer → Exec β) :
    (Exec.undefined : Exec α).andThen k = .undefined := rfl

@[simp]
theorem Exec.state_ok {α : Type} (a : α) (w : Writer) :
    (Exec.ok a w).state = some w := rfl

@[simp]
theorem Exec.state_raise {α : Type} (e : Exception) (w : Writer) :
    (Exec.raise e w : Exec α).state = some w := rfl

@[simp]
theorem Exec.state_undefined {α : Type} : (Exec.undefined : Exec α).state = none := rfl

theorem visit_ok (f : Builder → Except Exception Builder) (i : Nat) (w : Writer)
    (arg arg1 : Builder) (hb : w.m_arrowBuilders[i]? = some arg) (hf : f arg = .ok arg1) :
    visit f i w = .ok () { w with m_arrowBuilders := w.m_arrowBuilders.set i arg1 } := by
  simp [visit, hb, hf]

theorem visit_error (f : Builder → Except Exception Builder) (i : Nat) (w : Writer)
    (arg : Builder) (e : Exception) (hb : w.m_arrowBuilders[i]? = some arg)
    (hf : f arg = .error e) : visit f i w = .raise e w := by
  simp [visit, hb, hf]

theorem visit_undefined (f : Builder → Except Exception Builder) (i : Nat) (w : Writer)
    (hb : w.m_arrowBuilders[i]? = none) : visit f i w = .undefined := by
  simp [visit, hb]

theorem AddColumnAndCheckNumbers_lt (w : Writer) (h : w.m_dwColumnCounter < w.m_dwColumnNumber) :
    AddColumnAndCheckNumbers w =
      .ok .S_OK { w with m_dwColumnCounter := w.m_dwColumnCounter + 1 } := by
  have h1 : ¬ (w.m_dwColumnCounter + 1 > w.m_dwColumnNumber) := by omega
  simp [AddColumnAndCheckNumbers, h1]

theorem AddColumnAndCheckNumbers_ge (w : Writer) (h : w.m_dwColumnNumber ≤ w.m_dwColumnCounter) :
    AddColumnAndCheckNumbers w =
      .raise (fatal (.TooManyColumns (w.m_dwColumnCounter + 1) w.m_dwColumnNumber))
        { w with m_dwColumnCounter := 0 } := by
  have h1 : w.m_dwColumnCounter + 1 > w.m_dwColumnNumber := by omega
  simp [AddColumnAndCheckNumbers, h1]

theorem Writer.sameRows_refl (w : Writer) : w.SameRows w := ⟨rfl, rfl, rfl, rfl⟩

theorem Writer.sameRows_trans {w w1 w2 : Writer} (h1 : w.SameRows w1) (h2 : w1.SameRows w2) :
    w.SameRows w2 :=
  ⟨h2.batch.trans h1.batch, h2.total.trans h1.total, h2.number.trans h1.number,
    h2.options.trans h1.options⟩

theorem visit_frame (f : Builder → Except Exception Builder) (i : Nat) (w w1 : Writer)
    (h : (visit f i w).state = some w1) :
    w.SameRows w1 ∧ w1.m_dwColumnCounter = w.m_dwColumnCounter := by
  unfold visit at h
  cases hb : w.m_arrowBuilders[i]? with
  | none => simp [hb] at h
  | some arg =>
    cases hf : f arg with
    | error e =>
      simp [hb, hf] at h
      subst h
      exact ⟨Writer.sameRows_refl _, rfl⟩
    | ok arg1 =>
      simp [hb, hf] at h
      subst h
      exact ⟨⟨rfl, rfl, rfl, rfl⟩, rfl⟩

theorem AddColumnAndCheckNumbers_frame (w w1 : Writer)
    (h : (AddColumnAndCheckNumbers w).state = some w1) :
    w.SameRows w1 ∧ w1.m_dwColumnCounter ≤ w1.m_dwColumnNumber := by
  by_cases hlt : w.m_dwColumnCounter < w.m_dwColumnNumber
  · rw [AddColumnAndCheckNumbers_lt w hlt] at h
    simp at h
    subst h
    exact ⟨⟨rfl, rfl, rfl, rfl⟩, hlt⟩
  · rw [AddColumnAndCheckNumbers_ge w (by omega)] at h
    simp at h
    subst h
    exact ⟨⟨rfl, rfl, rfl, rfl⟩, Nat.zero_le _⟩

/-- The body shared by the value writes and `WriteNothing`: visit the builder under the cursor,
count the column, return `S_OK`. -/
theorem column_write_ok (f : Builder → Except Exception Builder) (w : Writer) (arg : Builder)
    (hk : w.m_dwColumnCounter < w.m_dwColumnNumber)
    (hb : w.m_arrowBuilders[w.m_dwColumnCounter]? = some arg)
    (hf : ∃ c, f arg = .ok (arg.Append c)) :
    ∃ c, ((visit f w.m_dwColumnCounter w).andThen fun _ w =>
        (AddColumnAndCheckNumbers w).andThen fun _ w => (.ok .S_OK w : Exec HRESULT)) =
      .ok .S_OK { w with
        m_arrowBuilders := w.m_arrowBuilders.set w.m_dwColumnCounter (arg.Append c)
        m_dwColumnCounter := w.m_dwColumnCounter + 1 } := by
  obtain ⟨c, hc⟩ := hf
  refine ⟨c, ?_⟩
  have ha := AddColumnAndCheckNumbers_lt
    { w with m_arrowBuilders := w.m_arrowBuilders.set w.m_dwColumnCounter (arg.Append c) } hk
  rw [visit_ok f _ w arg _ hb hc]
  simp only [Exec.andThen_ok]
  rw [ha]
  rfl

theorem column_write_error (f : Builder → Except Exception Builder) (w : Writer) (arg : Builder)
    (e : Exception) (hb : w.m_arrowBuilders[w.m_dwColumnCounter]? = some arg)
    (hf : f arg = .error e) :
    ((visit f w.m_dwColumnCounter w).andThen fun _ w =>
        (AddColumnAndCheckNumbers w).andThen fun _ w => (.ok .S_OK w : Exec HRESULT)) =
      .raise e w := by
  rw [visit_error f _ w arg e hb hf]
  rfl

theorem column_write_frame (f : Builder → Except Exception Builder) (w w1 : Writer)
    (h : ((visit f w.m_dwColumnCounter w).andThen fun _ w =>
        (AddColumnAndCheckNumbers w).andThen fun _ w =>
          (.ok .S_OK w : Exec HRESULT)).state = some w1) :
    w.SameRows w1 ∧
      (w.m_dwColumnCounter ≤ w.m_dwColumnNumber → w1.m_dwColumnCounter ≤ w1.m_dwColumnNumber) := by
  cases hv : visit f w.m_dwColumnCounter w with
  | undefined => simp [hv] at h
  | raise e w2 =>
    have hfr := visit_frame f w.m_dwColumnCounter w w2 (by rw [hv]; rfl)
    simp [hv] at h
    subst h
    exact ⟨hfr.1, fun hle => by rw [hfr.2, hfr.1.number]; exact hle⟩
  | ok u w2 =>
    have hfr := visit_frame f w.m_dwColumnCounter w w2 (by rw [hv]; rfl)
    simp only [hv, Exec.andThen_ok] at h
    cases ha : AddColumnAndCheckNumbers w2 with
    | undefined => simp [ha] at h
    | raise e w3 =>
      have hfa := AddColumnAndCheckNumbers_frame w2 w3 (by rw [ha]; rfl)
      simp [ha] at h
      subst h
      exact ⟨Writer.sameRows_trans hfr.1 hfa.1, fun _ => hfa.2⟩
    | ok hr w3 =>
      have hfa := AddColumnAndCheckNumbers_frame w2 w3 (by rw [ha]; rfl)
      simp [ha] at h
      subst h
      exact ⟨Writer.sameRows_trans hfr.1 hfa.1, fun _ => hfa.2⟩

theorem GetBuilders_cases (env : Env) (w : Writer) :
    GetBuilders env w = .undefined ∨ (∃ builders, GetBuilders env w = .ok builders w) ∨
      (∃ e, GetBuilders env w = .raise e w ∧ e.isRowProtocol = false) := by
  unfold GetBuilders
  cases w.m_arrowSchema with
  | none => exact Or.inl rfl
  | some fields =>
    have key : ∀ (l : List Field) (acc : List Builder) (e : Exception),
        GetBuilders.fields env l acc = .error e → e.isRowProtocol = false := by
      intro l
      induction l with
      | nil => intro acc e h; simp [GetBuilders.fields] at h
      | cons column rest ih =>
        intro acc e h
        unfold GetBuilders.fields at h
        split at h
        all_goals first
          | exact ih _ e h
          | (split at h
             · exact ih _ e h
             · simp at h; subst h; rfl)
          | (simp at h; subst h; rfl)
    cases hg : GetBuilders.fields env fields [] with
    | ok retval => exact Or.inr (Or.inl ⟨retval, by simp only [hg]⟩)
    | error e => exact Or.inr (Or.inr ⟨e, by simp only [hg], key _ _ _ hg⟩)

theorem GetBuilders_defined (env : Env) (w : Writer) (hs : w.m_arrowSchema ≠ none) :
    GetBuilders env w ≠ .undefined := by
  unfold GetBuilders
  cases h : w.m_arrowSchema with
  | none => exact absurd h hs
  | some fields =>
    cases hg : GetBuilders.fields env fields [] <;> simp [hg]

/-- What `Flush` can do: nothing defined, or a return or a throw that leaves everything but the
builders and the file as it was. A throw is never a row-protocol error. -/
theorem Flush_cases (env : Env) (w : Writer) :
    Flush env w = .undefined ∨
      ∃ builders file, (∃ hr, Flush env w =
          .ok hr { w with m_arrowBuilders := builders, m_arrowWriter := file }) ∨
        (∃ e, Flush env w = .raise e { w with m_arrowBuilders := builders, m_arrowWriter := file } ∧
          e.isRowProtocol = false) := by
  unfold Flush
  simp only []
  split
  · exact Or.inr ⟨_, _, Or.inl ⟨_, rfl⟩⟩
  · split
    · exact Or.inl rfl
    · split
      · exact Or.inr ⟨_, _, Or.inl ⟨_, rfl⟩⟩
      · rename_i written _ _
        rcases GetBuilders_cases env
          { w with
            m_arrowBuilders := w.m_arrowBuilders.map Builder.afterFinish
            m_arrowWriter := some (written ++
              [⟨w.m_arrowSchema, w.m_arrowBuilders.map Builder.Finish⟩]) } with h | ⟨b, h⟩ | ⟨e, h, he⟩
        · rw [h]; exact Or.inl rfl
        · rw [h]; exact Or.inr ⟨_, _, Or.inl ⟨_, rfl⟩⟩
        · rw [h]; exact Or.inr ⟨_, _, Or.inr ⟨e, rfl, he⟩⟩

theorem Flush_defined (env : Env) (w : Writer) (hs : w.m_arrowSchema ≠ none)
    (hw : w.m_arrowWriter ≠ none) : Flush env w ≠ .undefined := by
  unfold Flush
  simp only []
  split
  · simp
  · split
    · rename_i h; exact absurd h hw
    · split
      · simp
      · rename_i written _ _
        have hd := GetBuilders_defined env
          { w with
            m_arrowBuilders := w.m_arrowBuilders.map Builder.afterFinish
            m_arrowWriter := some (written ++
              [⟨w.m_arrowSchema, w.m_arrowBuilders.map Builder.Finish⟩]) } hs
        revert hd
        cases GetBuilders env _ <;> simp

theorem Flush_frame (env : Env) (w w1 : Writer) (h : (Flush env w).state = some w1) :
    w.SameRows w1 ∧ w1.m_dwColumnCounter = w.m_dwColumnCounter := by
  rcases Flush_cases env w with hu | ⟨b, file, ⟨hr, hf⟩ | ⟨e, hf, _⟩⟩
  · simp [hu] at h
  · simp [hf] at h; subst h; exact ⟨⟨rfl, rfl, rfl, rfl⟩, rfl⟩
  · simp [hf] at h; subst h; exact ⟨⟨rfl, rfl, rfl, rfl⟩, rfl⟩

theorem SetSchema_sample (options : Option Options) :
    SetSchema Env.sample Schema.sample (Writer.new options) =
      .ok .S_OK { Writer.sample options with m_arrowWriter := none } := by
  rfl

/-- The tail of `WriteEndOfLine` when the batch is full: flush, and hand on a failure. -/
theorem flush_then_return (env : Env) (wf : Writer) (hs : wf.m_arrowSchema ≠ none)
    (hw : wf.m_arrowWriter ≠ none) :
    ∃ w1, ((∃ hr, ((Flush env wf).andThen fun hr w =>
          if FAILED hr then .ok hr w else (.ok .S_OK w : Exec HRESULT)) = .ok hr w1) ∨
        (∃ e, ((Flush env wf).andThen fun hr w =>
          if FAILED hr then .ok hr w else (.ok .S_OK w : Exec HRESULT)) = .raise e w1 ∧
          e.isRowProtocol = false)) ∧
      w1.m_dwColumnCounter = wf.m_dwColumnCounter ∧
      w1.m_dwTotalRowCount = wf.m_dwTotalRowCount ∧
      w1.m_dwBatchRowCount = wf.m_dwBatchRowCount := by
  rcases Flush_cases env wf with hu | ⟨b, file, ⟨hr, hf⟩ | ⟨e, hf, he⟩⟩
  · exact absurd hu (Flush_defined env wf hs hw)
  · rw [hf]
    refine ⟨{ wf with m_arrowBuilders := b, m_arrowWriter := file },
      Or.inl ⟨if FAILED hr then hr else .S_OK, ?_⟩, rfl, rfl, rfl⟩
    simp only [Exec.andThen_ok]; split <;> rfl
  · rw [hf]
    exact ⟨{ wf with m_arrowBuilders := b, m_arrowWriter := file },
      Or.inr ⟨e, rfl, he⟩, rfl, rfl, rfl⟩

/-! ## End of row -/

/-- C1: `WriteEndOfLine` called with the cursor at the column count `N` does not raise a
row-protocol error: it returns (or, when the flush it triggers cannot rebuild the builders,
throws the builder-creation error), and it leaves the cursor at 0 and `totalRowCount` one
higher. With no batch-size threshold configured it returns `S_OK` and `batchRowCount` is one
higher too. The flush a configured threshold may trigger needs a schema and an open file. -/
theorem WriteEndOfLine_at_full_row (env : Env) (w : Writer)
    (hfull : w.m_dwColumnCounter = w.m_dwColumnNumber)
    (hfile : w.batchSize = none ∨ (w.m_arrowSchema ≠ none ∧ w.m_arrowWriter ≠ none)) :
    ∃ w1, ((∃ hr, WriteEndOfLine env w = .ok hr w1) ∨
        (∃ e, WriteEndOfLine env w = .raise e w1 ∧ e.isRowProtocol = false)) ∧
      w1.m_dwColumnCounter = 0 ∧
      w1.m_dwTotalRowCount = w.m_dwTotalRowCount + 1 ∧
      (w.batchSize = none →
        WriteEndOfLine env w = .ok .S_OK w1 ∧
          w1.m_dwBatchRowCount = w.m_dwBatchRowCount + 1) := by
  unfold WriteEndOfLine
  simp only [hfull, if_true, Exec.andThen_ok]
  cases hopt : w.m_Options with
  | none =>
    exact ⟨_, Or.inl ⟨_, rfl⟩, rfl, rfl, fun _ => ⟨rfl, rfl⟩⟩
  | some options =>
    cases hbs : options.BatchSize with
    | none =>
      simp only [hbs]
      exact ⟨_, Or.inl ⟨_, rfl⟩, rfl, rfl, fun _ => ⟨rfl, rfl⟩⟩
    | some BatchSize =>
      have hsome : w.batchSize = some BatchSize := by simp [Writer.batchSize, hopt, hbs]
      simp only [hbs]
      split
      · rcases hfile with hnone | ⟨hs, hw⟩
        · rw [hsome] at hnone; cases hnone
        · have hgen : ∀ wf : Writer, wf.m_arrowSchema = w.m_arrowSchema →
              wf.m_arrowWriter = w.m_arrowWriter → wf.m_dwColumnCounter = 0 →
              wf.m_dwTotalRowCount = w.m_dwTotalRowCount + 1 →
              ∃ w1, ((∃ hr, ((Flush env wf).andThen fun hr w =>
                    if FAILED hr then .ok hr w else (.ok .S_OK w : Exec HRESULT)) = .ok hr w1) ∨
                  (∃ e, ((Flush env wf).andThen fun hr w =>
                    if FAILED hr then .ok hr w else (.ok .S_OK w : Exec HRESULT)) = .raise e w1 ∧
                    e.isRowProtocol = false)) ∧
                w1.m_dwColumnCounter = 0 ∧
                w1.m_dwTotalRowCount = w.m_dwTotalRowCount + 1 ∧
                (w.batchSize = none →
                  ((Flush env wf).andThen fun hr w =>
                    if FAILED hr then .ok hr w else (.ok .S_OK w : Exec HRESULT)) =
                      .ok .S_OK w1 ∧
                    w1.m_dwBatchRowCount = w.m_dwBatchRowCount + 1) := by
            intro wf h1 h2 h3 h4
            obtain ⟨w1, hres, hc, ht, _⟩ :=
              flush_then_return env wf (by rw [h1]; exact hs) (by rw [h2]; exact hw)
            refine ⟨w1, hres, hc.trans h3, ht.trans h4, ?_⟩
            intro hnone; rw [hsome] at hnone; cases hnone
          refine hgen _ ?_ ?_ ?_ ?_ <;> rfl
      · refine ⟨_, Or.inl ⟨_, rfl⟩, rfl, rfl, ?_⟩
        intro hnone; rw [hsome] at hnone; cases hnone

/-- C1 on the sample writer with both columns written and no batch size. -/
theorem WriteEndOfLine_at_full_row_witness :
    (Writer.sample none).batchSize = none ∧
      ∃ w1, ((∃ hr, WriteEndOfLine Env.sample
            { Writer.sample none with m_dwColumnCounter := 2 } = .ok hr w1) ∨
          (∃ e, WriteEndOfLine Env.sample
            { Writer.sample none with m_dwColumnCounter := 2 } = .raise e w1 ∧
            e.isRowProtocol = false)) ∧
        w1.m_dwColumnCounter = 0 ∧
        w1.m_dwTotalRowCount = 0 + 1 ∧
        ((Writer.sample none).batchSize = none →
          WriteEndOfLine Env.sample { Writer.sample none with m_dwColumnCounter := 2 } =
              .ok .S_OK w1 ∧
            w1.m_dwBatchRowCount = 0 + 1) :=
  ⟨rfl, WriteEndOfLine_at_full_row Env.sample { Writer.sample none with m_dwColumnCounter := 2 }
    rfl (Or.inl rfl)⟩

/-- C2: `WriteEndOfLine` called with the cursor at `k < N` throws the fatal
"too few columns" error (reporting `k` and `N`), and neither row counter has changed. -/
theorem WriteEndOfLine_too_few (env : Env) (w : Writer)
    (hk : w.m_dwColumnCounter < w.m_dwColumnNumber) :
    ∃ w1, WriteEndOfLine env w =
        .raise (.Orc .Fatal none (.TooFewColumns w.m_dwColumnCounter w.m_dwColumnNumber)) w1 ∧
      w1.m_dwBatchRowCount = w.m_dwBatchRowCount ∧
      w1.m_dwTotalRowCount = w.m_dwTotalRowCount := by
  have hne : w.m_dwColumnCounter ≠ w.m_dwColumnNumber := by omega
  refine ⟨{ w with m_dwColumnCounter := 0 }, ?_, rfl, rfl⟩
  simp [WriteEndOfLine, hne, hk, fatal]

/-- C2 on the sample writer with one of its two columns written. -/
theorem WriteEndOfLine_too_few_witness :
    ({ Writer.sample none with m_dwColumnCounter := 1 } : Writer).m_dwColumnCounter <
        ({ Writer.sample none with m_dwColumnCounter := 1 } : Writer).m_dwColumnNumber ∧
      ∃ w1, WriteEndOfLine Env.sample { Writer.sample none with m_dwColumnCounter := 1 } =
          .raise (.Orc .Fatal none (.TooFewColumns 1 2)) w1 ∧
        w1.m_dwBatchRowCount = 0 ∧ w1.m_dwTotalRowCount = 0 :=
  ⟨by decide,
    WriteEndOfLine_too_few Env.sample { Writer.sample none with m_dwColumnCounter := 1 }
      (by decide)⟩

/-! ## Value writes -/

/-- C3: at a cursor `k < N` whose builder is of a class the operation accepts, every overload of
`WriteBool`, `WriteInteger`, `WriteString`, `WriteCharArray`, `WriteFileTime`, `WriteTimeStamp`,
`WriteFileSize`, `WriteEnum`, `WriteFlags`, `WriteGUID` and `WriteXML` returns `S_OK` and leaves
the writer as it was except that builder `k` has exactly one more entry `c` at its end and the
cursor is `k + 1`: every other builder and both row counters are unchanged. -/
theorem typed_write_appends_one (env : Env) (op : Op) (w : Writer) (arg : Builder)
    (hop : op.isTypedWrite = true)
    (hk : w.m_dwColumnCounter < w.m_dwColumnNumber)
    (hb : w.m_arrowBuilders[w.m_dwColumnCounter]? = some arg)
    (hacc : op.accepts arg.kind = true) :
    ∃ c, op.run env w = .ok .S_OK { w with
        m_arrowBuilders := w.m_arrowBuilders.set w.m_dwColumnCounter (arg.Append c)
        m_dwColumnCounter := w.m_dwColumnCounter + 1 } := by
  have hu : ∀ (s : WString) (n : Nat), arg.kind = .BinaryBuilder ∨ arg.kind = .StringBuilder →
      ∃ c, unicodeStringVisitor env s n arg = .ok (arg.Append c) := by
    intro s n h
    unfold unicodeStringVisitor
    rcases h with h | h
    · rw [h]; exact ⟨_, rfl⟩
    · rw [h]
      cases env.WideToAnsi s
      · exact ⟨_, rfl⟩
      · exact ⟨_, rfl⟩
  have ha : ∀ (s : String), arg.kind = .StringBuilder →
      ∃ c, ansiStringVisitor s arg = .ok (arg.Append c) := by
    intro s h
    unfold ansiStringVisitor
    rw [h]; exact ⟨_, rfl⟩
  have hx : ∀ (l : List Nat), arg.kind = .BinaryBuilder →
      ∃ c, xmlVisitor l arg = .ok (arg.Append c) := by
    intro l h
    unfold xmlVisitor
    rw [h]; exact ⟨_, rfl⟩
  cases op <;> simp [Op.isTypedWrite] at hop <;> simp [Op.accepts] at hacc <;>
    simp only [Op.run, WriteString_wstring, WriteString_wstring_view, WriteString_WCHAR,
      WriteCharArray_WCHAR, WriteString_string, WriteString_string_view, WriteString_CHAR,
      WriteCharArray_CHAR, WriteFileTime_FILETIME, WriteFileTime_LONGLONG, WriteTimeStamp_time_t,
      WriteTimeStamp_tm, WriteFileSize_LARGE_INTEGER, WriteFileSize_ULONGLONG,
      WriteFileSize_DWORD_DWORD, WriteBool, WriteEnum, WriteEnum_names, WriteFlags,
      WriteFlags_defs, WriteGUID, WriteXML_WCHAR, WriteXML_WCHAR_count, WriteXML_CHAR,
      WriteXML_CHAR_count, WriteInteger_DWORD, WriteInteger_LONGLONG, WriteInteger_ULONGLONG] <;>
    refine column_write_ok _ w arg hk hb ?_
  all_goals first
    | exact hu _ _ hacc
    | exact ha _ hacc
    | exact hx _ hacc
    | (rw [hacc]; exact ⟨_, rfl⟩)
    | (rcases hacc with h | h <;> rw [h] <;> exact ⟨_, rfl⟩)
    | (rcases hacc with ((h | h) | h) | h <;> rw [h] <;> exact ⟨_, rfl⟩)

/-- C3 for `WriteFileSize(10)` on the second column of the sample writer. -/
theorem typed_write_appends_one_witness :
    (Op.WriteFileSize_ULONGLONG 10).isTypedWrite = true ∧
      (Op.WriteFileSize_ULONGLONG 10).accepts BuilderKind.UInt64Builder = true ∧
      ∃ c, (Op.WriteFileSize_ULONGLONG 10).run Env.sample
          { Writer.sample none with m_dwColumnCounter := 1 } =
        .ok .S_OK { Writer.sample none with
          m_arrowBuilders :=
            [⟨.StringBuilder, .utf8, []⟩, Builder.Append ⟨.UInt64Builder, .uint64, []⟩ c]
          m_dwColumnCounter := 1 + 1 } :=
  ⟨rfl, rfl,
    typed_write_appends_one Env.sample (.WriteFileSize_ULONGLONG 10)
      { Writer.sample none with m_dwColumnCounter := 1 } ⟨.UInt64Builder, .uint64, []⟩
      rfl (by decide) rfl rfl⟩

theorem column_write_wrong_kind (f : Builder → Except Exception Builder) (w : Writer)
    (arg : Builder) (hb : w.m_arrowBuilders[w.m_dwColumnCounter]? = some arg)
    (hf : ∃ e, f arg = .error e ∧ e.isFatal = true) :
    ∃ e, ((visit f w.m_dwColumnCounter w).andThen fun _ w =>
        (AddColumnAndCheckNumbers w).andThen fun _ w => (.ok .S_OK w : Exec HRESULT)) =
      .raise e w ∧ e.isFatal = true := by
  obtain ⟨e, he, hfatal⟩ := hf
  exact ⟨e, column_write_error f w arg e hb he, hfatal⟩

/-- C5: when the builder under the cursor is of a class the value write does not accept, the
call throws a fatal `Orc::Exception` and the writer is exactly as it was: every builder, the
cursor and both row counters. This holds for every value write, `WriteExactFlags`, `WriteBytes`,
`WriteFormated_` and `WriteAttributes` included. -/
theorem value_write_wrong_kind (env : Env) (op : Op) (w : Writer) (arg : Builder)
    (hop : op.isValueWrite = true)
    (hb : w.m_arrowBuilders[w.m_dwColumnCounter]? = some arg)
    (hacc : op.accepts arg.kind = false) :
    ∃ e, op.run env w = .raise e w ∧ e.isFatal = true := by
  have hN : arg.kind = .ArrayBuilder → ∃ e, WriteNothing w = .raise e w ∧ e.isFatal = true := by
    intro h
    unfold WriteNothing
    refine column_write_wrong_kind _ w arg hb ?_
    simp [h, fatal, Exception.isFatal]
  have hW : ¬ arg.kind = .BinaryBuilder → ¬ arg.kind = .StringBuilder → ∀ s n,
      ∃ e, WriteCharArray_WCHAR env s n w = .raise e w ∧ e.isFatal = true := by
    intro h1 h2 s n
    unfold WriteCharArray_WCHAR
    refine column_write_wrong_kind _ w arg hb ?_
    cases hkind : arg.kind <;> simp [hkind] at h1 h2 <;>
      simp [hkind, unicodeStringVisitor, fatal, Exception.isFatal]
  have hA : ¬ arg.kind = .StringBuilder → ∀ s n,
      ∃ e, WriteCharArray_CHAR s n w = .raise e w ∧ e.isFatal = true := by
    intro h1 s n
    unfold WriteCharArray_CHAR
    refine column_write_wrong_kind _ w arg hb ?_
    cases hkind : arg.kind <;> simp [hkind] at h1 <;>
      simp [hkind, ansiStringVisitor, fatal, Exception.isFatal]
  cases op <;> simp [Op.isValueWrite] at hop <;> simp [Op.accepts] at hacc
  case WriteFormated_W buffer =>
    simp only [Op.run, WriteFormated_W]
    split
    · rename_i hempty
      have h0 : buffer = [] := by simpa using hempty
      simp [h0] at hacc
      exact hN hacc
    · rename_i hempty
      have h0 : ¬ buffer = [] := by simpa using hempty
      simp [h0] at hacc
      exact hW hacc.1 hacc.2 _ _
  case WriteFormated_A buffer =>
    simp only [Op.run, WriteFormated_A]
    split
    · rename_i hempty
      have h0 : buffer.data = [] := by simpa using hempty
      simp [h0] at hacc
      exact hN hacc
    · rename_i hempty
      have h0 : ¬ buffer.data = [] := by simpa using hempty
      simp [h0] at hacc
      exact hA hacc _ _
  case WriteAttributes dwFileAttributes =>
    simp only [Op.run, WriteAttributes, WriteFormated_A]
    have hne : (attributesText dwFileAttributes).data.isEmpty = false := by
      simp [attributesText]
    simp only [hne]
    obtain ⟨e, he, hfatal⟩ := hA hacc (attributesText dwFileAttributes)
      (attributesText dwFileAttributes).length
    exact ⟨e, by simp [he], hfatal⟩
  case WriteExactFlags dwFlags =>
    simp only [Op.run, WriteExactFlags]
    cases hkind : arg.kind <;> simp [hkind] at hacc <;>
      simp [visit, hb, hkind, fatal, Exception.isFatal]
  case WriteExactFlags_defs dwFlags FlagValues =>
    simp only [Op.run, WriteExactFlags_defs, WriteExactFlags]
    cases hkind : arg.kind <;> simp [hkind] at hacc <;>
      simp [visit, hb, hkind, fatal, Exception.isFatal]
  all_goals
    simp only [Op.run, WriteString_wstring, WriteString_wstring_view, WriteString_WCHAR,
      WriteCharArray_WCHAR, WriteString_string, WriteString_string_view, WriteString_CHAR,
      WriteCharArray_CHAR, WriteFileTime_FILETIME, WriteFileTime_LONGLONG, WriteTimeStamp_time_t,
      WriteTimeStamp_tm, WriteFileSize_LARGE_INTEGER, WriteFileSize_ULONGLONG,
      WriteFileSize_DWORD_DWORD, WriteBool, WriteEnum, WriteEnum_names, WriteFlags,
      WriteFlags_defs, WriteGUID, WriteXML_WCHAR, WriteXML_WCHAR_count, WriteXML_CHAR,
      WriteXML_CHAR_count, WriteInteger_DWORD, WriteInteger_LONGLONG, WriteInteger_ULONGLONG,
      WriteBytes, WriteBytes_CBinaryBuffer]
    refine column_write_wrong_kind _ w arg hb ?_
    cases hkind : arg.kind <;> simp [hkind] at hacc <;>
      simp [hkind, unicodeStringVisitor, ansiStringVisitor, xmlVisitor, fatal, Exception.isFatal]

/-- C5 for `WriteBool` on the unsigned 64-bit column of the sample writer. -/
theorem value_write_wrong_kind_witness :
    (Op.WriteBool true).isValueWrite = true ∧
      (Op.WriteBool true).accepts BuilderKind.UInt64Builder = false ∧
      ∃ e, (Op.WriteBool true).run Env.sample { Writer.sample none with m_dwColumnCounter := 1 } =
          .raise e { Writer.sample none with m_dwColumnCounter := 1 } ∧
        e.isFatal = true :=
  ⟨rfl, rfl,
    value_write_wrong_kind Env.sample (.WriteBool true)
      { Writer.sample none with m_dwColumnCounter := 1 } ⟨.UInt64Builder, .uint64, []⟩
      rfl rfl rfl⟩

theorem SetSchema_flagsSample :
    SetSchema Env.sample Schema.flagsSample (Writer.new none) =
      .ok .S_OK { Writer.flagsSample with m_arrowWriter := none } := by
  rfl

/-- C4, the code: `WriteExactFlags(5)` on a fresh one-column flags writer appends 5 to the
builder and returns `S_OK` with the cursor still at 0, where `WriteFlags(5)` leaves it at 1; the
`WriteEndOfLine` that follows `WriteExactFlags` therefore throws "too few columns". -/
theorem WriteExactFlags_leaves_cursor :
    WriteExactFlags 5 Writer.flagsSample =
        .ok .S_OK { Writer.flagsSample with
          m_arrowBuilders := [⟨.UInt32Builder, .uint32, [.uint32 5]⟩]
          m_dwColumnCounter := 0 } ∧
      WriteFlags 5 Writer.flagsSample =
        .ok .S_OK { Writer.flagsSample with
          m_arrowBuilders := [⟨.UInt32Builder, .uint32, [.uint32 5]⟩]
          m_dwColumnCounter := 1 } ∧
      (WriteExactFlags 5 Writer.flagsSample).andThen (fun _ w => WriteEndOfLine Env.sample w) =
        .raise (.Orc .Fatal none (.TooFewColumns 0 1))
          { Writer.flagsSample with
            m_arrowBuilders := [⟨.UInt32Builder, .uint32, [.uint32 5]⟩] } := by
  decide

/-- C6, the code: with both columns of the row written (cursor 2 of 2), `WriteBool`,
`WriteNothing` and `WriteExactFlags` index `m_arrowBuilders` one past its end, which is
undefined behaviour: no exception is reached. -/
theorem write_at_full_row_undefined :
    WriteBool true { Writer.sample none with m_dwColumnCounter := 2 } = .undefined ∧
      WriteNothing { Writer.sample none with m_dwColumnCounter := 2 } = .undefined ∧
      WriteFileSize_ULONGLONG 10 { Writer.sample none with m_dwColumnCounter := 2 } = .undefined ∧
      WriteExactFlags 5 { Writer.sample none with m_dwColumnCounter := 2 } = .undefined := by
  decide

/-! ## Flush and the row counters -/

/-- C9, the code: with one complete row buffered and `batchRowCount = 1`, an explicit `Flush`
writes the row to the file, replaces the builders by empty ones and returns `S_OK`, and
`batchRowCount` is still 1. The same with the automatic flush: with a batch size of 1, the
`WriteEndOfLine` that ends the first row flushes and returns `S_OK` with `batchRowCount = 1`. -/
theorem Flush_keeps_batchRowCount :
    Flush Env.sample
        { Writer.sample none with
          m_arrowBuilders :=
            [⟨.StringBuilder, .utf8, [.string "a.txt"]⟩, ⟨.UInt64Builder, .uint64, [.uint64 10]⟩]
          m_dwBatchRowCount := 1
          m_dwTotalRowCount := 1 } =
      .ok .S_OK
        { Writer.sample none with
          m_arrowWriter := some
            [⟨some [⟨"name", .utf8, true, none⟩, ⟨"size", .uint64, true, none⟩],
              [[.string "a.txt"], [.uint64 10]]⟩]
          m_dwBatchRowCount := 1
          m_dwTotalRowCount := 1 } ∧
      WriteEndOfLine Env.sample
        { Writer.sample (some ⟨some 1⟩) with
          m_arrowBuilders :=
            [⟨.StringBuilder, .utf8, [.string "a.txt"]⟩, ⟨.UInt64Builder, .uint64, [.uint64 10]⟩]
          m_dwColumnCounter := 2 } =
      .ok .S_OK
        { Writer.sample (some ⟨some 1⟩) with
          m_arrowWriter := some
            [⟨some [⟨"name", .utf8, true, none⟩, ⟨"size", .uint64, true, none⟩],
              [[.string "a.txt"], [.uint64 10]]⟩]
          m_dwBatchRowCount := 1
          m_dwTotalRowCount := 1 } := by
  decide

/-- A call that is sequenced after another ends where the first one threw, or where the second
one ended. -/
theorem Exec.andThen_state {α β : Type} (x : Exec α) (k : α → Writer → Exec β) (w1 : Writer)
    (h : (x.andThen k).state = some w1) :
    (∃ e, x = .raise e w1) ∨ (∃ a w2, x = .ok a w2 ∧ (k a w2).state = some w1) := by
  cases x with
  | undefined => simp at h
  | raise e w2 => simp at h; subst h; exact Or.inl ⟨e, rfl⟩
  | ok a w2 => exact Or.inr ⟨a, w2, rfl, h⟩

theorem Writer.keeps_refl (w : Writer) : w.Keeps w := ⟨Writer.sameRows_refl w, fun h => h⟩

theorem Writer.keeps_trans {w w1 w2 : Writer} (h1 : w.Keeps w1) (h2 : w1.Keeps w2) :
    w.Keeps w2 :=
  ⟨Writer.sameRows_trans h1.1 h2.1, fun h => h2.2 (h1.2 h)⟩

theorem WriteNothing_keeps (w w1 : Writer) (h : (WriteNothing w).state = some w1) :
    w.Keeps w1 :=
  column_write_frame _ w w1 h

theorem AbandonRow_loop_keeps (n : Nat) :
    ∀ (i : Nat) (w w1 : Writer), (AbandonRow.loop n i w).state = some w1 → w.Keeps w1 := by
  induction n with
  | zero =>
    intro i w w1 h
    simp [AbandonRow.loop] at h
    subst h
    exact Writer.keeps_refl _
  | succ n ih =>
    intro i w w1 h
    unfold AbandonRow.loop at h
    rcases Exec.andThen_state _ _ w1 h with ⟨e, hv⟩ | ⟨u, w2, hv, h2⟩
    · have hf := visit_frame _ i w w1 (by rw [hv]; rfl)
      exact ⟨hf.1, fun hle => by rw [hf.2, hf.1.number]; exact hle⟩
    · have hf := visit_frame _ i w w2 (by rw [hv]; rfl)
      have hk2 : w.Keeps w2 := ⟨hf.1, fun hle => by rw [hf.2, hf.1.number]; exact hle⟩
      rcases Exec.andThen_state _ _ w1 h2 with ⟨e, ha⟩ | ⟨hr, w3, ha, h3⟩
      · have hfa := AddColumnAndCheckNumbers_frame w2 w1 (by rw [ha]; rfl)
        exact Writer.keeps_trans hk2 ⟨hfa.1, fun _ => hfa.2⟩
      · have hfa := AddColumnAndCheckNumbers_frame w2 w3 (by rw [ha]; rfl)
        exact Writer.keeps_trans (Writer.keeps_trans hk2 ⟨hfa.1, fun _ => hfa.2⟩) (ih _ w3 w1 h3)

theorem AbandonRow_keeps (w w1 : Writer) (h : (AbandonRow w).state = some w1) : w.Keeps w1 := by
  unfold AbandonRow at h
  rcases Exec.andThen_state _ _ w1 h with ⟨e, hl⟩ | ⟨u, w2, hl, h2⟩
  · exact AbandonRow_loop_keeps _ _ w w1 (by rw [hl]; rfl)
  · simp at h2
    subst h2
    exact AbandonRow_loop_keeps _ _ w w2 (by rw [hl]; rfl)

theorem Flush_keeps (env : Env) (w w1 : Writer) (h : (Flush env w).state = some w1) :
    w.Keeps w1 := by
  have hf := Flush_frame env w w1 h
  exact ⟨hf.1, fun hle => by rw [hf.2, hf.1.number]; exact hle⟩

theorem Close_keeps (env : Env) (w w1 : Writer) (h : (Close env w).state = some w1) :
    w.Keeps w1 := by
  unfold Close at h
  rcases Exec.andThen_state _ _ w1 h with ⟨e, hl⟩ | ⟨hr, w2, hl, h2⟩
  · exact Flush_keeps env w w1 (by rw [hl]; rfl)
  · have hk := Flush_keeps env w w2 (by rw [hl]; rfl)
    split at h2
    · simp at h2; subst h2; exact hk
    · split at h2
      · simp at h2; subst h2
        exact Writer.keeps_trans hk ⟨⟨rfl, rfl, rfl, rfl⟩, fun hle => hle⟩
      · simp at h2; subst h2; exact hk

theorem value_write_keeps (env : Env) (op : Op) (w w1 : Writer) (hop : op.isValueWrite = true)
    (h : (op.run env w).state = some w1) : w.Keeps w1 := by
  have hW : ∀ s n, (WriteCharArray_WCHAR env s n w).state = some w1 → w.Keeps w1 :=
    fun s n h => column_write_frame _ w w1 h
  have hA : ∀ s n w2, (WriteCharArray_CHAR s n w).state = some w2 → w.Keeps w2 :=
    fun s n w2 h => column_write_frame _ w w2 h
  have hE : ∀ f, ((visit f w.m_dwColumnCounter w).andThen fun _ w =>
      (.ok .S_OK w : Exec HRESULT)).state = some w1 → w.Keeps w1 := by
    intro f h
    rcases Exec.andThen_state _ _ w1 h with ⟨e, hv⟩ | ⟨u, w2, hv, h2⟩
    · have hf := visit_frame f _ w w1 (by rw [hv]; rfl)
      exact ⟨hf.1, fun hle => by rw [hf.2, hf.1.number]; exact hle⟩
    · have hf := visit_frame f _ w w2 (by rw [hv]; rfl)
      simp at h2
      subst h2
      exact ⟨hf.1, fun hle => by rw [hf.2, hf.1.number]; exact hle⟩
  cases op <;> simp [Op.isValueWrite] at hop
  case WriteFormated_W buffer =>
    simp only [Op.run, WriteFormated_W] at h
    split at h
    · exact WriteNothing_keeps w w1 h
    · exact hW _ _ h
  case WriteFormated_A buffer =>
    simp only [Op.run, WriteFormated_A] at h
    split at h
    · exact WriteNothing_keeps w w1 h
    · exact hA _ _ _ h
  case WriteAttributes dwFileAttributes =>
    simp only [Op.run, WriteAttributes, WriteFormated_A] at h
    have hne : (attributesText dwFileAttributes).data.isEmpty = false := by
      simp [attributesText]
    simp only [hne, Bool.false_eq_true, if_false] at h
    rcases Exec.andThen_state _ _ w1 h with ⟨e, hv⟩ | ⟨hr, w2, hv, h2⟩
    · exact hA _ _ _ (by rw [hv]; rfl)
    · have hk2 := hA _ _ w2 (by rw [hv]; rfl)
      split at h2
      · rcases Exec.andThen_state _ _ w1 h2 with ⟨e, hn⟩ | ⟨hr3, w3, hn, h3⟩
        · exact Writer.keeps_trans hk2
            (WriteNothing_keeps w2 w1 (by unfold AbandonColumn at hn; rw [hn]; rfl))
        · simp at h3
          subst h3
          exact Writer.keeps_trans hk2
            (WriteNothing_keeps w2 w3 (by unfold AbandonColumn at hn; rw [hn]; rfl))
      · simp at h2
        subst h2
        exact hk2
  case WriteExactFlags dwFlags => exact hE _ h
  case WriteExactFlags_defs dwFlags FlagValues => exact hE _ h
  all_goals exact column_write_frame _ w w1 h

theorem WriteEndOfLine_frame (env : Env) (w w1 : Writer)
    (h : (WriteEndOfLine env w).state = some w1) :
    w1.m_dwColumnNumber = w.m_dwColumnNumber ∧ w1.m_dwColumnCounter = 0 ∧
      w1.m_dwTotalRowCount =
        (if w.m_dwColumnCounter = w.m_dwColumnNumber then w.m_dwTotalRowCount + 1
          else w.m_dwTotalRowCount) := by
  unfold WriteEndOfLine at h
  by_cases hfull : w.m_dwColumnCounter = w.m_dwColumnNumber
  · simp only [hfull, if_true, Exec.andThen_ok] at h
    simp only [hfull, if_true]
    split at h
    · simp at h; subst h; exact ⟨rfl, rfl, rfl⟩
    · split at h
      · simp at h; subst h; exact ⟨rfl, rfl, rfl⟩
      · split at h
        · rcases Exec.andThen_state _ _ w1 h with ⟨e, hf⟩ | ⟨hr, w2, hf, h2⟩
          · have hfr := Flush_frame env _ w1 (by rw [hf]; rfl)
            exact ⟨hfr.1.number, hfr.2, hfr.1.total⟩
          · have hfr := Flush_frame env _ w2 (by rw [hf]; rfl)
            split at h2 <;> (simp at h2; subst h2; exact ⟨hfr.1.number, hfr.2, hfr.1.total⟩)
        · simp at h; subst h; exact ⟨rfl, rfl, rfl⟩
  · simp only [hfull, if_false] at h
    simp only [hfull, if_false]
    by_cases hlt : w.m_dwColumnCounter < w.m_dwColumnNumber
    · simp [hlt] at h; subst h; exact ⟨rfl, rfl, rfl⟩
    · have hgt : w.m_dwColumnCounter > w.m_dwColumnNumber := by omega
      simp [hlt, hgt] at h; subst h; exact ⟨rfl, rfl, rfl⟩

theorem SetSchema_frame (env : Env) (columns : Schema) (w w1 : Writer)
    (h : (SetSchema env columns w).state = some w1) :
    w1.m_dwColumnCounter = w.m_dwColumnCounter ∧ w1.m_dwTotalRowCount = w.m_dwTotalRowCount ∧
      ((columns = [] ∧ w1.m_dwColumnNumber = w.m_dwColumnNumber) ∨
        (columns ≠ [] ∧ w1.m_dwColumnNumber = columns.length)) := by
  unfold SetSchema at h
  cases columns with
  | nil => simp at h; subst h; exact ⟨rfl, rfl, Or.inl ⟨rfl, rfl⟩⟩
  | cons c cs =>
    simp only [List.isEmpty_cons, Bool.false_eq_true, if_false] at h
    split at h
    · simp at h; subst h; exact ⟨rfl, rfl, Or.inr ⟨by simp, rfl⟩⟩
    · simp at h; subst h; exact ⟨rfl, rfl, Or.inr ⟨by simp, rfl⟩⟩
    · rcases Exec.andThen_state _ _ w1 h with ⟨e, hg⟩ | ⟨b, w2, hg, h2⟩
      · rcases GetBuilders_cases env _ with hu | ⟨b, hb⟩ | ⟨e1, hb, _⟩
        · rw [hu] at hg; cases hg
        · rw [hb] at hg; cases hg
        · rw [hb] at hg; cases hg; exact ⟨rfl, rfl, Or.inr ⟨by simp, rfl⟩⟩
      · rcases GetBuilders_cases env _ with hu | ⟨b1, hb⟩ | ⟨e1, hb, _⟩
        · rw [hu] at hg; cases hg
        · rw [hb] at hg; cases hg
          simp at h2; subst h2; exact ⟨rfl, rfl, Or.inr ⟨by simp, rfl⟩⟩
        · rw [hb] at hg; cases hg

/-- Every call but `SetSchema` and `WriteEndOfLine` keeps the counters and the cursor bound. -/
theorem other_ops_keep (env : Env) (op : Op) (w w1 : Writer)
    (hs : ∀ columns, op ≠ .SetSchema columns) (he : op ≠ .WriteEndOfLine)
    (h : (op.run env w).state = some w1) : w.Keeps w1 := by
  cases op
  all_goals first
    | exact value_write_keeps env _ w w1 (by rfl) h
    | exact absurd rfl (hs _)
    | exact absurd rfl he
    | exact Flush_keeps env w w1 h
    | exact Close_keeps env w w1 h
    | exact WriteNothing_keeps w w1 h
    | exact AbandonRow_keeps w w1 h

/-! ## Abandoning the rest of a row -/

theorem WriteEndOfLine_full_no_protocol_error (env : Env) (w : Writer)
    (hfull : w.m_dwColumnCounter = w.m_dwColumnNumber) (e : Exception) (w1 : Writer)
    (h : WriteEndOfLine env w = .raise e w1) : e.isRowProtocol = false := by
  unfold WriteEndOfLine at h
  simp only [hfull, if_true, Exec.andThen_ok] at h
  split at h
  · cases h
  · split at h
    · cases h
    · split at h
      · rcases Flush_cases env
          { w with
            m_dwColumnCounter := 0
            m_dwBatchRowCount := w.m_dwBatchRowCount + 1
            m_dwTotalRowCount := w.m_dwTotalRowCount + 1 } with hu | ⟨b, file, ⟨hr, hf⟩ | ⟨e1, hf, he⟩⟩
        · rw [hu] at h; cases h
        · rw [hf] at h
          simp only [Exec.andThen_ok] at h
          split at h <;> cases h
        · rw [hf] at h
          cases h
          exact he
      · cases h

theorem appendNull_visitor_ok (msg : Message) (arg : Builder) (h : arg.kind ≠ .ArrayBuilder) :
    (fun arg : Builder =>
        match arg.kind with
        | .ArrayBuilder => (.error (fatal msg) : Except Exception Builder)
        | _ => .ok arg.AppendNull) arg = .ok arg.AppendNull := by
  obtain ⟨kind, type, values⟩ := arg
  cases kind <;> first | rfl | exact absurd rfl h

theorem AbandonRow_loop_spec (n : Nat) :
    ∀ (i : Nat) (w : Writer), w.m_dwColumnCounter = i → i + n = w.m_dwColumnNumber →
      w.m_dwColumnNumber ≤ w.m_arrowBuilders.length →
      (∀ arg ∈ w.m_arrowBuilders, arg.kind ≠ .ArrayBuilder) →
      ∃ builders, AbandonRow.loop n i w =
          .ok () { w with m_arrowBuilders := builders, m_dwColumnCounter := w.m_dwColumnNumber } ∧
        ∀ j, builders[j]? =
          if i ≤ j ∧ j < w.m_dwColumnNumber then (w.m_arrowBuilders[j]?).map Builder.AppendNull
          else w.m_arrowBuilders[j]? := by
  induction n with
  | zero =>
    intro i w hc hn _ _
    refine ⟨w.m_arrowBuilders, ?_, ?_⟩
    · have hcn : w.m_dwColumnCounter = w.m_dwColumnNumber := by omega
      cases w
      simp only at hcn
      subst hcn
      rfl
    · intro j
      have : ¬ (i ≤ j ∧ j < w.m_dwColumnNumber) := by omega
      simp [this]
  | succ n ih =>
    intro i w hc hn hlen hkind
    have hi : i < w.m_arrowBuilders.length := by omega
    have hb : w.m_arrowBuilders[i]? = some w.m_arrowBuilders[i] := List.getElem?_eq_getElem hi
    have hmem : w.m_arrowBuilders[i] ∈ w.m_arrowBuilders := List.getElem_mem hi
    have hf := appendNull_visitor_ok .CannotAppendAbandonRow _ (hkind _ hmem)
    have hlt : w.m_dwColumnCounter < w.m_dwColumnNumber := by omega
    obtain ⟨builders, hloop, hget⟩ := ih (i + 1)
      { w with
        m_arrowBuilders := w.m_arrowBuilders.set i (w.m_arrowBuilders[i]).AppendNull
        m_dwColumnCounter := w.m_dwColumnCounter + 1 }
      (by simp [hc]) (by simp; omega) (by simp; exact hlen)
      (by
        intro arg harg
        simp only at harg
        rcases List.mem_or_eq_of_mem_set harg with h1 | h1
        · exact hkind arg h1
        · subst h1
          exact hkind w.m_arrowBuilders[i] hmem)
    refine ⟨builders, ?_, ?_⟩
    · unfold AbandonRow.loop
      rw [visit_ok _ i w _ _ hb hf]
      simp only [Exec.andThen_ok]
      have ha := AddColumnAndCheckNumbers_lt
        { w with m_arrowBuilders := w.m_arrowBuilders.set i (w.m_arrowBuilders[i]).AppendNull } hlt
      rw [ha]
      simp only [Exec.andThen_ok]
      exact hloop
    · intro j
      rw [hget j]
      simp only [List.getElem?_set]
      by_cases hij : i = j
      · subst hij
        have h1 : ¬ (i + 1 ≤ i ∧ i < w.m_dwColumnNumber) := by omega
        have h2 : i ≤ i ∧ i < w.m_dwColumnNumber := by omega
        simp [h1, h2, hi, hb]
      · by_cases hcond : i + 1 ≤ j ∧ j < w.m_dwColumnNumber
        · have h2 : i ≤ j ∧ j < w.m_dwColumnNumber := by omega
          simp [hcond, h2, hij]
        · have h2 : ¬ (i ≤ j ∧ j < w.m_dwColumnNumber) := by omega
          simp [hcond, h2, hij]

theorem length_eq_of_getElem_none_iff {α : Type} (l1 l2 : List α)
    (h : ∀ j : Nat, l1[j]? = none ↔ l2[j]? = none) : l1.length = l2.length := by
  have h1 := h l1.length
  have h2 := h l2.length
  simp only [List.getElem?_eq_none_iff] at h1 h2
  have := h1.mp (Nat.le_refl _)
  have := h2.mpr (Nat.le_refl _)
  omega

/-- C8: on a writer with `N` builders (none of them the generic `ArrayBuilder` alternative,
which `GetBuilders` never makes) and the cursor at `k ≤ N`, `AbandonRow` returns `S_OK`; builders
`0..k-1` are unchanged, each builder `k..N-1` has exactly one null appended, nothing else in the
writer changes, and the cursor is `N`, so that the `WriteEndOfLine` that follows raises no
row-protocol error. At `k = N` the writer is unchanged. -/
theorem AbandonRow_fills_row (env : Env) (w : Writer)
    (hk : w.m_dwColumnCounter ≤ w.m_dwColumnNumber)
    (hlen : w.m_arrowBuilders.length = w.m_dwColumnNumber)
    (hkind : ∀ arg ∈ w.m_arrowBuilders, arg.kind ≠ .ArrayBuilder) :
    ∃ builders,
      AbandonRow w =
        .ok .S_OK { w with m_arrowBuilders := builders, m_dwColumnCounter := w.m_dwColumnNumber } ∧
      builders.length = w.m_arrowBuilders.length ∧
      (∀ j, j < w.m_dwColumnCounter → builders[j]? = w.m_arrowBuilders[j]?) ∧
      (∀ j arg, w.m_dwColumnCounter ≤ j → w.m_arrowBuilders[j]? = some arg →
        builders[j]? = some (arg.Append .null)) ∧
      (∀ e w2,
        WriteEndOfLine env
            { w with m_arrowBuilders := builders, m_dwColumnCounter := w.m_dwColumnNumber } =
          .raise e w2 →
        e.isRowProtocol = false) ∧
      (w.m_dwColumnCounter = w.m_dwColumnNumber → AbandonRow w = .ok .S_OK w) := by
  obtain ⟨builders, hloop, hget⟩ := AbandonRow_loop_spec
    (w.m_dwColumnNumber - w.m_dwColumnCounter) w.m_dwColumnCounter w rfl (by omega)
    (by omega) hkind
  have hrun : AbandonRow w =
      .ok .S_OK { w with m_arrowBuilders := builders, m_dwColumnCounter := w.m_dwColumnNumber } := by
    unfold AbandonRow
    rw [hloop]
    rfl
  refine ⟨builders, hrun, ?_, ?_, ?_, ?_, ?_⟩
  · apply length_eq_of_getElem_none_iff
    intro j
    rw [hget j]
    split <;> simp
  · intro j hj
    rw [hget j]
    have : ¬ (w.m_dwColumnCounter ≤ j ∧ j < w.m_dwColumnNumber) := by omega
    simp [this]
  · intro j arg hj harg
    rw [hget j]
    have hjlt : j < w.m_arrowBuilders.length := by
      rcases List.getElem?_eq_some_iff.mp harg with ⟨h, _⟩
      exact h
    have : w.m_dwColumnCounter ≤ j ∧ j < w.m_dwColumnNumber := by omega
    simp [this, harg, Builder.AppendNull]
  · intro e w2 h
    exact WriteEndOfLine_full_no_protocol_error env _ rfl e w2 h
  · intro hfull
    rw [hrun]
    have hb : builders = w.m_arrowBuilders := by
      apply List.ext_getElem?
      intro j
      rw [hget j]
      have : ¬ (w.m_dwColumnCounter ≤ j ∧ j < w.m_dwColumnNumber) := by omega
      simp [this]
    subst hb
    cases w
    simp only at hfull
    subst hfull
    rfl

/-- C8 on the sample writer with one of its two columns written. -/
theorem AbandonRow_fills_row_witness :
    ({ Writer.sample none with m_dwColumnCounter := 1 } : Writer).m_dwColumnCounter ≤ 2 ∧
      ∃ builders,
        AbandonRow { Writer.sample none with m_dwColumnCounter := 1 } =
          .ok .S_OK { Writer.sample none with m_arrowBuilders := builders, m_dwColumnCounter := 2 } ∧
        builders.length = 2 ∧
        (∀ j, j < 1 → builders[j]? = (Writer.sample none).m_arrowBuilders[j]?) ∧
        (∀ j arg, 1 ≤ j → (Writer.sample none).m_arrowBuilders[j]? = some arg →
          builders[j]? = some (arg.Append .null)) ∧
        (∀ e w2,
          WriteEndOfLine Env.sample
              { Writer.sample none with m_arrowBuilders := builders, m_dwColumnCounter := 2 } =
            .raise e w2 →
          e.isRowProtocol = false) ∧
        (1 = 2 → AbandonRow { Writer.sample none with m_dwColumnCounter := 1 } =
          .ok .S_OK { Writer.sample none with m_dwColumnCounter := 1 }) :=
  ⟨by decide,
    AbandonRow_fills_row Env.sample { Writer.sample none with m_dwColumnCounter := 1 }
      (by decide) rfl (by decide)⟩

/-! ## The cursor stays within the column count -/

/-- C7 as stated fails: from a new writer, after `SetSchema` with two columns and two
`WriteNothing` the cursor is 2 of 2; a `SetSchema` with a one-column schema then succeeds and
sets the column count to 1 without touching the cursor. The list gives the cursor and the column
count after each call. -/
theorem cursor_exceeds_after_SetSchema :
    (runTrace Env.sample
        [.SetSchema Schema.sample, .WriteNothing, .WriteNothing, .SetSchema Schema.flagsSample]
        (Writer.new none)).map (fun w => (w.m_dwColumnCounter, w.m_dwColumnNumber)) =
      [(0, 2), (1, 2), (2, 2), (2, 1)] ∧
      SetSchema Env.sample Schema.flagsSample
          { Writer.sample none with
            m_dwColumnCounter := 2
            m_arrowWriter := none
            m_arrowBuilders :=
              [⟨.StringBuilder, .utf8, [.null]⟩, ⟨.UInt64Builder, .uint64, [.null]⟩] } =
        .ok .S_OK
          { Writer.flagsSample with m_dwColumnCounter := 2, m_arrowWriter := none } ∧
      ¬ ((2 : Nat) ≤ 1) := by
  decide

theorem op_keeps_cursor_bound (env : Env) (op : Op) (w w1 : Writer)
    (hinv : w.m_dwColumnCounter ≤ w.m_dwColumnNumber)
    (hcover : ∀ columns, op = .SetSchema columns →
      columns = [] ∨ w.m_dwColumnCounter ≤ columns.length)
    (h : (op.run env w).state = some w1) :
    w1.m_dwColumnCounter ≤ w1.m_dwColumnNumber := by
  by_cases hs : ∃ columns, op = .SetSchema columns
  · obtain ⟨columns, rfl⟩ := hs
    obtain ⟨hc, _, hn⟩ := SetSchema_frame env columns w w1 h
    rcases hn with ⟨_, hn⟩ | ⟨hne, hn⟩
    · rw [hc, hn]; exact hinv
    · rcases hcover columns rfl with h0 | h0
      · exact absurd h0 hne
      · rw [hc, hn]; exact h0
  · by_cases he : op = .WriteEndOfLine
    · subst he
      obtain ⟨_, hc, _⟩ := WriteEndOfLine_frame env w w1 h
      rw [hc]; exact Nat.zero_le _
    · exact (other_ops_keep env op w w1 (fun c hc => hs ⟨c, hc⟩) he h).2 hinv

/-- C7, amended: starting from a state with the cursor within the column count (a new writer,
for one), the cursor is within the current column count after every call of a sequence, whether
the call returned or threw, provided every `SetSchema` in the sequence is given a schema that
is empty (and so rejected) or has at least as many columns as the cursor has advanced, as it is
between rows. -/
theorem cursor_within_columns (env : Env) (ops : List Op) :
    ∀ w : Writer, w.m_dwColumnCounter ≤ w.m_dwColumnNumber →
      schemaCoversCursor env ops w = true →
      ∀ w1 ∈ runTrace env ops w, w1.m_dwColumnCounter ≤ w1.m_dwColumnNumber := by
  induction ops with
  | nil => intro w _ _ w1 h; simp [runTrace] at h
  | cons op ops ih =>
    intro w hinv hcover w1 hmem
    unfold runTrace at hmem
    unfold schemaCoversCursor at hcover
    cases hstep : (op.run env w).state with
    | none => simp [hstep] at hmem
    | some w2 =>
      simp only [hstep, Bool.and_eq_true] at hmem hcover
      have hinv2 : w2.m_dwColumnCounter ≤ w2.m_dwColumnNumber := by
        apply op_keeps_cursor_bound env op w w2 hinv _ hstep
        intro columns hop
        subst hop
        have := hcover.1
        simp only [Bool.or_eq_true, decide_eq_true_eq, List.isEmpty_iff] at this
        exact this
      rcases List.mem_cons.mp hmem with h1 | h1
      · subst h1; exact hinv2
      · exact ih w2 hinv2 hcover.2 w1 h1

/-- C7, amended, on a run that changes the schema between rows and has calls that throw. -/
theorem cursor_within_columns_witness :
    (Writer.new none).m_dwColumnCounter ≤ (Writer.new none).m_dwColumnNumber ∧
      schemaCoversCursor Env.sample
          [.SetSchema Schema.sample, .WriteNothing, .WriteNothing, .WriteEndOfLine,
            .SetSchema Schema.flagsSample, .WriteExactFlags 5, .WriteBool true, .WriteFlags 6,
            .WriteEndOfLine, .WriteEndOfLine]
          (Writer.new none) = true ∧
      ∀ w1 ∈ runTrace Env.sample
          [.SetSchema Schema.sample, .WriteNothing, .WriteNothing, .WriteEndOfLine,
            .SetSchema Schema.flagsSample, .WriteExactFlags 5, .WriteBool true, .WriteFlags 6,
            .WriteEndOfLine, .WriteEndOfLine]
          (Writer.new none),
        w1.m_dwColumnCounter ≤ w1.m_dwColumnNumber :=
  ⟨by decide, by decide,
    cursor_within_columns Env.sample _ (Writer.new none) (by decide) (by decide)⟩

/-! ## The total row count -/

theorem op_total (env : Env) (op : Op) (w w1 : Writer)
    (h : (op.run env w).state = some w1) :
    w1.m_dwTotalRowCount =
      (if op = .WriteEndOfLine ∧ w.m_dwColumnCounter = w.m_dwColumnNumber then
        w.m_dwTotalRowCount + 1
      else w.m_dwTotalRowCount) := by
  by_cases he : op = .WriteEndOfLine
  · subst he
    obtain ⟨_, _, ht⟩ := WriteEndOfLine_frame env w w1 h
    rw [ht]
    simp
  · have hif : ¬ (op = .WriteEndOfLine ∧ w.m_dwColumnCounter = w.m_dwColumnNumber) :=
      fun hc => he hc.1
    rw [if_neg hif]
    by_cases hs : ∃ columns, op = .SetSchema columns
    · obtain ⟨columns, rfl⟩ := hs
      exact (SetSchema_frame env columns w w1 h).2.1
    · exact (other_ops_keep env op w w1 (fun c hc => hs ⟨c, hc⟩) he h).1.total

/-- C10: `Flush` (which does end, by returning or throwing, when there is a schema and an open
file) leaves `totalRowCount` as it was; a call of any member function changes `totalRowCount`
only if it is `WriteEndOfLine` with the cursor at the column count, and then by exactly +1; and
over every sequence of calls `totalRowCount` never decreases. -/
theorem totalRowCount_only_grows_at_end_of_row (env : Env) :
    (∀ w : Writer, w.m_arrowSchema ≠ none → w.m_arrowWriter ≠ none →
      ∃ w1, (Flush env w).state = some w1) ∧
    (∀ w w1 : Writer, (Flush env w).state = some w1 →
      w1.m_dwTotalRowCount = w.m_dwTotalRowCount) ∧
    (∀ (op : Op) (w w1 : Writer), (op.run env w).state = some w1 →
      w1.m_dwTotalRowCount =
        (if op = .WriteEndOfLine ∧ w.m_dwColumnCounter = w.m_dwColumnNumber then
          w.m_dwTotalRowCount + 1
        else w.m_dwTotalRowCount)) ∧
    (∀ (ops : List Op) (w : Writer), ∀ w1 ∈ runTrace env ops w,
      w.m_dwTotalRowCount ≤ w1.m_dwTotalRowCount) := by
  refine ⟨?_, fun w w1 h => (Flush_frame env w w1 h).1.total, op_total env, ?_⟩
  · intro w hs hw
    have hd := Flush_defined env w hs hw
    cases hf : Flush env w with
    | undefined => exact absurd hf hd
    | ok hr w1 => exact ⟨w1, rfl⟩
    | raise e w1 => exact ⟨w1, rfl⟩
  intro ops
  induction ops with
  | nil => intro w w1 h; simp [runTrace] at h
  | cons op ops ih =>
    intro w w1 hmem
    unfold runTrace at hmem
    cases hstep : (op.run env w).state with
    | none => simp [hstep] at hmem
    | some w2 =>
      simp only [hstep] at hmem
      have h2 : w.m_dwTotalRowCount ≤ w2.m_dwTotalRowCount := by
        rw [op_total env op w w2 hstep]
        split <;> omega
      rcases List.mem_cons.mp hmem with h1 | h1
      · subst h1; exact h2
      · exact Nat.le_trans h2 (ih w2 w1 h1)

/-- C10 on a run of the sample writer that starts with five rows counted. -/
theorem totalRowCount_only_grows_at_end_of_row_witness :
    (runTrace Env.sample
        [.WriteString_string "a.txt", .WriteFileSize_ULONGLONG 10, .WriteEndOfLine, .Flush,
          .WriteEndOfLine, .AbandonRow, .WriteEndOfLine, .Close]
        { Writer.sample none with m_dwTotalRowCount := 5 }).map
          (fun w => w.m_dwTotalRowCount) = [5, 5, 6, 6, 6, 6, 7, 7] ∧
      ∀ w1 ∈ runTrace Env.sample
          [.WriteString_string "a.txt", .WriteFileSize_ULONGLONG 10, .WriteEndOfLine, .Flush,
            .WriteEndOfLine, .AbandonRow, .WriteEndOfLine, .Close]
          { Writer.sample none with m_dwTotalRowCount := 5 },
        5 ≤ w1.m_dwTotalRowCount :=
  ⟨by decide,
    (totalRowCount_only_grows_at_end_of_row Env.sample).2.2.2 _
      { Writer.sample none with m_dwTotalRowCount := 5 }⟩

/-! ## The builders `GetBuilders` makes -/

theorem GetBuilders_fields_no_ArrayBuilder (env : Env) (fields : List Field) :
    ∀ (acc retval : List Builder), (∀ arg ∈ acc, arg.kind ≠ .ArrayBuilder) →
      GetBuilders.fields env fields acc = .ok retval →
      ∀ arg ∈ retval, arg.kind ≠ .ArrayBuilder := by
  induction fields with
  | nil =>
    intro acc retval hacc h
    simp [GetBuilders.fields] at h
    subst h
    exact hacc
  | cons column rest ih =>
    intro acc retval hacc h
    unfold GetBuilders.fields at h
    have hstep : ∀ b : Builder, b.kind ≠ .ArrayBuilder →
        ∀ arg ∈ acc ++ [b], arg.kind ≠ .ArrayBuilder := by
      intro b hb arg harg
      rcases List.mem_append.mp harg with h1 | h1
      · exact hacc arg h1
      · simp at h1; subst h1; exact hb
    split at h
    all_goals first
      | exact ih _ retval (hstep _ (by simp)) h
      | exact ih _ retval hacc h
      | (split at h
         · exact ih _ retval (hstep _ (by simp)) h
         · cases h)
      | cases h

theorem SetSchema_columns_returned (env : Env) (l : List Column) :
    ∀ (acc : List Field) (hr : HRESULT), SetSchema.columns env l acc = .returned hr →
      hr = .E_FAIL := by
  induction l with
  | nil => intro acc hr h; simp [SetSchema.columns] at h
  | cons c cs ih =>
    intro acc hr h
    unfold SetSchema.columns at h
    split at h
    · cases h
    · split at h
      all_goals first
        | exact ih _ hr h
        | (split at h
           · exact ih _ hr h
           · cases h)
        | (cases h; rfl)

/-- The builders a successful `SetSchema` leaves are never the generic `ArrayBuilder`
alternative, the one class `WriteNothing` and `AbandonRow` refuse. -/
theorem SetSchema_no_ArrayBuilder (env : Env) (columns : Schema) (w w1 : Writer)
    (h : SetSchema env columns w = .ok .S_OK w1) :
    ∀ arg ∈ w1.m_arrowBuilders, arg.kind ≠ .ArrayBuilder := by
  unfold SetSchema at h
  split at h
  · cases h
  · simp only [] at h
    cases hl : SetSchema.columns env columns [] with
    | returned hr =>
      simp only [hl] at h
      have := SetSchema_columns_returned env columns [] hr hl
      subst this
      cases h
    | thrown e => simp only [hl] at h; cases h
    | done schema_definition =>
      simp only [hl] at h
      unfold GetBuilders at h
      simp only at h
      cases hg : GetBuilders.fields env schema_definition [] with
      | error e => simp [hg] at h
      | ok retval =>
        simp [hg] at h
        subst h
        exact GetBuilders_fields_no_ArrayBuilder env schema_definition [] retval (by simp) hg

/-! ## Writes that do not count their column, and writes past the last column -/

/-- Whatever the writer, `WriteExactFlags` ends with the cursor where it found it. -/
theorem WriteExactFlags_cursor (dwFlags : Nat) (w w1 : Writer)
    (h : (WriteExactFlags dwFlags w).state = some w1) :
    w1.m_dwColumnCounter = w.m_dwColumnCounter := by
  unfold WriteExactFlags at h
  rcases Exec.andThen_state _ _ w1 h with ⟨e, hv⟩ | ⟨u, w2, hv, h2⟩
  · exact (visit_frame _ _ w w1 (by rw [hv]; rfl)).2
  · simp at h2
    subst h2
    exact (visit_frame _ _ w w2 (by rw [hv]; rfl)).2

/-- With exactly as many builders as columns and the cursor at the column count, every value
write, `WriteNothing` and `AbandonColumn` index the builders one past the end. -/
theorem write_past_last_column (env : Env) (op : Op) (w : Writer)
    (hop : op.isValueWrite = true ∨ op = .WriteNothing ∨ op = .AbandonColumn)
    (hlen : w.m_arrowBuilders.length = w.m_dwColumnNumber)
    (hfull : w.m_dwColumnCounter = w.m_dwColumnNumber) :
    op.run env w = .undefined := by
  have hb : w.m_arrowBuilders[w.m_dwColumnCounter]? = none :=
    List.getElem?_eq_none (by omega)
  have hv : ∀ f, visit f w.m_dwColumnCounter w = .undefined := fun f => visit_undefined f _ w hb
  have hne : ∀ n, (attributesText n).data.isEmpty = false := by
    intro n
    simp [attributesText]
  rcases hop with hop | hop | hop
  · cases op <;> simp [Op.isValueWrite] at hop <;>
      simp only [Op.run, WriteString_wstring, WriteString_wstring_view, WriteString_WCHAR,
        WriteCharArray_WCHAR, WriteString_string, WriteString_string_view, WriteString_CHAR,
        WriteCharArray_CHAR, WriteFileTime_FILETIME, WriteFileTime_LONGLONG,
        WriteTimeStamp_time_t, WriteTimeStamp_tm, WriteFileSize_LARGE_INTEGER,
        WriteFileSize_ULONGLONG, WriteFileSize_DWORD_DWORD, WriteBool, WriteEnum,
        WriteEnum_names, WriteFlags, WriteFlags_defs, WriteGUID, WriteXML_WCHAR,
        WriteXML_WCHAR_count, WriteXML_CHAR, WriteXML_CHAR_count, WriteInteger_DWORD,
        WriteInteger_LONGLONG, WriteInteger_ULONGLONG, WriteBytes, WriteBytes_CBinaryBuffer,
        WriteExactFlags, WriteExactFlags_defs, WriteFormated_W, WriteFormated_A, WriteAttributes,
        WriteNothing, hne, Bool.false_eq_true, if_false] <;>
      first
        | (rw [hv]; rfl)
        | (split <;> (rw [hv]; rfl))
  · subst hop
    simp only [Op.run, WriteNothing]
    rw [hv]; rfl
  · subst hop
    simp only [Op.run, AbandonColumn, WriteNothing]
    rw [hv]; rfl

/-! ## What a flush does to the builders and the file -/

/-- The successful path through `Flush`, step by step: with an open file holding `written`, a
schema whose builders can be made, and a table that is made and written, `Flush` appends the
table of the finished builders to the file and installs the fresh builders. -/
theorem Flush_of_success (env : Env) (w : Writer) (written : List Table) (fields : List Field)
    (fresh : List Builder) (hw : w.m_arrowWriter = some written)
    (hs : w.m_arrowSchema = some fields)
    (hg : GetBuilders.fields env fields [] = .ok fresh)
    (hmake : env.TableMake ⟨w.m_arrowSchema, w.m_arrowBuilders.map Builder.Finish⟩ = true)
    (hwrite : env.WriteTable written ⟨w.m_arrowSchema, w.m_arrowBuilders.map Builder.Finish⟩ =
      true) :
    Flush env w = .ok .S_OK { w with
      m_arrowBuilders := fresh
      m_arrowWriter :=
        some (written ++ [⟨w.m_arrowSchema, w.m_arrowBuilders.map Builder.Finish⟩]) } := by
  unfold Flush
  simp only [hmake, hw, hwrite, Bool.not_true, Bool.false_eq_true, if_false]
  unfold GetBuilders
  simp only [hs, hg]
  rfl

/-- The two ways `Flush` returns: with `E_FAIL` and the builders finished, nothing written; or
with `S_OK`, the table of the finished builders appended to the file and fresh builders. -/
theorem Flush_ok_cases (env : Env) (w w1 : Writer) (hr : HRESULT)
    (h : Flush env w = .ok hr w1) :
    (hr = .E_FAIL ∧ w1.m_arrowWriter = w.m_arrowWriter ∧
        w1.m_arrowBuilders = w.m_arrowBuilders.map Builder.afterFinish) ∨
      (hr = .S_OK ∧ ∃ written fields fresh, w.m_arrowWriter = some written ∧
        w.m_arrowSchema = some fields ∧ GetBuilders.fields env fields [] = .ok fresh ∧
        w1 = { w with
          m_arrowBuilders := fresh
          m_arrowWriter :=
            some (written ++ [⟨w.m_arrowSchema, w.m_arrowBuilders.map Builder.Finish⟩]) }) := by
  unfold Flush at h
  simp only [] at h
  split at h
  · cases h; exact Or.inl ⟨rfl, rfl, rfl⟩
  · split at h
    · cases h
    · rename_i written hw
      split at h
      · cases h; exact Or.inl ⟨rfl, rfl, rfl⟩
      · unfold GetBuilders at h
        simp only [] at h
        cases hs : w.m_arrowSchema with
        | none => simp [hs] at h
        | some fields =>
          simp only [hs] at h
          cases hg : GetBuilders.fields env fields [] with
          | error e => simp [hg] at h
          | ok fresh =>
            simp only [hg, Exec.andThen_ok] at h
            cases h
            exact Or.inr ⟨rfl, written, fields, fresh, hw, rfl, hg, by simp [hs]⟩

theorem map_afterFinish_idem (l : List Builder) :
    (l.map Builder.afterFinish).map Builder.afterFinish = l.map Builder.afterFinish := by
  induction l with
  | nil => rfl
  | cons b bs ih => simp [Builder.afterFinish]

theorem buildersMatchSchema_iff (env : Env) (w : Writer) :
    w.buildersMatchSchema env = true ↔
      ∃ fields, w.m_arrowSchema = some fields ∧
        GetBuilders.fields env fields [] = .ok (w.m_arrowBuilders.map Builder.afterFinish) := by
  unfold Writer.buildersMatchSchema
  cases hs : w.m_arrowSchema with
  | none => simp
  | some fields =>
    cases hg : GetBuilders.fields env fields [] with
    | error e => simp [hg]
    | ok fresh => simp [hg]

/-- C11: on a writer whose builders are those of its backend schema (as `SetSchema` and `Flush`
leave them, with or without entries appended since) and whose file is open, every `Flush` that
returns `S_OK` leaves, for each field of the schema in order, a builder of the same class and
type as before and with no entries, and the builders again are those of the schema, so rows can
be written as before; and `Flush` does return `S_OK` whenever the table is made and written.
Nothing is assumed about the number of buffered rows. -/
theorem Flush_installs_fresh_builders (env : Env) (w : Writer) (written : List Table)
    (hmatch : w.buildersMatchSchema env = true) (hw : w.m_arrowWriter = some written) :
    (∀ w1, Flush env w = .ok .S_OK w1 →
      w1.m_arrowBuilders = w.m_arrowBuilders.map Builder.afterFinish ∧
      (∀ (i : Nat) (b : Builder), w.m_arrowBuilders[i]? = some b →
        w1.m_arrowBuilders[i]? = some ⟨b.kind, b.type, []⟩) ∧
      w1.m_arrowBuilders.length = w.m_arrowBuilders.length ∧
      w1.m_arrowSchema = w.m_arrowSchema ∧
      w1.buildersMatchSchema env = true) ∧
    (env.TableMake ⟨w.m_arrowSchema, w.m_arrowBuilders.map Builder.Finish⟩ = true →
      env.WriteTable written ⟨w.m_arrowSchema, w.m_arrowBuilders.map Builder.Finish⟩ = true →
      Flush env w = .ok .S_OK { w with
        m_arrowBuilders := w.m_arrowBuilders.map Builder.afterFinish
        m_arrowWriter :=
          some (written ++ [⟨w.m_arrowSchema, w.m_arrowBuilders.map Builder.Finish⟩]) }) := by
  obtain ⟨fields, hs, hg⟩ := (buildersMatchSchema_iff env w).mp hmatch
  constructor
  · intro w1 h
    rcases Flush_ok_cases env w w1 .S_OK h with ⟨hbad, _⟩ | ⟨_, written1, fields1, fresh, _, hs1, hg1, hw1⟩
    · cases hbad
    · rw [hs] at hs1
      cases hs1
      rw [hg] at hg1
      cases hg1
      subst hw1
      refine ⟨rfl, ?_, by simp, rfl, ?_⟩
      · intro i b hb
        simp [List.getElem?_map, hb, Builder.afterFinish]
      · apply (buildersMatchSchema_iff env _).mpr
        exact ⟨fields, hs, by simpa [map_afterFinish_idem] using hg⟩
  · intro hmake hwrite
    exact Flush_of_success env w written fields _ hw hs hg hmake hwrite

/-- C11 on the sample writer with no rows buffered. -/
theorem Flush_installs_fresh_builders_witness :
    (Writer.sample none).buildersMatchSchema Env.sample = true ∧
      Flush Env.sample (Writer.sample none) = .ok .S_OK { Writer.sample none with
        m_arrowBuilders := (Writer.sample none).m_arrowBuilders.map Builder.afterFinish
        m_arrowWriter := some ([] ++ [⟨(Writer.sample none).m_arrowSchema,
          (Writer.sample none).m_arrowBuilders.map Builder.Finish⟩]) } :=
  ⟨by decide,
    (Flush_installs_fresh_builders Env.sample (Writer.sample none) [] (by decide) rfl).2
      rfl rfl⟩

/-! ## The automatic flush -/

/-- A flush followed by the hand-over of its result never comes out as a plain `S_OK` on the
state it started from: a flush that succeeds has appended a table to the file. -/
theorem flush_tail_ne_plain_return (env : Env) (w0 : Writer) :
    ((Flush env w0).andThen fun hr w1 =>
      if FAILED hr then .ok hr w1 else (.ok .S_OK w1 : Exec HRESULT)) ≠ .ok .S_OK w0 := by
  intro h
  cases hf : Flush env w0 with
  | undefined => rw [hf] at h; cases h
  | raise e w1 => rw [hf] at h; cases h
  | ok hr w1 =>
    rw [hf] at h
    simp only [Exec.andThen_ok] at h
    rcases Flush_ok_cases env w0 w1 hr hf with ⟨hbad, _⟩ | ⟨_, written, fields, fresh, hw, _, _, hw1⟩
    · subst hbad
      simp [FAILED] at h
    · split at h
      · cases h
        rename_i hfail
        simp [FAILED] at hfail
      · cases h
        have := congrArg Writer.m_arrowWriter hw1
        simp [hw] at this

/-- C12: ending a complete row (cursor at the column count), `WriteEndOfLine` goes on to call
`Flush` (and hands on its failure) exactly when a batch size is configured and `batchRowCount`,
incremented for the row just ended, is at least that size; otherwise, and always when no batch
size is configured, it returns `S_OK` with the builders and the file untouched. -/
theorem WriteEndOfLine_flushes_iff (env : Env) (w : Writer)
    (hfull : w.m_dwColumnCounter = w.m_dwColumnNumber) :
    ((∃ B, w.batchSize = some B ∧ B ≤ w.m_dwBatchRowCount + 1) ↔
      WriteEndOfLine env w =
        (Flush env { w with
            m_dwColumnCounter := 0
            m_dwBatchRowCount := w.m_dwBatchRowCount + 1
            m_dwTotalRowCount := w.m_dwTotalRowCount + 1 }).andThen fun hr w1 =>
          if FAILED hr then .ok hr w1 else .ok .S_OK w1) ∧
    (¬ (∃ B, w.batchSize = some B ∧ B ≤ w.m_dwBatchRowCount + 1) ↔
      WriteEndOfLine env w =
        .ok .S_OK { w with
          m_dwColumnCounter := 0
          m_dwBatchRowCount := w.m_dwBatchRowCount + 1
          m_dwTotalRowCount := w.m_dwTotalRowCount + 1 }) ∧
    (w.batchSize = none →
      WriteEndOfLine env w =
        .ok .S_OK { w with
          m_dwColumnCounter := 0
          m_dwBatchRowCount := w.m_dwBatchRowCount + 1
          m_dwTotalRowCount := w.m_dwTotalRowCount + 1 }) := by
  have hyes : (∃ B, w.batchSize = some B ∧ B ≤ w.m_dwBatchRowCount + 1) →
      WriteEndOfLine env w =
        (Flush env { w with
            m_dwColumnCounter := 0
            m_dwBatchRowCount := w.m_dwBatchRowCount + 1
            m_dwTotalRowCount := w.m_dwTotalRowCount + 1 }).andThen fun hr w1 =>
          if FAILED hr then .ok hr w1 else .ok .S_OK w1 := by
    rintro ⟨B, hB, hle⟩
    unfold WriteEndOfLine
    simp only [hfull, if_true, Exec.andThen_ok]
    unfold Writer.batchSize at hB
    cases hopt : w.m_Options with
    | none => simp [hopt] at hB
    | some options =>
      simp only [hopt] at hB
      simp only [hB]
      have hge : w.m_dwBatchRowCount + 1 ≥ B := hle
      simp only [hge, if_true]
  have hno : ¬ (∃ B, w.batchSize = some B ∧ B ≤ w.m_dwBatchRowCount + 1) →
      WriteEndOfLine env w =
        .ok .S_OK { w with
          m_dwColumnCounter := 0
          m_dwBatchRowCount := w.m_dwBatchRowCount + 1
          m_dwTotalRowCount := w.m_dwTotalRowCount + 1 } := by
    intro hcond
    unfold WriteEndOfLine
    simp only [hfull, if_true, Exec.andThen_ok]
    cases hopt : w.m_Options with
    | none => rfl
    | some options =>
      cases hbs : options.BatchSize with
      | none => simp only [hbs]
      | some B =>
        have hlt : ¬ (w.m_dwBatchRowCount + 1 ≥ B) := by
          intro hge
          exact hcond ⟨B, by simp [Writer.batchSize, hopt, hbs], hge⟩
        simp only [hbs, hlt, if_false]
  refine ⟨⟨hyes, ?_⟩, ⟨hno, ?_⟩, ?_⟩
  · intro h
    by_contra hcond
    rw [hno hcond] at h
    exact flush_tail_ne_plain_return env _ h.symm
  · intro h hcond
    rw [hyes hcond] at h
    exact flush_tail_ne_plain_return env _ h
  · intro hnone
    apply hno
    rintro ⟨B, hB, _⟩
    rw [hnone] at hB
    cases hB

/-- C12 on the sample writer with a batch size of 2, ending its second row. -/
theorem WriteEndOfLine_flushes_iff_witness :
    (∃ B, ({ Writer.sample (some ⟨some 2⟩) with
          m_dwColumnCounter := 2
          m_dwBatchRowCount := 1 } : Writer).batchSize = some B ∧ B ≤ 1 + 1) ∧
      WriteEndOfLine Env.sample { Writer.sample (some ⟨some 2⟩) with
          m_dwColumnCounter := 2
          m_dwBatchRowCount := 1 } =
        (Flush Env.sample { Writer.sample (some ⟨some 2⟩) with
            m_dwColumnCounter := 0
            m_dwBatchRowCount := 1 + 1
            m_dwTotalRowCount := 0 + 1 }).andThen fun hr w1 =>
          if FAILED hr then .ok hr w1 else .ok .S_OK w1 :=
  ⟨⟨2, rfl, by decide⟩,
    (WriteEndOfLine_flushes_iff Env.sample { Writer.sample (some ⟨some 2⟩) with
        m_dwColumnCounter := 2
        m_dwBatchRowCount := 1 } rfl).1.mp ⟨2, rfl, by decide⟩⟩

/-- C13, the code: the three rows of the example with a batch size of 2, then `Close`. The file
receives three tables, not two: the first two rows at the second `WriteEndOfLine`, the third row
already at the third `WriteEndOfLine` (`batchRowCount` is 3 by then), and an empty table at
`Close`. `totalRowCount` ends at 3. -/
theorem example_scenario_three_tables :
    (runOps Env.sample
        [.WriteString_string "a.txt", .WriteInteger_ULONGLONG 10, .WriteEndOfLine,
          .WriteString_string "b.txt", .WriteInteger_ULONGLONG 20, .WriteEndOfLine,
          .WriteString_string "c.txt", .WriteInteger_ULONGLONG 30, .WriteEndOfLine,
          .Close]
        (Writer.sample (some ⟨some 2⟩))).map
          (fun w => (w.m_arrowWriter.map (List.map Table.arrays), w.m_dwBatchRowCount,
            w.m_dwTotalRowCount)) =
      some (some [ [[.string "a.txt", .string "b.txt"], [.uint64 10, .uint64 20]],
                   [[.string "c.txt"], [.uint64 30]],
                   [[], []] ], 3, 3) := by
  decide

/-! ## Schema assignment -/

/-- C14: `SetSchema` with the empty schema returns `E_INVALIDARG` and the writer is exactly as
it was: schema, column count, backend schema, builders and everything else. -/
theorem SetSchema_empty_schema (env : Env) (w : Writer) :
    SetSchema env [] w = .ok .E_INVALIDARG w := by
  rfl

/-! ## Text that does not transcode, and the attribute text -/

/-- The body shared by the value writes, when the visitor appends the entry `c`. -/
theorem column_write_appends (f : Builder → Except Exception Builder) (w : Writer)
    (arg : Builder) (c : Cell) (hk : w.m_dwColumnCounter < w.m_dwColumnNumber)
    (hb : w.m_arrowBuilders[w.m_dwColumnCounter]? = some arg)
    (hf : f arg = .ok (arg.Append c)) :
    ((visit f w.m_dwColumnCounter w).andThen fun _ w =>
        (AddColumnAndCheckNumbers w).andThen fun _ w => (.ok .S_OK w : Exec HRESULT)) =
      .ok .S_OK { w with
        m_arrowBuilders := w.m_arrowBuilders.set w.m_dwColumnCounter (arg.Append c)
        m_dwColumnCounter := w.m_dwColumnCounter + 1 } := by
  have ha := AddColumnAndCheckNumbers_lt
    { w with m_arrowBuilders := w.m_arrowBuilders.set w.m_dwColumnCounter (arg.Append c) } hk
  rw [visit_ok f _ w arg _ hb hf]
  simp only [Exec.andThen_ok]
  rw [ha]
  rfl

/-- C19: when a 16-bit string is written (any wide overload of `WriteString`, or the wide
`WriteCharArray`) at a cursor `k < N` whose builder is a string builder, and the transcoding of
the text to 8-bit fails, the call returns `S_OK`, having appended exactly one null to builder
`k` and moved the cursor to `k + 1`; nothing is thrown and nothing else changes. -/
theorem wide_write_transcoding_failure (env : Env) (op : Op) (w : Writer) (arg : Builder)
    (str : WString) (htext : op.wideText = some str)
    (hk : w.m_dwColumnCounter < w.m_dwColumnNumber)
    (hb : w.m_arrowBuilders[w.m_dwColumnCounter]? = some arg)
    (hkind : arg.kind = .StringBuilder)
    (hfail : env.WideToAnsi str = none) :
    op.run env w = .ok .S_OK { w with
      m_arrowBuilders := w.m_arrowBuilders.set w.m_dwColumnCounter (arg.Append .null)
      m_dwColumnCounter := w.m_dwColumnCounter + 1 } := by
  have hv : ∀ n, unicodeStringVisitor env str n arg = .ok (arg.Append .null) := by
    intro n
    unfold unicodeStringVisitor
    rw [hkind]
    simp only [hfail]
    rfl
  cases op <;> simp [Op.wideText] at htext <;> subst htext <;>
    simp only [Op.run, WriteString_wstring, WriteString_wstring_view, WriteString_WCHAR,
      WriteCharArray_WCHAR] <;>
    exact column_write_appends _ w arg .null hk hb (hv _)

/-- C19 for `WriteString` of a lone surrogate on the text column of the sample writer. -/
theorem wide_write_transcoding_failure_witness :
    Env.sample.WideToAnsi [55296] = none ∧
      (Op.WriteString_wstring [55296]).run Env.sample (Writer.sample none) =
        .ok .S_OK { Writer.sample none with
          m_arrowBuilders := [⟨.StringBuilder, .utf8, [.null]⟩, ⟨.UInt64Builder, .uint64, []⟩]
          m_dwColumnCounter := 0 + 1 } :=
  ⟨by decide,
    wide_write_transcoding_failure Env.sample (.WriteString_wstring [55296]) (Writer.sample none)
      ⟨.StringBuilder, .utf8, []⟩ [55296] rfl (by decide) rfl rfl (by decide)⟩

theorem and_two_pow_ne_zero_iff (m k : Nat) : m &&& 2 ^ k ≠ 0 ↔ m.testBit k = true := by
  constructor
  · intro h
    by_contra hb
    apply h
    apply Nat.eq_of_testBit_eq
    intro i
    simp only [Nat.testBit_and, Nat.testBit_two_pow, Nat.zero_testBit]
    by_cases hki : k = i
    · subst hki; simp [hb]
    · simp [hki]
  · intro hb h
    have := congrArg (fun x => x.testBit k) h
    simp [Nat.testBit_and, Nat.testBit_two_pow, hb] at this

theorem attribute_char (m k : Nat) (c : Char) :
    (if m &&& 2 ^ k ≠ 0 then c else '.') = (if m.testBit k = true then c else '.') := by
  by_cases h : m.testBit k = true
  · rw [if_pos h, if_pos ((and_two_pow_ne_zero_iff m k).mpr h)]
  · rw [if_neg h, if_neg (fun hc => h ((and_two_pow_ne_zero_iff m k).mp hc))]

/-- C20: for every attribute mask, the text `WriteAttributes` formats has exactly 13 characters;
position by position it is the letter of the fixed sequence A, C, D, E, H, N, O, R, L, P, S, T, V
when the bit of that letter is set in the mask and `.` when it is not, the bits being, in that
order, ARCHIVE, COMPRESSED, DIRECTORY, ENCRYPTED, HIDDEN, NORMAL, OFFLINE, READONLY,
REPARSE_POINT, SPARSE_FILE, SYSTEM, TEMPORARY and VIRTUAL. -/
theorem attributesText_layout (dwFileAttributes : Nat) :
    (attributesText dwFileAttributes).length = 13 ∧
      (attributesText dwFileAttributes).data =
        attributeTable.map (fun p => if dwFileAttributes.testBit p.2 = true then p.1 else '.') ∧
      attributeTable.map (fun p => p.1) =
        ['A', 'C', 'D', 'E', 'H', 'N', 'O', 'R', 'L', 'P', 'S', 'T', 'V'] ∧
      attributeTable.map (fun p => 2 ^ p.2) =
        [FILE_ATTRIBUTE_ARCHIVE, FILE_ATTRIBUTE_COMPRESSED, FILE_ATTRIBUTE_DIRECTORY,
          FILE_ATTRIBUTE_ENCRYPTED, FILE_ATTRIBUTE_HIDDEN, FILE_ATTRIBUTE_NORMAL,
          FILE_ATTRIBUTE_OFFLINE, FILE_ATTRIBUTE_READONLY, FILE_ATTRIBUTE_REPARSE_POINT,
          FILE_ATTRIBUTE_SPARSE_FILE, FILE_ATTRIBUTE_SYSTEM, FILE_ATTRIBUTE_TEMPORARY,
          FILE_ATTRIBUTE_VIRTUAL] := by
  refine ⟨rfl, ?_, rfl, by decide⟩
  have h5 : (if dwFileAttributes &&& 32 ≠ 0 then 'A' else '.') =
      (if dwFileAttributes.testBit 5 = true then 'A' else '.') :=
    attribute_char dwFileAttributes 5 'A'
  have h11 : (if dwFileAttributes &&& 2048 ≠ 0 then 'C' else '.') =
      (if dwFileAttributes.testBit 11 = true then 'C' else '.') :=
    attribute_char dwFileAttributes 11 'C'
  have h4 : (if dwFileAttributes &&& 16 ≠ 0 then 'D' else '.') =
      (if dwFileAttributes.testBit 4 = true then 'D' else '.') :=
    attribute_char dwFileAttributes 4 'D'
  have h14 : (if dwFileAttributes &&& 16384 ≠ 0 then 'E' else '.') =
      (if dwFileAttributes.testBit 14 = true then 'E' else '.') :=
    attribute_char dwFileAttributes 14 'E'
  have h1 : (if dwFileAttributes &&& 2 ≠ 0 then 'H' else '.') =
      (if dwFileAttributes.testBit 1 = true then 'H' else '.') :=
    attribute_char dwFileAttributes 1 'H'
  have h7 : (if dwFileAttributes &&& 128 ≠ 0 then 'N' else '.') =
      (if dwFileAttributes.testBit 7 = true then 'N' else '.') :=
    attribute_char dwFileAttributes 7 'N'
  have h12 : (if dwFileAttributes &&& 4096 ≠ 0 then 'O' else '.') =
      (if dwFileAttributes.testBit 12 = true then 'O' else '.') :=
    attribute_char dwFileAttributes 12 'O'
  have h0 : (if dwFileAttributes &&& 1 ≠ 0 then 'R' else '.') =
      (if dwFileAttributes.testBit 0 = true then 'R' else '.') :=
    attribute_char dwFileAttributes 0 'R'
  have h10 : (if dwFileAttributes &&& 1024 ≠ 0 then 'L' else '.') =
      (if dwFileAttributes.testBit 10 = true then 'L' else '.') :=
    attribute_char dwFileAttributes 10 'L'
  have h9 : (if dwFileAttributes &&& 512 ≠ 0 then 'P' else '.') =
      (if dwFileAttributes.testBit 9 = true then 'P' else '.') :=
    attribute_char dwFileAttributes 9 'P'
  have h2 : (if dwFileAttributes &&& 4 ≠ 0 then 'S' else '.') =
      (if dwFileAttributes.testBit 2 = true then 'S' else '.') :=
    attribute_char dwFileAttributes 2 'S'
  have h8 : (if dwFileAttributes &&& 256 ≠ 0 then 'T' else '.') =
      (if dwFileAttributes.testBit 8 = true then 'T' else '.') :=
    attribute_char dwFileAttributes 8 'T'
  have h16 : (if dwFileAttributes &&& 65536 ≠ 0 then 'V' else '.') =
      (if dwFileAttributes.testBit 16 = true then 'V' else '.') :=
    attribute_char dwFileAttributes 16 'V'
  simp only [attributesText, attributeTable, List.map, FILE_ATTRIBUTE_ARCHIVE,
    FILE_ATTRIBUTE_COMPRESSED, FILE_ATTRIBUTE_DIRECTORY, FILE_ATTRIBUTE_ENCRYPTED,
    FILE_ATTRIBUTE_HIDDEN, FILE_ATTRIBUTE_NORMAL, FILE_ATTRIBUTE_OFFLINE,
    FILE_ATTRIBUTE_READONLY, FILE_ATTRIBUTE_REPARSE_POINT, FILE_ATTRIBUTE_SPARSE_FILE,
    FILE_ATTRIBUTE_SYSTEM, FILE_ATTRIBUTE_TEMPORARY, FILE_ATTRIBUTE_VIRTUAL]
  rw [h5, h11, h4, h14, h1, h7, h12, h0, h10, h9, h2, h8, h16]

theorem ansiTake_length (s : String) : ansiTake s s.length = s := by
  unfold ansiTake
  have : s.length = s.data.length := rfl
  rw [this, List.take_length]

/-- On a string builder under a cursor `k < N`, `WriteAttributes` appends the thirteen
characters as one entry, moves the cursor on and returns `S_OK`. -/
theorem WriteAttributes_appends_text (dwFileAttributes : Nat) (w : Writer) (arg : Builder)
    (hk : w.m_dwColumnCounter < w.m_dwColumnNumber)
    (hb : w.m_arrowBuilders[w.m_dwColumnCounter]? = some arg)
    (hkind : arg.kind = .StringBuilder) :
    WriteAttributes dwFileAttributes w = .ok .S_OK { w with
      m_arrowBuilders := w.m_arrowBuilders.set w.m_dwColumnCounter
        (arg.Append (.string (attributesText dwFileAttributes)))
      m_dwColumnCounter := w.m_dwColumnCounter + 1 } := by
  have hne : (attributesText dwFileAttributes).data.isEmpty = false := by
    simp [attributesText]
  have hv : ansiStringVisitor (attributesText dwFileAttributes) arg =
      .ok (arg.Append (.string (attributesText dwFileAttributes))) := by
    unfold ansiStringVisitor
    rw [hkind]
  unfold WriteAttributes WriteFormated_A
  simp only [hne, Bool.false_eq_true, if_false]
  unfold WriteCharArray_CHAR
  rw [ansiTake_length]
  rw [column_write_appends _ w arg _ hk hb hv]
  rfl

theorem GetBuilders_fields_values_empty (env : Env) (fields : List Field) :
    ∀ (acc retval : List Builder), (∀ arg ∈ acc, arg.values = []) →
      GetBuilders.fields env fields acc = .ok retval →
      ∀ arg ∈ retval, arg.values = [] := by
  induction fields with
  | nil =>
    intro acc retval hacc h
    simp [GetBuilders.fields] at h
    subst h
    exact hacc
  | cons column rest ih =>
    intro acc retval hacc h
    unfold GetBuilders.fields at h
    have hstep : ∀ b : Builder, b.values = [] → ∀ arg ∈ acc ++ [b], arg.values = [] := by
      intro b hb arg harg
      rcases List.mem_append.mp harg with h1 | h1
      · exact hacc arg h1
      · simp at h1; subst h1; exact hb
    split at h
    all_goals first
      | exact ih _ retval (hstep _ rfl) h
      | exact ih _ retval hacc h
      | (split at h
         · exact ih _ retval (hstep _ rfl) h
         · cases h)
      | cases h

/-- What a successful `SetSchema` has done: the schema is not empty, the column loop fell out
with some fields, the builders are the fresh builders of those fields, and nothing in the writer
but the schema, the column count, the backend schema and the builders has changed. -/
theorem SetSchema_success (env : Env) (columns : Schema) (w w1 : Writer)
    (h : SetSchema env columns w = .ok .S_OK w1) :
    ∃ fields fresh, columns ≠ [] ∧ SetSchema.columns env columns [] = .done fields ∧
      GetBuilders.fields env fields [] = .ok fresh ∧
      w1 = { w with
        m_Schema := columns
        m_dwColumnNumber := columns.length
        m_arrowSchema := some fields
        m_arrowBuilders := fresh } := by
  unfold SetSchema at h
  split at h
  · cases h
  · rename_i hne
    simp only [] at h
    cases hl : SetSchema.columns env columns [] with
    | returned hr =>
      simp only [hl] at h
      have := SetSchema_columns_returned env columns [] hr hl
      subst this
      cases h
    | thrown e => simp only [hl] at h; cases h
    | done schema_definition =>
      simp only [hl] at h
      unfold GetBuilders at h
      simp only at h
      cases hg : GetBuilders.fields env schema_definition [] with
      | error e => simp [hg] at h
      | ok retval =>
        simp [hg] at h
        subst h
        refine ⟨schema_definition, retval, ?_, rfl, hg, rfl⟩
        intro hc
        subst hc
        simp at hne

/-- C16: after a `SetSchema` that returns `S_OK` every builder is empty, whatever entries the
builders held before the call, and the file holds exactly the tables it held before: the
entries buffered and not yet flushed are dropped, not written. -/
theorem SetSchema_discards_buffered (env : Env) (columns : Schema) (w w1 : Writer)
    (h : SetSchema env columns w = .ok .S_OK w1) :
    (∀ arg ∈ w1.m_arrowBuilders, arg.values = []) ∧ w1.m_arrowWriter = w.m_arrowWriter := by
  obtain ⟨fields, fresh, _, _, hg, hw1⟩ := SetSchema_success env columns w w1 h
  subst hw1
  exact ⟨GetBuilders_fields_values_empty env fields [] fresh (by simp) hg, rfl⟩

/-- C16 on the sample writer with one row buffered and not flushed. -/
theorem SetSchema_discards_buffered_witness :
    SetSchema Env.sample Schema.flagsSample
        { Writer.sample none with
          m_arrowBuilders :=
            [⟨.StringBuilder, .utf8, [.string "a.txt"]⟩, ⟨.UInt64Builder, .uint64, [.uint64 10]⟩]
          m_dwBatchRowCount := 1
          m_dwTotalRowCount := 1 } =
      .ok .S_OK { Writer.flagsSample with
        m_dwBatchRowCount := 1
        m_dwTotalRowCount := 1 } ∧
    ((∀ arg ∈ ({ Writer.flagsSample with
          m_dwBatchRowCount := 1
          m_dwTotalRowCount := 1 } : Writer).m_arrowBuilders, arg.values = []) ∧
      ({ Writer.flagsSample with
          m_dwBatchRowCount := 1
          m_dwTotalRowCount := 1 } : Writer).m_arrowWriter = some []) :=
  ⟨by decide,
    SetSchema_discards_buffered Env.sample Schema.flagsSample
      { Writer.sample none with
        m_arrowBuilders :=
          [⟨.StringBuilder, .utf8, [.string "a.txt"]⟩, ⟨.UInt64Builder, .uint64, [.uint64 10]⟩]
        m_dwBatchRowCount := 1
        m_dwTotalRowCount := 1 }
      { Writer.flagsSample with
        m_dwBatchRowCount := 1
        m_dwTotalRowCount := 1 }
      (by decide)⟩

/-- C15, the code: `SetSchema` with a two-column schema whose second column has a name that does
not transcode returns `S_OK` with the column count at 2 and a backend schema of one field and
one builder: the column loop is left at that column and the function goes on as usual. -/
theorem SetSchema_name_failure_succeeds :
    SetSchema Env.sample Schema.badNameSample (Writer.new none) =
      .ok .S_OK { Writer.new none with
        m_Schema := Schema.badNameSample
        m_dwColumnNumber := 2
        m_arrowSchema := some [⟨"name", .utf8, true, none⟩]
        m_arrowBuilders := [⟨.StringBuilder, .utf8, []⟩] } := by
  decide

/-- C17: for a column of any of the nineteen semantic types, with a name that transcodes (and a
length, if it is a fixed binary column), the column loop of `SetSchema` produces exactly one
field: it is nullable, carries the transcoded name, and has the backend type the spec names for
the semantic type; and `GetBuilders` makes for that field one empty builder of the matching
kind. -/
theorem SetSchema_column_mapping (env : Env) (column : Column) (strName : String)
    (hname : env.WideToAnsi column.ColumnName = some strName)
    (htype : column.ColType ≠ .Other)
    (hlen : column.ColType = .FixedBinaryType → ∃ len, column.dwLen = some len) :
    ∃ type kind metadata,
      specBackendType column = some type ∧
      specBuilderKind column.ColType = some kind ∧
      SetSchema.columns env [column] [] = .done [⟨strName, type, true, metadata⟩] ∧
      GetBuilders.fields env [⟨strName, type, true, metadata⟩] [] = .ok [⟨kind, type, []⟩] := by
  obtain ⟨ColumnName, ColType, dwLen, EnumValues, FlagsValues⟩ := column
  simp only at hname htype hlen
  cases ColType
  case Other => exact absurd rfl htype
  case FixedBinaryType =>
    obtain ⟨len, hl⟩ := hlen rfl
    subst hl
    refine ⟨_, _, none, rfl, rfl, ?_, rfl⟩
    simp only [SetSchema.columns, hname]
    rfl
  case EnumType =>
    refine ⟨_, _, EnumValues.map (enumMetadata env), rfl, rfl, ?_, rfl⟩
    simp only [SetSchema.columns, hname]
    rfl
  case FlagsType =>
    refine ⟨_, _, FlagsValues.map (flagsMetadata env), rfl, rfl, ?_, rfl⟩
    simp only [SetSchema.columns, hname]
    rfl
  all_goals
    refine ⟨_, _, none, rfl, rfl, ?_, rfl⟩
    simp only [SetSchema.columns, hname]
    rfl

/-- C17 for the fixed binary column `hash` of width 20. -/
theorem SetSchema_column_mapping_witness :
    Env.sample.WideToAnsi [104, 97, 115, 104] = some "hash" ∧
      ∃ type kind metadata,
        specBackendType ⟨[104, 97, 115, 104], .FixedBinaryType, some 20, none, none⟩ =
          some type ∧
        specBuilderKind .FixedBinaryType = some kind ∧
        SetSchema.columns Env.sample
            [⟨[104, 97, 115, 104], .FixedBinaryType, some 20, none, none⟩] [] =
          .done [⟨"hash", type, true, metadata⟩] ∧
        GetBuilders.fields Env.sample [⟨"hash", type, true, metadata⟩] [] =
          .ok [⟨kind, type, []⟩] :=
  ⟨by decide,
    SetSchema_column_mapping Env.sample
      ⟨[104, 97, 115, 104], .FixedBinaryType, some 20, none, none⟩ "hash" (by decide)
      (by decide) (fun _ => ⟨20, rfl⟩)⟩

/-! ## Writing after `Close` -/

/-- A typed value write on a builder of an accepted class under a cursor `k < N` appends one
entry, moves the cursor on and returns `S_OK`. -/
theorem typed_write_ok (env : Env) (op : Op) (w : Writer) (arg : Builder)
    (hop : op.isTypedWrite = true)
    (hk : w.m_dwColumnCounter < w.m_dwColumnNumber)
    (hb : w.m_arrowBuilders[w.m_dwColumnCounter]? = some arg)
    (hacc : op.accepts arg.kind = true) :
    ∃ c, op.run env w = .ok .S_OK { w with
        m_arrowBuilders := w.m_arrowBuilders.set w.m_dwColumnCounter (arg.Append c)
        m_dwColumnCounter := w.m_dwColumnCounter + 1 } := by
  have hu : ∀ (s : WString) (n : Nat), arg.kind = .BinaryBuilder ∨ arg.kind = .StringBuilder →
      ∃ c, unicodeStringVisitor env s n arg = .ok (arg.Append c) := by
    intro s n h
    unfold unicodeStringVisitor
    rcases h with h | h
    · rw [h]; exact ⟨_, rfl⟩
    · rw [h]
      cases env.WideToAnsi s
      · exact ⟨_, rfl⟩
      · exact ⟨_, rfl⟩
  have ha : ∀ (s : String), arg.kind = .StringBuilder →
      ∃ c, ansiStringVisitor s arg = .ok (arg.Append c) := by
    intro s h
    unfold ansiStringVisitor
    rw [h]; exact ⟨_, rfl⟩
  have hx : ∀ (l : List Nat), arg.kind = .BinaryBuilder →
      ∃ c, xmlVisitor l arg = .ok (arg.Append c) := by
    intro l h
    unfold xmlVisitor
    rw [h]; exact ⟨_, rfl⟩
  cases op <;> simp [Op.isTypedWrite] at hop <;> simp [Op.accepts] at hacc <;>
    simp only [Op.run, WriteString_wstring, WriteString_wstring_view, WriteString_WCHAR,
      WriteCharArray_WCHAR, WriteString_string, WriteString_string_view, WriteString_CHAR,
      WriteCharArray_CHAR, WriteFileTime_FILETIME, WriteFileTime_LONGLONG, WriteTimeStamp_time_t,
      WriteTimeStamp_tm, WriteFileSize_LARGE_INTEGER, WriteFileSize_ULONGLONG,
      WriteFileSize_DWORD_DWORD, WriteBool, WriteEnum, WriteEnum_names, WriteFlags,
      WriteFlags_defs, WriteGUID, WriteXML_WCHAR, WriteXML_WCHAR_count, WriteXML_CHAR,
      WriteXML_CHAR_count, WriteInteger_DWORD, WriteInteger_LONGLONG, WriteInteger_ULONGLONG] <;>
    refine column_write_ok _ w arg hk hb ?_
  all_goals first
    | exact hu _ _ hacc
    | exact ha _ hacc
    | exact hx _ hacc
    | (rw [hacc]; exact ⟨_, rfl⟩)
    | (rcases hacc with h | h <;> rw [h] <;> exact ⟨_, rfl⟩)
    | (rcases hacc with ((h | h) | h) | h <;> rw [h] <;> exact ⟨_, rfl⟩)

/-- What a `Close` that returns `S_OK` has done: the flush it calls returned `S_OK`, and the
termination handler is no longer registered; nothing else is recorded. -/
theorem Close_success (env : Env) (w w1 : Writer) (h : Close env w = .ok .S_OK w1) :
    ∃ w2, Flush env w = .ok .S_OK w2 ∧ w1 = { w2 with m_pTermination := false } := by
  unfold Close at h
  cases hf : Flush env w with
  | undefined => rw [hf] at h; cases h
  | raise e w2 => rw [hf] at h; cases h
  | ok hr w2 =>
    rw [hf] at h
    simp only [Exec.andThen_ok] at h
    split at h
    · rename_i hfail
      cases h
      simp [FAILED] at hfail
    · rename_i hfail
      have hr0 : hr = .S_OK := by
        cases hr <;> simp [FAILED] at hfail
        rfl
      subst hr0
      refine ⟨w2, rfl, ?_⟩
      split at h
      · cases h; rfl
      · rename_i ht
        cases h
        obtain ⟨o, sc, n, c, b, t, s, bs, f, term⟩ := w1
        cases term
        · rfl
        · exact absurd rfl ht

/-- C18 as stated fails: on the sample writer `Close` returns `S_OK`, and the `WriteString`,
`WriteInteger` and `WriteEndOfLine` that follow all return `S_OK` as well: the row is buffered
and counted. The list gives, after each call, the builders' entries and the total row count. -/
theorem write_after_Close_succeeds :
    (Close Env.sample (Writer.sample none)).andThen (fun _ w => WriteString_string "a.txt" w) =
      .ok .S_OK { Writer.sample none with
        m_arrowBuilders :=
          [⟨.StringBuilder, .utf8, [.string "a.txt"]⟩, ⟨.UInt64Builder, .uint64, []⟩]
        m_dwColumnCounter := 1
        m_arrowWriter := some
          [⟨some [⟨"name", .utf8, true, none⟩, ⟨"size", .uint64, true, none⟩], [[], []]⟩]
        m_pTermination := false } ∧
    (runTrace Env.sample
        [.Close, .WriteString_string "a.txt", .WriteInteger_ULONGLONG 10, .WriteEndOfLine]
        (Writer.sample none)).map
          (fun w => (w.m_arrowBuilders.map Builder.values, w.m_dwTotalRowCount)) =
      [([[], []], 0), ([[.string "a.txt"], []], 0), ([[.string "a.txt"], [.uint64 10]], 0),
        ([[.string "a.txt"], [.uint64 10]], 1)] := by
  decide

/-- C18, amended: `Close` keeps no closed state. When it has returned `S_OK` on a writer whose
builders are those of its backend schema, the cursor and the column count are as before, the
builders are the same in class and type and empty, the termination handler is deregistered, and
a typed value write that builder `k` accepted before `Close` is accepted after it: at a cursor
`k < N` it appends one entry to builder `k`, moves the cursor to `k + 1` and returns `S_OK`. -/
theorem Close_keeps_writer_writable (env : Env) (w w1 : Writer) (op : Op) (arg : Builder)
    (hmatch : w.buildersMatchSchema env = true)
    (hclose : Close env w = .ok .S_OK w1)
    (hop : op.isTypedWrite = true)
    (hk : w.m_dwColumnCounter < w.m_dwColumnNumber)
    (hb : w.m_arrowBuilders[w.m_dwColumnCounter]? = some arg)
    (hacc : op.accepts arg.kind = true) :
    w1.m_dwColumnCounter = w.m_dwColumnCounter ∧
      w1.m_dwColumnNumber = w.m_dwColumnNumber ∧
      w1.m_arrowBuilders = w.m_arrowBuilders.map Builder.afterFinish ∧
      w1.m_pTermination = false ∧
      ∃ c, op.run env w1 = .ok .S_OK { w1 with
        m_arrowBuilders :=
          w1.m_arrowBuilders.set w.m_dwColumnCounter (Builder.Append ⟨arg.kind, arg.type, []⟩ c)
        m_dwColumnCounter := w.m_dwColumnCounter + 1 } := by
  obtain ⟨w2, hflush, hw1⟩ := Close_success env w w1 hclose
  obtain ⟨fields, hs, hg⟩ := (buildersMatchSchema_iff env w).mp hmatch
  rcases Flush_ok_cases env w w2 .S_OK hflush with ⟨hbad, _⟩ | ⟨_, written, fields1, fresh, _, hs1, hg1, hw2⟩
  · cases hbad
  · rw [hs] at hs1
    cases hs1
    rw [hg] at hg1
    cases hg1
    subst hw2
    subst hw1
    refine ⟨rfl, rfl, rfl, rfl, ?_⟩
    have hb1 : (w.m_arrowBuilders.map Builder.afterFinish)[w.m_dwColumnCounter]? =
        some ⟨arg.kind, arg.type, []⟩ := by
      simp [List.getElem?_map, hb, Builder.afterFinish]
    exact typed_write_ok env op _ ⟨arg.kind, arg.type, []⟩ hop hk hb1 hacc

/-- C18, amended, for `WriteString` after `Close` on the sample writer. -/
theorem Close_keeps_writer_writable_witness :
    Close Env.sample (Writer.sample none) =
        .ok .S_OK { Writer.sample none with
          m_arrowWriter := some
            [⟨some [⟨"name", .utf8, true, none⟩, ⟨"size", .uint64, true, none⟩], [[], []]⟩]
          m_pTermination := false } ∧
      ∃ c, (Op.WriteString_string "a.txt").run Env.sample
          { Writer.sample none with
            m_arrowWriter := some
              [⟨some [⟨"name", .utf8, true, none⟩, ⟨"size", .uint64, true, none⟩], [[], []]⟩]
            m_pTermination := false } =
        .ok .S_OK { Writer.sample none with
          m_arrowBuilders :=
            (Writer.sample none).m_arrowBuilders.set 0
              (Builder.Append ⟨.StringBuilder, .utf8, []⟩ c)
          m_dwColumnCounter := 0 + 1
          m_arrowWriter := some
            [⟨some [⟨"name", .utf8, true, none⟩, ⟨"size", .uint64, true, none⟩], [[], []]⟩]
          m_pTermination := false } :=
  ⟨by decide,
    (Close_keeps_writer_writable Env.sample (Writer.sample none)
      { Writer.sample none with
        m_arrowWriter := some
          [⟨some [⟨"name", .utf8, true, none⟩, ⟨"size", .uint64, true, none⟩], [[], []]⟩]
        m_pTermination := false }
      (.WriteString_string "a.txt") ⟨.StringBuilder, .utf8, []⟩
      (by decide) (by decide) rfl (by decide) rfl rfl).2.2.2.2⟩

/-! ## Schemas whose every column maps -/

/-- The column loop on a schema in which every column name transcodes and every column has a
backend type: it runs to the end and pushes one field per column, in order, nullable, with the
transcoded name and the backend type of the column. -/
theorem SetSchema_columns_good (env : Env) (columns : List Column) :
    ∀ acc, (∀ c ∈ columns, env.WideToAnsi c.ColumnName ≠ none ∧ specBackendType c ≠ none) →
      ∃ fields, SetSchema.columns env columns acc = .done (acc ++ fields) ∧
        List.Forall₂ (fun c f => specBackendType c = some f.type ∧
          env.WideToAnsi c.ColumnName = some f.name ∧ f.nullable = true) columns fields := by
  induction columns with
  | nil =>
    intro acc _
    exact ⟨[], by simp [SetSchema.columns], List.Forall₂.nil⟩
  | cons c rest ih =>
    intro acc hgood
    have hc := hgood c (List.mem_cons_self _ _)
    have hrest : ∀ c1 ∈ rest, env.WideToAnsi c1.ColumnName ≠ none ∧ specBackendType c1 ≠ none :=
      fun c1 h => hgood c1 (List.mem_cons_of_mem _ h)
    obtain ⟨ColumnName, ColType, dwLen, EnumValues, FlagsValues⟩ := c
    cases hW : env.WideToAnsi ColumnName with
    | none => exact absurd hW hc.1
    | some strName =>
      have step : ∀ f : Field, f.name = strName → f.nullable = true →
          specBackendType ⟨ColumnName, ColType, dwLen, EnumValues, FlagsValues⟩ = some f.type →
          SetSchema.columns env (⟨ColumnName, ColType, dwLen, EnumValues, FlagsValues⟩ :: rest)
            acc = SetSchema.columns env rest (acc ++ [f]) →
          ∃ fields,
            SetSchema.columns env (⟨ColumnName, ColType, dwLen, EnumValues, FlagsValues⟩ :: rest)
              acc = .done (acc ++ fields) ∧
            List.Forall₂ (fun c f => specBackendType c = some f.type ∧
              env.WideToAnsi c.ColumnName = some f.name ∧ f.nullable = true)
              (⟨ColumnName, ColType, dwLen, EnumValues, FlagsValues⟩ :: rest) fields := by
        intro f hn hnull hty heq
        obtain ⟨fields, hdone, hall⟩ := ih (acc ++ [f]) hrest
        refine ⟨f :: fields, ?_, List.Forall₂.cons ⟨hty, by simp [hW, hn], hnull⟩ hall⟩
        rw [heq, hdone]
        simp
      cases ColType
      case Other => simp [specBackendType] at hc
      case FixedBinaryType =>
        cases dwLen with
        | none => simp [specBackendType] at hc
        | some len =>
          exact step ⟨strName, .fixed_size_binary len, true, none⟩ rfl rfl rfl
            (by simp [SetSchema.columns, hW])
      case EnumType =>
        exact step ⟨strName, .uint32, true, EnumValues.map (enumMetadata env)⟩ rfl rfl rfl
          (by simp [SetSchema.columns, hW])
      case FlagsType =>
        exact step ⟨strName, .uint32, true, FlagsValues.map (flagsMetadata env)⟩ rfl rfl rfl
          (by simp [SetSchema.columns, hW])
      all_goals
        exact step ⟨strName, _, true, none⟩ rfl rfl rfl (by simp [SetSchema.columns, hW])

/-- The builder loop on the fields of such a schema: one empty builder per field, in order, of
the kind that matches the column. -/
theorem GetBuilders_fields_good (env : Env) (columns : List Column) (fields : List Field)
    (h : List.Forall₂ (fun c f => specBackendType c = some f.type) columns fields) :
    ∀ acc, ∃ fresh, GetBuilders.fields env fields acc = .ok (acc ++ fresh) ∧
      List.Forall₂ (fun c b => specBuilderKind c.ColType = some b.kind ∧
        specBackendType c = some b.type ∧ b.values = []) columns fresh := by
  induction h with
  | nil =>
    intro acc
    exact ⟨[], by simp [GetBuilders.fields], List.Forall₂.nil⟩
  | @cons c f rest frest hcf _ ih =>
    intro acc
    have step : ∀ b : Builder, specBuilderKind c.ColType = some b.kind → b.type = f.type →
        b.values = [] →
        GetBuilders.fields env (f :: frest) acc = GetBuilders.fields env frest (acc ++ [b]) →
        ∃ fresh, GetBuilders.fields env (f :: frest) acc = .ok (acc ++ fresh) ∧
          List.Forall₂ (fun c b => specBuilderKind c.ColType = some b.kind ∧
            specBackendType c = some b.type ∧ b.values = []) (c :: rest) fresh := by
      intro b hkind htype hvals heq
      obtain ⟨fresh, hok, hall⟩ := ih (acc ++ [b])
      refine ⟨b :: fresh, ?_, List.Forall₂.cons ⟨hkind, by rw [htype]; exact hcf, hvals⟩ hall⟩
      rw [heq, hok]
      simp
    obtain ⟨ColumnName, ColType, dwLen, EnumValues, FlagsValues⟩ := c
    obtain ⟨name, type, nullable, metadata⟩ := f
    cases ColType
    case Other => simp [specBackendType] at hcf
    case FixedBinaryType =>
      cases dwLen with
      | none => simp [specBackendType] at hcf
      | some len =>
        simp [specBackendType] at hcf
        subst hcf
        exact step ⟨.FixedSizeBinaryBuilder, _, []⟩ rfl rfl rfl
          (by simp [GetBuilders.fields, DataType.type_id])
    all_goals
      simp [specBackendType] at hcf
      subst hcf
      exact step ⟨_, _, []⟩ rfl rfl rfl (by simp [GetBuilders.fields, DataType.type_id])

/-- On a non-empty schema in which every column name transcodes and every column has a backend
type (it is one of the nineteen semantic types, with a length if it is fixed binary),
`SetSchema` returns `S_OK` and leaves one field and one empty builder per column, in column
order, each builder of the kind that matches its column. -/
theorem SetSchema_good_schema (env : Env) (columns : Schema) (w : Writer) (hne : columns ≠ [])
    (hgood : ∀ c ∈ columns, env.WideToAnsi c.ColumnName ≠ none ∧ specBackendType c ≠ none) :
    ∃ fields fresh,
      SetSchema env columns w = .ok .S_OK { w with
        m_Schema := columns
        m_dwColumnNumber := columns.length
        m_arrowSchema := some fields
        m_arrowBuilders := fresh } ∧
      fields.length = columns.length ∧ fresh.length = columns.length ∧
      List.Forall₂ (fun c b => specBuilderKind c.ColType = some b.kind ∧
        specBackendType c = some b.type ∧ b.values = []) columns fresh := by
  obtain ⟨fields, hdone, hall⟩ := SetSchema_columns_good env columns [] hgood
  have hall1 : List.Forall₂ (fun c f => specBackendType c = some f.type) columns fields :=
    hall.imp (fun _ _ h => h.1)
  obtain ⟨fresh, hok, hb⟩ := GetBuilders_fields_good env columns fields hall1 []
  simp only [List.nil_append] at hdone hok
  refine ⟨fields, fresh, ?_, hall.length_eq.symm, hb.length_eq.symm, hb⟩
  unfold SetSchema
  have hemp : columns.isEmpty = false := by
    cases columns with
    | nil => exact absurd rfl hne
    | cons c cs => rfl
  simp only [hemp, Bool.false_eq_true, if_false, hdone]
  unfold GetBuilders
  simp only [hok]
  rfl

/-! ## The builders stay those of the backend schema -/

theorem map_afterFinish_set (l : List Builder) (i : Nat) (arg arg1 : Builder)
    (hb : l[i]? = some arg) (h1 : arg1.afterFinish = arg.afterFinish) :
    (l.set i arg1).map Builder.afterFinish = l.map Builder.afterFinish := by
  apply List.ext_getElem?
  intro j
  simp only [List.getElem?_map, List.getElem?_set]
  by_cases hij : i = j
  · subst hij
    have hlt : i < l.length := (List.getElem?_eq_some_iff.mp hb).1
    simp [hlt, hb, h1]
  · simp [hij]

theorem buildersMatchSchema_congr (env : Env) (w w1 : Writer)
    (hs : w1.m_arrowSchema = w.m_arrowSchema)
    (hb : w1.m_arrowBuilders.map Builder.afterFinish = w.m_arrowBuilders.map Builder.afterFinish)
    (h : w.buildersMatchSchema env = true) : w1.buildersMatchSchema env = true := by
  obtain ⟨fields, hf, hg⟩ := (buildersMatchSchema_iff env w).mp h
  exact (buildersMatchSchema_iff env w1).mpr ⟨fields, by rw [hs, hf], by rw [hb]; exact hg⟩

theorem visit_shape (f : Builder → Except Exception Builder) (i : Nat) (w w1 : Writer)
    (hf : ∀ arg arg1, f arg = .ok arg1 → arg1.afterFinish = arg.afterFinish)
    (h : (visit f i w).state = some w1) :
    w1.m_arrowSchema = w.m_arrowSchema ∧
      w1.m_arrowBuilders.map Builder.afterFinish = w.m_arrowBuilders.map Builder.afterFinish := by
  unfold visit at h
  cases hb : w.m_arrowBuilders[i]? with
  | none => simp [hb] at h
  | some arg =>
    cases hfa : f arg with
    | error e =>
      simp [hb, hfa] at h
      subst h
      exact ⟨rfl, rfl⟩
    | ok arg1 =>
      simp [hb, hfa] at h
      subst h
      exact ⟨rfl, map_afterFinish_set _ i arg arg1 hb (hf arg arg1 hfa)⟩

theorem AddColumnAndCheckNumbers_shape (w w1 : Writer)
    (h : (AddColumnAndCheckNumbers w).state = some w1) :
    w1.m_arrowSchema = w.m_arrowSchema ∧ w1.m_arrowBuilders = w.m_arrowBuilders := by
  unfold AddColumnAndCheckNumbers at h
  simp only [] at h
  split at h <;> (simp at h; subst h; exact ⟨rfl, rfl⟩)

theorem column_write_shape (f : Builder → Except Exception Builder) (w w1 : Writer)
    (hf : ∀ arg arg1, f arg = .ok arg1 → arg1.afterFinish = arg.afterFinish)
    (h : ((visit f w.m_dwColumnCounter w).andThen fun _ w =>
        (AddColumnAndCheckNumbers w).andThen fun _ w =>
          (.ok .S_OK w : Exec HRESULT)).state = some w1) :
    w1.m_arrowSchema = w.m_arrowSchema ∧
      w1.m_arrowBuilders.map Builder.afterFinish = w.m_arrowBuilders.map Builder.afterFinish := by
  rcases Exec.andThen_state _ _ w1 h with ⟨e, hv⟩ | ⟨u, w2, hv, h2⟩
  · exact visit_shape f _ w w1 hf (by rw [hv]; rfl)
  · have hv2 := visit_shape f _ w w2 hf (by rw [hv]; rfl)
    rcases Exec.andThen_state _ _ w1 h2 with ⟨e, ha⟩ | ⟨hr, w3, ha, h3⟩
    · have ha2 := AddColumnAndCheckNumbers_shape w2 w1 (by rw [ha]; rfl)
      exact ⟨ha2.1.trans hv2.1, by rw [ha2.2]; exact hv2.2⟩
    · have ha2 := AddColumnAndCheckNumbers_shape w2 w3 (by rw [ha]; rfl)
      simp at h3
      subst h3
      exact ⟨ha2.1.trans hv2.1, by rw [ha2.2]; exact hv2.2⟩

theorem append_shape (arg : Builder) (c : Cell) :
    (arg.Append c).afterFinish = arg.afterFinish := rfl

theorem unicodeStringVisitor_shape (env : Env) (s : WString) (n : Nat) (arg arg1 : Builder)
    (h : unicodeStringVisitor env s n arg = .ok arg1) : arg1.afterFinish = arg.afterFinish := by
  unfold unicodeStringVisitor at h
  split at h
  · cases h; rfl
  · split at h <;> (cases h; rfl)
  · cases h

theorem ansiStringVisitor_shape (s : String) (arg arg1 : Builder)
    (h : ansiStringVisitor s arg = .ok arg1) : arg1.afterFinish = arg.afterFinish := by
  unfold ansiStringVisitor at h
  split at h
  · cases h; rfl
  · cases h

theorem xmlVisitor_shape (l : List Nat) (arg arg1 : Builder)
    (h : xmlVisitor l arg = .ok arg1) : arg1.afterFinish = arg.afterFinish := by
  unfold xmlVisitor at h
  split at h
  · cases h; rfl
  · cases h

theorem WriteNothing_shape (w w1 : Writer) (h : (WriteNothing w).state = some w1) :
    w1.m_arrowSchema = w.m_arrowSchema ∧
      w1.m_arrowBuilders.map Builder.afterFinish = w.m_arrowBuilders.map Builder.afterFinish := by
  refine column_write_shape _ w w1 ?_ h
  intro arg arg1 hf
  split at hf
  · cases hf
  · cases hf; rfl

/-- A value write leaves the backend schema alone and the builders as they were up to the
entries appended. -/
theorem value_write_shape (env : Env) (op : Op) (w w1 : Writer) (hop : op.isValueWrite = true)
    (h : (op.run env w).state = some w1) :
    w1.m_arrowSchema = w.m_arrowSchema ∧
      w1.m_arrowBuilders.map Builder.afterFinish = w.m_arrowBuilders.map Builder.afterFinish := by
  have hW : ∀ s n w2, (WriteCharArray_WCHAR env s n w).state = some w2 →
      w2.m_arrowSchema = w.m_arrowSchema ∧
        w2.m_arrowBuilders.map Builder.afterFinish =
          w.m_arrowBuilders.map Builder.afterFinish :=
    fun s n w2 h => column_write_shape _ w w2 (unicodeStringVisitor_shape env _ _) h
  have hA : ∀ s n w2, (WriteCharArray_CHAR s n w).state = some w2 →
      w2.m_arrowSchema = w.m_arrowSchema ∧
        w2.m_arrowBuilders.map Builder.afterFinish =
          w.m_arrowBuilders.map Builder.afterFinish :=
    fun s n w2 h => column_write_shape _ w w2 (ansiStringVisitor_shape _) h
  have hE : ∀ f : Builder → Except Exception Builder,
      (∀ arg arg1, f arg = .ok arg1 → arg1.afterFinish = arg.afterFinish) →
      ((visit f w.m_dwColumnCounter w).andThen fun _ w =>
        (.ok .S_OK w : Exec HRESULT)).state = some w1 →
      w1.m_arrowSchema = w.m_arrowSchema ∧
        w1.m_arrowBuilders.map Builder.afterFinish =
          w.m_arrowBuilders.map Builder.afterFinish := by
    intro f hf h
    rcases Exec.andThen_state _ _ w1 h with ⟨e, hv⟩ | ⟨u, w2, hv, h2⟩
    · exact visit_shape f _ w w1 hf (by rw [hv]; rfl)
    · simp at h2
      subst h2
      exact visit_shape f _ w w2 hf (by rw [hv]; rfl)
  cases op <;> simp [Op.isValueWrite] at hop
  case WriteFormated_W buffer =>
    simp only [Op.run, WriteFormated_W] at h
    split at h
    · exact WriteNothing_shape w w1 h
    · exact hW _ _ _ h
  case WriteFormated_A buffer =>
    simp only [Op.run, WriteFormated_A] at h
    split at h
    · exact WriteNothing_shape w w1 h
    · exact hA _ _ _ h
  case WriteAttributes dwFileAttributes =>
    simp only [Op.run, WriteAttributes, WriteFormated_A] at h
    have hne : (attributesText dwFileAttributes).data.isEmpty = false := by
      simp [attributesText]
    simp only [hne, Bool.false_eq_true, if_false] at h
    rcases Exec.andThen_state _ _ w1 h with ⟨e, hv⟩ | ⟨hr, w2, hv, h2⟩
    · exact hA _ _ _ (by rw [hv]; rfl)
    · have hk2 := hA _ _ w2 (by rw [hv]; rfl)
      split at h2
      · rcases Exec.andThen_state _ _ w1 h2 with ⟨e, hn⟩ | ⟨hr3, w3, hn, h3⟩
        · have := WriteNothing_shape w2 w1 (by unfold AbandonColumn at hn; rw [hn]; rfl)
          exact ⟨this.1.trans hk2.1, this.2.trans hk2.2⟩
        · simp at h3
          subst h3
          have := WriteNothing_shape w2 w3 (by unfold AbandonColumn at hn; rw [hn]; rfl)
          exact ⟨this.1.trans hk2.1, this.2.trans hk2.2⟩
      · simp at h2
        subst h2
        exact hk2
  case WriteExactFlags dwFlags =>
    refine hE _ ?_ h
    intro arg arg1 hf
    split at hf <;> cases hf <;> rfl
  case WriteExactFlags_defs dwFlags FlagValues =>
    refine hE _ ?_ h
    intro arg arg1 hf
    split at hf <;> cases hf <;> rfl
  all_goals
    refine column_write_shape _ w w1 ?_ h
    first
      | exact unicodeStringVisitor_shape env _ _
      | exact ansiStringVisitor_shape _
      | exact xmlVisitor_shape _
      | (intro arg arg1 hf
         split at hf <;> cases hf <;> rfl)

theorem fresh_builders_afterFinish (env : Env) (fields : List Field) (fresh : List Builder)
    (hg : GetBuilders.fields env fields [] = .ok fresh) :
    fresh.map Builder.afterFinish = fresh := by
  have hv := GetBuilders_fields_values_empty env fields [] fresh (by simp) hg
  have key : ∀ l : List Builder, (∀ arg ∈ l, arg.values = []) →
      l.map Builder.afterFinish = l := by
    intro l
    induction l with
    | nil => intro _; rfl
    | cons b bs ih =>
      intro h
      have hb := h b (List.mem_cons_self _ _)
      obtain ⟨kind, type, values⟩ := b
      simp only at hb
      subst hb
      simp only [List.map_cons]
      rw [ih (fun arg harg => h arg (List.mem_cons_of_mem _ harg))]
      rfl
  exact key fresh hv

/-- Every field the column loop pushes has one of the backend types of the spec table. -/
theorem SetSchema_columns_flat (env : Env) (columns : List Column) :
    ∀ acc fields, (∀ f ∈ acc, ∃ c, specBackendType c = some f.type) →
      SetSchema.columns env columns acc = .done fields →
      ∀ f ∈ fields, ∃ c, specBackendType c = some f.type := by
  induction columns with
  | nil =>
    intro acc fields hacc h
    simp [SetSchema.columns] at h
    subst h
    exact hacc
  | cons c rest ih =>
    intro acc fields hacc h
    have hstep : ∀ f : Field, (∃ c1, specBackendType c1 = some f.type) →
        ∀ f1 ∈ acc ++ [f], ∃ c1, specBackendType c1 = some f1.type := by
      intro f hf f1 hf1
      rcases List.mem_append.mp hf1 with h1 | h1
      · exact hacc f1 h1
      · simp at h1; subst h1; exact hf
    obtain ⟨ColumnName, ColType, dwLen, EnumValues, FlagsValues⟩ := c
    unfold SetSchema.columns at h
    cases hW : env.WideToAnsi ColumnName with
    | none =>
      simp only [hW] at h
      cases h
      exact hacc
    | some strName =>
      simp only [hW] at h
      cases ColType
      case Other => simp at h
      case FixedBinaryType =>
        cases dwLen with
        | none => simp at h
        | some len =>
          refine ih _ fields (hstep _ ?_) h
          exact ⟨⟨[], .FixedBinaryType, some len, none, none⟩, rfl⟩
      all_goals
        refine ih _ fields (hstep _ ?_) h
        first
          | exact ⟨⟨[], .Nothing, none, none, none⟩, rfl⟩
          | exact ⟨⟨[], .BoolType, none, none, none⟩, rfl⟩
          | exact ⟨⟨[], .UInt8Type, none, none, none⟩, rfl⟩
          | exact ⟨⟨[], .Int8Type, none, none, none⟩, rfl⟩
          | exact ⟨⟨[], .UInt16Type, none, none, none⟩, rfl⟩
          | exact ⟨⟨[], .Int16Type, none, none, none⟩, rfl⟩
          | exact ⟨⟨[], .UInt32Type, none, none, none⟩, rfl⟩
          | exact ⟨⟨[], .Int32Type, none, none, none⟩, rfl⟩
          | exact ⟨⟨[], .UInt64Type, none, none, none⟩, rfl⟩
          | exact ⟨⟨[], .Int64Type, none, none, none⟩, rfl⟩
          | exact ⟨⟨[], .TimeStampType, none, none, none⟩, rfl⟩
          | exact ⟨⟨[], .UTF16Type, none, none, none⟩, rfl⟩
          | exact ⟨⟨[], .UTF8Type, none, none, none⟩, rfl⟩
          | exact ⟨⟨[], .BinaryType, none, none, none⟩, rfl⟩
          | exact ⟨⟨[], .GUIDType, none, none, none⟩, rfl⟩

/-- For fields with backend types of the spec table the builder loop never throws. -/
theorem GetBuilders_fields_flat_ok (env : Env) (fields : List Field) :
    (∀ f ∈ fields, ∃ c, specBackendType c = some f.type) →
      ∀ acc, ∃ retval, GetBuilders.fields env fields acc = .ok retval := by
  induction fields with
  | nil => intro _ acc; exact ⟨acc, rfl⟩
  | cons f rest ih =>
    intro hflat acc
    have hrest := ih (fun f1 h1 => hflat f1 (List.mem_cons_of_mem _ h1))
    obtain ⟨c, hc⟩ := hflat f (List.mem_cons_self _ _)
    obtain ⟨ColumnName, ColType, dwLen, EnumValues, FlagsValues⟩ := c
    obtain ⟨name, type, nullable, metadata⟩ := f
    cases ColType
    case Other => simp [specBackendType] at hc
    case FixedBinaryType =>
      cases dwLen with
      | none => simp [specBackendType] at hc
      | some len =>
        simp [specBackendType] at hc
        subst hc
        simp only [GetBuilders.fields, DataType.type_id]
        exact hrest _
    all_goals
      simp [specBackendType] at hc
      subst hc
      simp only [GetBuilders.fields, DataType.type_id]
      exact hrest _

theorem Flush_keeps_match (env : Env) (w w1 : Writer) (hm : w.buildersMatchSchema env = true)
    (h : (Flush env w).state = some w1) : w1.buildersMatchSchema env = true := by
  obtain ⟨fields, hs, hg⟩ := (buildersMatchSchema_iff env w).mp hm
  unfold Flush at h
  simp only [] at h
  split at h
  · simp at h
    subst h
    exact buildersMatchSchema_congr env w _ rfl (map_afterFinish_idem _) hm
  · split at h
    · simp at h
    · split at h
      · simp at h
        subst h
        exact buildersMatchSchema_congr env w _ rfl (map_afterFinish_idem _) hm
      · unfold GetBuilders at h
        simp only [hs, hg, Exec.andThen_ok] at h
        simp at h
        subst h
        exact buildersMatchSchema_congr env w _ hs.symm (map_afterFinish_idem _) hm

theorem Close_keeps_match (env : Env) (w w1 : Writer) (hm : w.buildersMatchSchema env = true)
    (h : (Close env w).state = some w1) : w1.buildersMatchSchema env = true := by
  unfold Close at h
  rcases Exec.andThen_state _ _ w1 h with ⟨e, hf⟩ | ⟨hr, w2, hf, h2⟩
  · exact Flush_keeps_match env w w1 hm (by rw [hf]; rfl)
  · have hm2 := Flush_keeps_match env w w2 hm (by rw [hf]; rfl)
    split at h2
    · simp at h2; subst h2; exact hm2
    · split at h2
      · simp at h2; subst h2
        exact buildersMatchSchema_congr env w2 _ rfl rfl hm2
      · simp at h2; subst h2; exact hm2

theorem WriteEndOfLine_keeps_match (env : Env) (w w1 : Writer)
    (hm : w.buildersMatchSchema env = true)
    (h : (WriteEndOfLine env w).state = some w1) : w1.buildersMatchSchema env = true := by
  unfold WriteEndOfLine at h
  rcases Exec.andThen_state _ _ w1 h with ⟨e, hf⟩ | ⟨u, w2, hf, h2⟩
  · split at hf
    · cases hf
    · split at hf
      · cases hf
        exact buildersMatchSchema_congr env w _ rfl rfl hm
      · split at hf
        · cases hf
          exact buildersMatchSchema_congr env w _ rfl rfl hm
        · cases hf
  · have hm2 : w2.buildersMatchSchema env = true := by
      split at hf
      · cases hf
        exact buildersMatchSchema_congr env w _ rfl rfl hm
      · split at hf
        · cases hf
        · split at hf
          · cases hf
          · cases hf
            exact hm
    simp only [] at h2
    split at h2
    · simp at h2; subst h2
      exact buildersMatchSchema_congr env w2 _ rfl rfl hm2
    · split at h2
      · simp at h2; subst h2
        exact buildersMatchSchema_congr env w2 _ rfl rfl hm2
      · split at h2
        · have key : ∀ wf : Writer, wf.m_arrowSchema = w2.m_arrowSchema →
              wf.m_arrowBuilders = w2.m_arrowBuilders → ∀ wr,
              (Flush env wf).state = some wr → wr.buildersMatchSchema env = true :=
            fun wf hs hb wr hst =>
              Flush_keeps_match env wf wr
                (buildersMatchSchema_congr env w2 wf hs (by rw [hb]) hm2) hst
          rcases Exec.andThen_state _ _ w1 h2 with ⟨e, hfl⟩ | ⟨hr, w3, hfl, h3⟩
          · have hst : (Exec.raise e w1 : Exec HRESULT).state = some w1 := rfl
            rw [← hfl] at hst
            exact key _ (by rfl) (by rfl) w1 hst
          · have hst : (Exec.ok hr w3 : Exec HRESULT).state = some w3 := rfl
            rw [← hfl] at hst
            have hm3 := key _ (by rfl) (by rfl) w3 hst
            split at h3 <;> (simp at h3; subst h3; exact hm3)
        · simp at h2; subst h2
          exact buildersMatchSchema_congr env w2 _ rfl rfl hm2

theorem AbandonRow_loop_shape (n : Nat) :
    ∀ (i : Nat) (w w1 : Writer), (AbandonRow.loop n i w).state = some w1 →
      w1.m_arrowSchema = w.m_arrowSchema ∧
        w1.m_arrowBuilders.map Builder.afterFinish =
          w.m_arrowBuilders.map Builder.afterFinish := by
  induction n with
  | zero =>
    intro i w w1 h
    simp [AbandonRow.loop] at h
    subst h
    exact ⟨rfl, rfl⟩
  | succ n ih =>
    intro i w w1 h
    unfold AbandonRow.loop at h
    have hf : ∀ arg arg1 : Builder,
        (match arg.kind with
          | .ArrayBuilder => (.error (fatal .CannotAppendAbandonRow) : Except Exception Builder)
          | _ => .ok arg.AppendNull) = .ok arg1 → arg1.afterFinish = arg.afterFinish := by
      intro arg arg1 hf
      split at hf
      · cases hf
      · cases hf; rfl
    rcases Exec.andThen_state _ _ w1 h with ⟨e, hv⟩ | ⟨u, w2, hv, h2⟩
    · exact visit_shape _ i w w1 hf (by rw [hv]; rfl)
    · have hv2 := visit_shape _ i w w2 hf (by rw [hv]; rfl)
      rcases Exec.andThen_state _ _ w1 h2 with ⟨e, ha⟩ | ⟨hr, w3, ha, h3⟩
      · have ha2 := AddColumnAndCheckNumbers_shape w2 w1 (by rw [ha]; rfl)
        exact ⟨ha2.1.trans hv2.1, by rw [ha2.2]; exact hv2.2⟩
      · have ha2 := AddColumnAndCheckNumbers_shape w2 w3 (by rw [ha]; rfl)
        have h4 := ih _ w3 w1 h3
        exact ⟨h4.1.trans (ha2.1.trans hv2.1), by rw [h4.2, ha2.2]; exact hv2.2⟩

theorem AbandonRow_shape (w w1 : Writer) (h : (AbandonRow w).state = some w1) :
    w1.m_arrowSchema = w.m_arrowSchema ∧
      w1.m_arrowBuilders.map Builder.afterFinish = w.m_arrowBuilders.map Builder.afterFinish := by
  unfold AbandonRow at h
  rcases Exec.andThen_state _ _ w1 h with ⟨e, hl⟩ | ⟨u, w2, hl, h2⟩
  · exact AbandonRow_loop_shape _ _ w w1 (by rw [hl]; rfl)
  · simp at h2
    subst h2
    exact AbandonRow_loop_shape _ _ w w2 (by rw [hl]; rfl)

theorem SetSchema_keeps_match (env : Env) (columns : Schema) (w w1 : Writer)
    (hm : w.buildersMatchSchema env = true)
    (h : (SetSchema env columns w).state = some w1) : w1.buildersMatchSchema env = true := by
  unfold SetSchema at h
  split at h
  · simp at h; subst h; exact hm
  · simp only [] at h
    cases hl : SetSchema.columns env columns [] with
    | returned hr =>
      simp only [hl] at h
      simp at h; subst h
      exact buildersMatchSchema_congr env w _ rfl rfl hm
    | thrown e =>
      simp only [hl] at h
      simp at h; subst h
      exact buildersMatchSchema_congr env w _ rfl rfl hm
    | done schema_definition =>
      simp only [hl] at h
      have hflat := SetSchema_columns_flat env columns [] schema_definition (by simp) hl
      obtain ⟨fresh, hg⟩ := GetBuilders_fields_flat_ok env schema_definition hflat []
      unfold GetBuilders at h
      simp only [hg, Exec.andThen_ok] at h
      simp at h
      subst h
      apply (buildersMatchSchema_iff env _).mpr
      refine ⟨schema_definition, rfl, ?_⟩
      simp only []
      rw [fresh_builders_afterFinish env schema_definition fresh hg]
      exact hg

/-- A `SetSchema` that returns `S_OK` leaves builders that are those of the backend schema,
whatever the writer was before. -/
theorem SetSchema_establishes_match (env : Env) (columns : Schema) (w w1 : Writer)
    (h : SetSchema env columns w = .ok .S_OK w1) : w1.buildersMatchSchema env = true := by
  obtain ⟨fields, fresh, _, _, hg, hw1⟩ := SetSchema_success env columns w w1 h
  subst hw1
  apply (buildersMatchSchema_iff env _).mpr
  refine ⟨fields, rfl, ?_⟩
  simp only []
  rw [fresh_builders_afterFinish env fields fresh hg]
  exact hg

/-- Every call keeps the builders those of the backend schema: whether it returns or throws,
the builders after it are, up to the entries they hold, the fresh builders of `m_arrowSchema`.
So this holds in every state reached from a successful `SetSchema`. -/
theorem op_keeps_buildersMatchSchema (env : Env) (op : Op) (w w1 : Writer)
    (hm : w.buildersMatchSchema env = true) (h : (op.run env w).state = some w1) :
    w1.buildersMatchSchema env = true := by
  cases op
  all_goals first
    | exact SetSchema_keeps_match env _ w w1 hm h
    | exact Flush_keeps_match env w w1 hm h
    | exact Close_keeps_match env w w1 hm h
    | exact WriteEndOfLine_keeps_match env w w1 hm h
    | exact buildersMatchSchema_congr env w w1 (WriteNothing_shape w w1 h).1
        (WriteNothing_shape w w1 h).2 hm
    | exact buildersMatchSchema_congr env w w1 (AbandonRow_shape w w1 h).1
        (AbandonRow_shape w w1 h).2 hm
    | exact buildersMatchSchema_congr env w w1 (value_write_shape env _ w w1 (by rfl) h).1
        (value_write_shape env _ w w1 (by rfl) h).2 hm

/-- From a state whose builders are those of the backend schema (any state right after a
`SetSchema` that returned `S_OK`), every state reached by a sequence of calls has builders that
are those of the backend schema. -/
theorem trace_keeps_buildersMatchSchema (env : Env) (ops : List Op) :
    ∀ w : Writer, w.buildersMatchSchema env = true →
      ∀ w1 ∈ runTrace env ops w, w1.buildersMatchSchema env = true := by
  induction ops with
  | nil => intro w _ w1 h; simp [runTrace] at h
  | cons op ops ih =>
    intro w hm w1 hmem
    unfold runTrace at hmem
    cases hstep : (op.run env w).state with
    | none => simp [hstep] at hmem
    | some w2 =>
      simp only [hstep] at hmem
      have hm2 := op_keeps_buildersMatchSchema env op w w2 hm hstep
      rcases List.mem_cons.mp hmem with h1 | h1
      · subst h1; exact hm2
      · exact ih w2 hm2 w1 h1

/-! ## File sizes given as two halves -/

theorem fileSize_halves (h l : Nat) (hh : h < 2 ^ 32) (hl : l < 2 ^ 32) :
    toUInt64 (LARGE_INTEGER.QuadPart ⟨toInt32 h, l % 2 ^ 32⟩) = h * 2 ^ 32 + l := by
  have e32 : (2 : Int) ^ 32 = 4294967296 := by norm_num
  have e31 : (2 : Int) ^ 31 = 2147483648 := by norm_num
  have e64 : (2 : Int) ^ 64 = 18446744073709551616 := by norm_num
  have e63 : (2 : Int) ^ 63 = 9223372036854775808 := by norm_num
  have n32 : (2 : Nat) ^ 32 = 4294967296 := by norm_num
  unfold toUInt64 LARGE_INTEGER.QuadPart toInt64 toInt32
  rw [n32] at hh hl ⊢
  dsimp only
  split_ifs <;> omega

/-- C29: for 32-bit halves `nFileSizeHigh` and `nFileSizeLow`, `WriteFileSize(DWORD, DWORD)` at
a cursor `k < N` whose builder is an unsigned 64-bit builder appends the value
`nFileSizeHigh * 2^32 + nFileSizeLow` (the high half goes through the signed `HighPart` and the
signed `QuadPart` and comes out unchanged, also from 2^31 on), moves the cursor to `k + 1` and
returns `S_OK`: the result of `WriteFileSize(ULONGLONG)` of that value. -/
theorem WriteFileSize_halves (nFileSizeHigh nFileSizeLow : Nat) (w : Writer) (arg : Builder)
    (hhigh : nFileSizeHigh < 2 ^ 32) (hlow : nFileSizeLow < 2 ^ 32)
    (hk : w.m_dwColumnCounter < w.m_dwColumnNumber)
    (hb : w.m_arrowBuilders[w.m_dwColumnCounter]? = some arg)
    (hkind : arg.kind = .UInt64Builder) :
    WriteFileSize_DWORD_DWORD nFileSizeHigh nFileSizeLow w =
        .ok .S_OK { w with
          m_arrowBuilders := w.m_arrowBuilders.set w.m_dwColumnCounter
            (arg.Append (.uint64 (nFileSizeHigh * 2 ^ 32 + nFileSizeLow)))
          m_dwColumnCounter := w.m_dwColumnCounter + 1 } ∧
      WriteFileSize_DWORD_DWORD nFileSizeHigh nFileSizeLow w =
        WriteFileSize_ULONGLONG (nFileSizeHigh * 2 ^ 32 + nFileSizeLow) w := by
  have hlt : nFileSizeHigh * 2 ^ 32 + nFileSizeLow < 2 ^ 64 := by
    have n32 : (2 : Nat) ^ 32 = 4294967296 := by norm_num
    have n64 : (2 : Nat) ^ 64 = 18446744073709551616 := by norm_num
    rw [n32] at hhigh hlow ⊢
    rw [n64]
    omega
  have h1 : WriteFileSize_DWORD_DWORD nFileSizeHigh nFileSizeLow w =
      .ok .S_OK { w with
        m_arrowBuilders := w.m_arrowBuilders.set w.m_dwColumnCounter
          (arg.Append (.uint64 (nFileSizeHigh * 2 ^ 32 + nFileSizeLow)))
        m_dwColumnCounter := w.m_dwColumnCounter + 1 } := by
    unfold WriteFileSize_DWORD_DWORD WriteFileSize_LARGE_INTEGER
    refine column_write_appends _ w arg _ hk hb ?_
    simp only [hkind]
    rw [fileSize_halves nFileSizeHigh nFileSizeLow hhigh hlow]
  have h2 : WriteFileSize_ULONGLONG (nFileSizeHigh * 2 ^ 32 + nFileSizeLow) w =
      .ok .S_OK { w with
        m_arrowBuilders := w.m_arrowBuilders.set w.m_dwColumnCounter
          (arg.Append (.uint64 (nFileSizeHigh * 2 ^ 32 + nFileSizeLow)))
        m_dwColumnCounter := w.m_dwColumnCounter + 1 } := by
    unfold WriteFileSize_ULONGLONG
    refine column_write_appends _ w arg _ hk hb ?_
    simp only [hkind]
    rw [Nat.mod_eq_of_lt hlt]
  exact ⟨h1, h1.trans h2.symm⟩

/-- C29 for a high half of 2^31 (the sign bit of `HighPart`) and a low half of 5, on the size
column of the sample writer. -/
theorem WriteFileSize_halves_witness :
    WriteFileSize_DWORD_DWORD 2147483648 5 { Writer.sample none with m_dwColumnCounter := 1 } =
        .ok .S_OK { Writer.sample none with
          m_arrowBuilders :=
            (Writer.sample none).m_arrowBuilders.set 1
              (Builder.Append ⟨.UInt64Builder, .uint64, []⟩
                (.uint64 (2147483648 * 2 ^ 32 + 5)))
          m_dwColumnCounter := 1 + 1 } ∧
      WriteFileSize_DWORD_DWORD 2147483648 5 { Writer.sample none with m_dwColumnCounter := 1 } =
        WriteFileSize_ULONGLONG (2147483648 * 2 ^ 32 + 5)
          { Writer.sample none with m_dwColumnCounter := 1 } :=
  WriteFileSize_halves 2147483648 5 { Writer.sample none with m_dwColumnCounter := 1 }
    ⟨.UInt64Builder, .uint64, []⟩ (by norm_num) (by norm_num) (by decide) rfl rfl

/-! ## Bytes -/

theorem SetSchema_binarySample :
    SetSchema Env.sample Schema.binarySample (Writer.new none) =
      .ok .S_OK { Writer.binarySample with m_arrowWriter := none } := by
  rfl

/-- C27, the code: `WriteBytes` of the five bytes 1, 2, 3, 4, 5 held at address `0x7ffd1000`,
on a fresh one-column binary writer, appends one entry of four bytes, the low bytes of the
address (`00 10 fd 7f`), not the five bytes; `WriteBytes(CBinaryBuffer)` of the same buffer does
the same, and so does a call with a length of 0. -/
theorem WriteBytes_appends_pointer_bytes :
    WriteBytes ⟨0x7ffd1000, [1, 2, 3, 4, 5]⟩ 5 Writer.binarySample =
        .ok .S_OK { Writer.binarySample with
          m_arrowBuilders := [⟨.BinaryBuilder, .binary, [.binary [0x00, 0x10, 0xfd, 0x7f]]⟩]
          m_dwColumnCounter := 1 } ∧
      WriteBytes_CBinaryBuffer ⟨0x7ffd1000, [1, 2, 3, 4, 5]⟩ Writer.binarySample =
        .ok .S_OK { Writer.binarySample with
          m_arrowBuilders := [⟨.BinaryBuilder, .binary, [.binary [0x00, 0x10, 0xfd, 0x7f]]⟩]
          m_dwColumnCounter := 1 } ∧
      WriteBytes ⟨0x7ffd1000, []⟩ 0 Writer.binarySample =
        .ok .S_OK { Writer.binarySample with
          m_arrowBuilders := [⟨.BinaryBuilder, .binary, [.binary [0x00, 0x10, 0xfd, 0x7f]]⟩]
          m_dwColumnCounter := 1 } := by
  decide

/-- On a binary builder under a cursor `k < N`, `WriteBytes` appends the four low bytes of the
pointer value, whatever the bytes it points to and whatever the length. -/
theorem WriteBytes_ignores_bytes (pBytes : BytePtr) (dwLen : Nat) (w : Writer) (arg : Builder)
    (hk : w.m_dwColumnCounter < w.m_dwColumnNumber)
    (hb : w.m_arrowBuilders[w.m_dwColumnCounter]? = some arg)
    (hkind : arg.kind = .BinaryBuilder) :
    WriteBytes pBytes dwLen w = .ok .S_OK { w with
      m_arrowBuilders := w.m_arrowBuilders.set w.m_dwColumnCounter
        (arg.Append (.binary (leBytes 4 pBytes.address)))
      m_dwColumnCounter := w.m_dwColumnCounter + 1 } := by
  unfold WriteBytes
  refine column_write_appends _ w arg _ hk hb ?_
  simp only [hkind]

/-! ## Reading the attribute text back -/

theorem attributesText_data (m : Nat) :
    (attributesText m).data =
      attributeTable.map (fun p => if m.testBit p.2 = true then p.1 else '.') := by
  simp only [attributesText, attributeTable, List.map, FILE_ATTRIBUTE_ARCHIVE,
    FILE_ATTRIBUTE_COMPRESSED, FILE_ATTRIBUTE_DIRECTORY, FILE_ATTRIBUTE_ENCRYPTED,
    FILE_ATTRIBUTE_HIDDEN, FILE_ATTRIBUTE_NORMAL, FILE_ATTRIBUTE_OFFLINE,
    FILE_ATTRIBUTE_READONLY, FILE_ATTRIBUTE_REPARSE_POINT, FILE_ATTRIBUTE_SPARSE_FILE,
    FILE_ATTRIBUTE_SYSTEM, FILE_ATTRIBUTE_TEMPORARY, FILE_ATTRIBUTE_VIRTUAL]
  rw [← attribute_char m 5 'A', ← attribute_char m 11 'C', ← attribute_char m 4 'D',
    ← attribute_char m 14 'E', ← attribute_char m 1 'H', ← attribute_char m 7 'N',
    ← attribute_char m 12 'O', ← attribute_char m 0 'R', ← attribute_char m 10 'L',
    ← attribute_char m 9 'P', ← attribute_char m 2 'S', ← attribute_char m 8 'T',
    ← attribute_char m 16 'V']
  rfl

theorem testBit_ite_two_pow (b : Prop) [Decidable b] (k j : Nat) :
    (if b then 2 ^ k else 0).testBit j = (decide b && decide (k = j)) := by
  by_cases hb : b
  · simp [hb, Nat.testBit_two_pow]
  · simp [hb]

theorem positions_testBit (m j : Nat) :
    ∀ table : List (Char × Nat), (∀ p ∈ table, p.1 ≠ '.') →
      (attributesDecode.positions
          (table.map (fun p => if m.testBit p.2 = true then p.1 else '.')) table).testBit j =
        (m.testBit j && table.any (fun p => decide (p.2 = j))) := by
  intro table
  induction table with
  | nil => intro _; simp [attributesDecode.positions]
  | cons p rest ih =>
    intro hne
    obtain ⟨letter, bit⟩ := p
    have hl : letter ≠ '.' := hne (letter, bit) (List.mem_cons_self _ _)
    have hrest := ih (fun q hq => hne q (List.mem_cons_of_mem _ hq))
    simp only [List.map, attributesDecode.positions, Nat.testBit_or, testBit_ite_two_pow, hrest,
      List.any_cons]
    by_cases hj : bit = j
    · subst hj
      by_cases hm : m.testBit bit = true
      · simp [hm]
      · simp only [Bool.not_eq_true] at hm
        simp [hm, Ne.symm hl]
    · by_cases hm : m.testBit bit = true
      · simp [hm, hj]
      · simp [hj]

theorem knownAttributes_testBit (j : Nat) :
    knownAttributes.testBit j = attributeTable.any (fun p => decide (p.2 = j)) := by
  have h : knownAttributes =
      2 ^ 5 ||| 2 ^ 11 ||| 2 ^ 4 ||| 2 ^ 14 ||| 2 ^ 1 ||| 2 ^ 7 ||| 2 ^ 12 ||| 2 ^ 0 ||| 2 ^ 10 |||
        2 ^ 9 ||| 2 ^ 2 ||| 2 ^ 8 ||| 2 ^ 16 := by
    decide
  rw [h]
  simp only [Nat.testBit_or, Nat.testBit_two_pow, attributeTable, List.any_cons, List.any_nil,
    Bool.or_false, Bool.or_assoc]

theorem attributesDecode_text (m : Nat) :
    attributesDecode (attributesText m) = m &&& knownAttributes := by
  apply Nat.eq_of_testBit_eq
  intro j
  unfold attributesDecode
  rw [attributesText_data, positions_testBit m j attributeTable (by decide), Nat.testBit_and,
    knownAttributes_testBit]

theorem attributesText_congr (m1 m2 : Nat)
    (h : m1 &&& knownAttributes = m2 &&& knownAttributes) :
    attributesText m1 = attributesText m2 := by
  have hbit : ∀ p ∈ attributeTable, m1.testBit p.2 = m2.testBit p.2 := by
    intro p hp
    have hk : knownAttributes.testBit p.2 = true := by
      rw [knownAttributes_testBit]
      exact List.any_eq_true.mpr ⟨p, hp, by simp⟩
    have := congrArg (fun x => x.testBit p.2) h
    simpa [Nat.testBit_and, hk] using this
  have hd : (attributesText m1).data = (attributesText m2).data := by
    rw [attributesText_data, attributesText_data]
    apply List.map_congr_left
    intro p hp
    rw [hbit p hp]
  exact String.ext hd

/-- C21: the attribute text can be read back. Decoding the text formatted for a mask gives the
mask restricted to the thirteen known bits, so for each of the 2^13 sets of known bits decoding
recovers exactly the set that was encoded; two masks have the same text exactly when they agree
on the known bits; and the text for ARCHIVE and HIDDEN is `A...H........`. -/
theorem attributes_round_trip :
    (∀ m : Nat, attributesDecode (attributesText m) = m &&& knownAttributes) ∧
      (∀ m : Nat, attributesDecode (attributesText (m &&& knownAttributes)) =
        m &&& knownAttributes) ∧
      (∀ m1 m2 : Nat, attributesText m1 = attributesText m2 ↔
        m1 &&& knownAttributes = m2 &&& knownAttributes) ∧
      attributesText (FILE_ATTRIBUTE_ARCHIVE ||| FILE_ATTRIBUTE_HIDDEN) = "A...H........" ∧
      attributesDecode "A...H........" = FILE_ATTRIBUTE_ARCHIVE ||| FILE_ATTRIBUTE_HIDDEN := by
  refine ⟨attributesDecode_text, ?_, ?_, by decide, by decide⟩
  · intro m
    rw [attributesDecode_text, Nat.and_assoc, Nat.and_self]
  · intro m1 m2
    constructor
    · intro h
      rw [← attributesDecode_text m1, ← attributesDecode_text m2, h]
    · exact attributesText_congr m1 m2

/-! ## The nested document writer: enumeration values -/

namespace JSON

theorem enum_table_name (names : List WString) (rest : List (Option WString)) (i : Nat)
    (h : i < names.length) :
    (names.map some ++ none :: rest)[i]? = some (some names[i]) := by
  rw [List.getElem?_append_left (by simpa using h)]
  simp [List.getElem?_map, List.getElem?_eq_getElem h]

theorem enum_table_terminator (names : List WString) (rest : List (Option WString)) :
    (names.map some ++ none :: rest)[names.length]? = some none := by
  rw [List.getElem?_append_right (by simp)]
  simp

theorem Write_enum_loop_found (dwEnum : Nat) (names : List WString)
    (rest : List (Option WString)) (hc : dwEnum < names.length) (h32 : dwEnum < 2 ^ 32) :
    ∀ fuel i, i ≤ dwEnum → dwEnum + 1 ≤ i + fuel →
      Write_enum.loop dwEnum (names.map some ++ none :: rest) fuel i =
        .done (some names[dwEnum]) := by
  intro fuel
  induction fuel with
  | zero => intro i hi hf; omega
  | succ fuel ih =>
    intro i hi hf
    unfold Write_enum.loop
    rw [enum_table_name names rest i (by omega)]
    simp only [hi, if_true]
    by_cases he : i = dwEnum
    · subst he
      simp
    · rw [if_neg he]
      have hlt : i + 1 < 2 ^ 32 := by omega
      rw [Nat.mod_eq_of_lt hlt]
      exact ih (i + 1) (by omega) (by omega)

theorem Write_enum_loop_illegal (dwEnum : Nat) (names : List WString)
    (rest : List (Option WString)) (hc : names.length ≤ dwEnum) (h32 : dwEnum < 2 ^ 32) :
    ∀ fuel i, i ≤ names.length → names.length + 1 ≤ i + fuel →
      Write_enum.loop dwEnum (names.map some ++ none :: rest) fuel i = .done none := by
  intro fuel
  induction fuel with
  | zero => intro i hi hf; omega
  | succ fuel ih =>
    intro i hi hf
    unfold Write_enum.loop
    by_cases he : i = names.length
    · subst he
      rw [enum_table_terminator]
    · have hlt : i < names.length := by omega
      rw [enum_table_name names rest i hlt]
      have hle : i ≤ dwEnum := by omega
      have hne : i ≠ dwEnum := by omega
      simp only [hle, if_true, if_neg hne]
      have h1 : i + 1 < 2 ^ 32 := by omega
      rw [Nat.mod_eq_of_lt h1]
      exact ih (i + 1) (by omega) (by omega)

theorem Write_enum_loop_finishes (dwEnum : Nat) (EnumValues : List (Option WString))
    (h32 : dwEnum < 2 ^ 32) :
    ∀ fuel i, i ≤ dwEnum → dwEnum + 1 ≤ i + fuel →
      Write_enum.loop dwEnum EnumValues fuel i ≠ .unfinished := by
  intro fuel
  induction fuel with
  | zero => intro i hi hf; omega
  | succ fuel ih =>
    intro i hi hf
    unfold Write_enum.loop
    split
    · simp
    · simp
    · simp only [hi, if_true]
      by_cases he : i = dwEnum
      · simp [he]
      · rw [if_neg he]
        have h1 : i + 1 < 2 ^ 32 := by omega
        rw [Nat.mod_eq_of_lt h1]
        exact ih (i + 1) (by omega) (by omega)

/-- C22: for a table of `M` names followed by a null pointer (and whatever follows that), and a
code `c < M`, `Write(dwEnum = c, EnumValues)` hands exactly the string `EnumValues[c]` to the
backend and returns `S_OK`. -/
theorem Write_enum_in_range (dwEnum : Nat) (names : List WString)
    (rest : List (Option WString)) (w : Writer) (hc : dwEnum < names.length)
    (h32 : dwEnum < 2 ^ 32) :
    Write_enum dwEnum (names.map some ++ none :: rest) w =
      .done (.S_OK, { w with rapidWriter := w.rapidWriter ++ [.String names[dwEnum]] }) := by
  unfold Write_enum
  rw [Write_enum_loop_found dwEnum names rest hc h32 (dwEnum + 1) 0 (by omega) (by omega)]

/-- C22 for the second name of a table of three, and for code 0. -/
theorem Write_enum_in_range_witness :
    Write_enum 1 ([L "Read", L "Write", L "Execute"].map some ++ none :: []) Writer.new =
        .done (.S_OK, { Writer.new with
          rapidWriter := Writer.new.rapidWriter ++ [.String (L "Write")] }) ∧
      Write_enum 0 ([L "Read", L "Write", L "Execute"].map some ++ none :: []) Writer.new =
        .done (.S_OK, ⟨[.StartObject, .String (L "Read")], 0⟩) :=
  ⟨Write_enum_in_range 1 [L "Read", L "Write", L "Execute"] [] Writer.new (by decide)
      (by norm_num),
    by decide⟩

/-- C23: for a table of `M` names followed by a null pointer and a code `c ≥ M` (also with
`M = 0`), `Write(dwEnum = c, EnumValues)` hands the string `IllegalEnumValue` to the backend and
returns `S_OK`, whatever follows the terminator and also when the array ends with it: no slot
past the terminator is read. And for every table and every code the loop has ended after
`dwEnum + 1` iterations. -/
theorem Write_enum_out_of_range (dwEnum : Nat) (names : List WString)
    (rest : List (Option WString)) (w : Writer) (hc : names.length ≤ dwEnum)
    (h32 : dwEnum < 2 ^ 32) :
    Write_enum dwEnum (names.map some ++ none :: rest) w =
        .done (.S_OK, { w with
          rapidWriter := w.rapidWriter ++ [.String (L "IllegalEnumValue")] }) ∧
      Write_enum dwEnum (names.map some ++ [none]) w =
        .done (.S_OK, { w with
          rapidWriter := w.rapidWriter ++ [.String (L "IllegalEnumValue")] }) ∧
      ∀ (EnumValues : List (Option WString)) (w1 : Writer),
        Write_enum dwEnum EnumValues w1 ≠ .unfinished := by
  have key : ∀ rest1 : List (Option WString),
      Write_enum dwEnum (names.map some ++ none :: rest1) w =
        .done (.S_OK, { w with
          rapidWriter := w.rapidWriter ++ [.String (L "IllegalEnumValue")] }) := by
    intro rest1
    unfold Write_enum
    rw [Write_enum_loop_illegal dwEnum names rest1 hc h32 (dwEnum + 1) 0 (by omega) (by omega)]
  refine ⟨key rest, key [], ?_⟩
  intro EnumValues w1
  have h := Write_enum_loop_finishes dwEnum EnumValues h32 (dwEnum + 1) 0 (by omega) (by omega)
  unfold Write_enum
  split
  · simp
  · simp
  · rename_i heq
    exact absurd heq h

/-- C23 for code 3 on a table of three names, and for the empty table. -/
theorem Write_enum_out_of_range_witness :
    (Write_enum 3 ([L "Read", L "Write", L "Execute"].map some ++ none :: [some (L "Past")])
          Writer.new =
        .done (.S_OK, { Writer.new with
          rapidWriter := Writer.new.rapidWriter ++ [.String (L "IllegalEnumValue")] }) ∧
      Write_enum 3 ([L "Read", L "Write", L "Execute"].map some ++ [none]) Writer.new =
        .done (.S_OK, { Writer.new with
          rapidWriter := Writer.new.rapidWriter ++ [.String (L "IllegalEnumValue")] }) ∧
      ∀ (EnumValues : List (Option WString)) (w1 : Writer),
        Write_enum 3 EnumValues w1 ≠ .unfinished) ∧
      Write_enum 0 [none] Writer.new =
        .done (.S_OK, ⟨[.StartObject, .String (L "IllegalEnumValue")], 0⟩) :=
  ⟨Write_enum_out_of_range 3 [L "Read", L "Write", L "Execute"] [some (L "Past")] Writer.new
      (by decide) (by norm_num),
    by decide⟩

end JSON

/-! ## The nested document writer: exact flags -/

namespace JSON

theorem flags_table_definition (defs : List FlagsDefinition) (terminator : FlagsDefinition)
    (rest : List FlagsDefinition) (i : Nat) (h : i < defs.length) :
    (defs ++ terminator :: rest)[i]? = some defs[i] := by
  rw [List.getElem?_append_left h, List.getElem?_eq_getElem h]

theorem flags_table_terminator (defs : List FlagsDefinition) (terminator : FlagsDefinition)
    (rest : List FlagsDefinition) :
    (defs ++ terminator :: rest)[defs.length]? = some terminator := by
  rw [List.getElem?_append_right (Nat.le_refl _)]
  simp

theorem Write_exactFlags_loop_spec (dwFlags : Nat) (defs : List FlagsDefinition)
    (terminator : FlagsDefinition) (rest : List FlagsDefinition)
    (hdefs : ∀ d ∈ defs, d.dwFlag ≠ 0xFFFFFFFF) (hterm : terminator.dwFlag = 0xFFFFFFFF)
    (hlen : defs.length < 2 ^ 32) :
    ∀ fuel idx, idx ≤ defs.length → defs.length + 1 ≤ idx + fuel →
      Write_exactFlags.loop dwFlags (defs ++ terminator :: rest) fuel idx =
        .done (((defs.drop idx).find? (fun d => decide (d.dwFlag = dwFlags))).bind
          (fun d => d.szShortDescr)) := by
  intro fuel
  induction fuel with
  | zero => intro idx hi hf; omega
  | succ fuel ih =>
    intro idx hi hf
    unfold Write_exactFlags.loop
    by_cases he : idx = defs.length
    · subst he
      rw [flags_table_terminator]
      simp [hterm]
    · have hlt : idx < defs.length := by omega
      rw [flags_table_definition defs terminator rest idx hlt]
      have hne : defs[idx].dwFlag ≠ 0xFFFFFFFF := hdefs _ (List.getElem_mem hlt)
      have hdrop : defs.drop idx = defs[idx] :: defs.drop (idx + 1) :=
        List.drop_eq_getElem_cons hlt
      have hfind : (defs.drop idx).find? (fun d => decide (d.dwFlag = dwFlags)) =
          if defs[idx].dwFlag = dwFlags then some defs[idx]
          else (defs.drop (idx + 1)).find? (fun d => decide (d.dwFlag = dwFlags)) := by
        rw [hdrop, List.find?_cons]
        by_cases hd : defs[idx].dwFlag = dwFlags
        · rw [if_pos hd, decide_eq_true hd]
        · rw [if_neg hd, decide_eq_false hd]
      simp only [hne, ne_eq, not_false_eq_true, if_true]
      rw [hfind]
      by_cases hv : dwFlags = defs[idx].dwFlag
      · rw [if_pos hv, if_pos hv.symm]
        rfl
      · rw [if_neg hv, if_neg (fun h => hv h.symm)]
        have h1 : idx + 1 < 2 ^ 32 := by omega
        rw [Nat.mod_eq_of_lt h1, ih (idx + 1) (by omega) (by omega)]

/-- C24: for a table of definitions (none with `dwFlag` 0xFFFFFFFF) followed by the terminator
(and whatever follows that), the exact-flags `Write(v, FlagValues)` hands to the backend the
short name of the first definition whose `dwFlag` equals `v`, when there is one (and its short
name is not a null pointer); otherwise it is `Write(ULONG32 v, bInHex = true)`, which hands the
hexadecimal text of `v` to the backend. Either way one string is written, never a decomposition
into several flags, and the call returns `S_OK`. -/
theorem Write_exactFlags_spec (WriteBuffer : Nat → Bool → WString) (dwFlags : Nat)
    (defs : List FlagsDefinition) (terminator : FlagsDefinition) (rest : List FlagsDefinition)
    (w : Writer) (hv : dwFlags < 2 ^ 32) (hdefs : ∀ d ∈ defs, d.dwFlag ≠ 0xFFFFFFFF)
    (hterm : terminator.dwFlag = 0xFFFFFFFF) (hlen : defs.length < 2 ^ 32) :
    Write_exactFlags WriteBuffer dwFlags (defs ++ terminator :: rest) w =
        (match (defs.find? (fun d => decide (d.dwFlag = dwFlags))).bind
            (fun d => d.szShortDescr) with
          | some name =>
            .done (.S_OK, { w with rapidWriter := w.rapidWriter ++ [.String name] })
          | none => .done (Write_ULONG32 WriteBuffer dwFlags true w)) ∧
      Write_ULONG32 WriteBuffer dwFlags true w =
        (.S_OK, { w with rapidWriter := w.rapidWriter ++ [.String (WriteBuffer dwFlags true)] }) := by
  refine ⟨?_, rfl⟩
  unfold Write_exactFlags
  simp only []
  rw [Write_exactFlags_loop_spec dwFlags defs terminator rest hdefs hterm hlen _ 0
    (Nat.zero_le _) (by simp)]
  rw [List.drop_zero, Nat.mod_eq_of_lt hv]
  cases ((defs.find? (fun d => decide (d.dwFlag = dwFlags))).bind (fun d => d.szShortDescr)) with
  | none => rfl
  | some name => rfl

/-- C24 on a table of three definitions, two of them for the value 1: the value 3 (the
definitions 1 and 2 together) matches none and goes the hexadecimal way as one string, and the
value 1 gives the short name of the first of its two definitions. -/
theorem Write_exactFlags_spec_witness :
    (Write_exactFlags (fun v _ => L (fmtHex08 v)) 3
          ([⟨1, some (L "RO"), none⟩, ⟨2, some (L "HID"), none⟩, ⟨1, some (L "DUP"), none⟩] ++
            ⟨0xFFFFFFFF, none, none⟩ :: [])
          Writer.new =
        .done (Write_ULONG32 (fun v _ => L (fmtHex08 v)) 3 true Writer.new) ∧
      Write_ULONG32 (fun v _ => L (fmtHex08 v)) 3 true Writer.new =
        (.S_OK, { Writer.new with
          rapidWriter := Writer.new.rapidWriter ++ [.String (L (fmtHex08 3))] })) ∧
      Write_exactFlags (fun v _ => L (fmtHex08 v)) 1
          [⟨1, some (L "RO"), none⟩, ⟨2, some (L "HID"), none⟩, ⟨1, some (L "DUP"), none⟩,
            ⟨0xFFFFFFFF, none, none⟩]
          Writer.new =
        .done (.S_OK, ⟨[.StartObject, .String (L "RO")], 0⟩) :=
  ⟨Write_exactFlags_spec (fun v _ => L (fmtHex08 v)) 3
      [⟨1, some (L "RO"), none⟩, ⟨2, some (L "HID"), none⟩, ⟨1, some (L "DUP"), none⟩]
      ⟨0xFFFFFFFF, none, none⟩ [] Writer.new (by norm_num) (by decide) rfl (by norm_num),
    by decide⟩

end JSON

/-! ## The nested document writer: containers -/

namespace JSON

/-- C25 as stated fails. On a new writer only the root object is open: `EndElement` there
returns `S_OK` and hands the end-object token to the backend (which ends the root), and
`EndCollection` there, with an object innermost, returns `S_OK` and hands over an end-array
token. After `BeginCollection` an array is innermost, and `EndElement` returns `S_OK` and hands
over an end-object token. -/
theorem misplaced_end_calls_succeed :
    openContainers Writer.new.rapidWriter = some [.Object] ∧
      EndElement none Writer.new = (.S_OK, ⟨[.StartObject, .EndObject], 0⟩) ∧
      EndCollection none Writer.new = (.S_OK, ⟨[.StartObject, .EndArray], 0⟩) ∧
      openContainers (BeginCollection none Writer.new).2.rapidWriter = some [.Array, .Object] ∧
      EndElement none (BeginCollection none Writer.new).2 =
        (.S_OK, ⟨[.StartObject, .StartArray, .EndObject], 0⟩) ∧
      openContainers [.StartObject, .StartArray, .EndObject] = none ∧
      FAILED .S_OK = false := by
  decide

/-- C25, amended: `EndElement` and `EndCollection` look at no state and at no argument. In every
state of the writer each hands its end token to the backend (end-object, end-array) and returns
`S_OK`, which is not a failure; nothing else changes. -/
theorem end_calls_check_nothing (w : Writer) (szName : Option WString) :
    EndElement szName w = (.S_OK, { w with rapidWriter := w.rapidWriter ++ [.EndObject] }) ∧
      EndCollection szName w = (.S_OK, { w with rapidWriter := w.rapidWriter ++ [.EndArray] }) ∧
      FAILED .S_OK = false :=
  ⟨rfl, rfl, rfl⟩

theorem openContainers_append_one (tokens : List Token) (token : Token) :
    openContainers (tokens ++ [token]) = (openContainers tokens).bind token.apply := by
  simp [openContainers, List.foldl_append]

/-- Adding one token that leaves the root object open keeps it open after every prefix. -/
theorem root_open_push (stack stack1 : List Container) (tokens : List Token) (token : Token)
    (hopen : openContainers tokens = some (stack ++ [.Object]))
    (hroot : ∀ n, 0 < n → n ≤ tokens.length →
      ∃ st, openContainers (tokens.take n) = some (st ++ [.Object]))
    (happly : token.apply (stack ++ [.Object]) = some (stack1 ++ [.Object])) :
    openContainers (tokens ++ [token]) = some (stack1 ++ [.Object]) ∧
      ∀ n, 0 < n → n ≤ (tokens ++ [token]).length →
        ∃ st, openContainers ((tokens ++ [token]).take n) = some (st ++ [.Object]) := by
  have h1 : openContainers (tokens ++ [token]) = some (stack1 ++ [.Object]) := by
    rw [openContainers_append_one, hopen]
    exact happly
  refine ⟨h1, ?_⟩
  intro n hn hle
  by_cases hlt : n ≤ tokens.length
  · rw [List.take_append_of_le_length hlt]
    exact hroot n hn hlt
  · have hlen : (tokens ++ [token]).length ≤ n := by
      simp only [List.length_append, List.length_singleton] at hle ⊢
      omega
    rw [List.take_of_length_le hlen]
    exact ⟨stack1, h1⟩

theorem runCalls_nested (calls : List Call) :
    ∀ (stack : List Container) (w : Writer),
      openContainers w.rapidWriter = some (stack ++ [.Object]) →
      (∀ n, 0 < n → n ≤ w.rapidWriter.length →
        ∃ st, openContainers (w.rapidWriter.take n) = some (st ++ [.Object])) →
      properlyNested.under stack calls = true →
      openContainers (runCalls calls w).2.rapidWriter = some [.Object] ∧
        (∀ n, 0 < n → n ≤ (runCalls calls w).2.rapidWriter.length →
          ∃ st, openContainers ((runCalls calls w).2.rapidWriter.take n) =
            some (st ++ [.Object])) ∧
        (∃ added, (runCalls calls w).2.rapidWriter = w.rapidWriter ++ added) ∧
        (runCalls calls w).2.m_Stream = w.m_Stream ∧
        ∀ hr ∈ (runCalls calls w).1, hr = .S_OK := by
  induction calls with
  | nil =>
    intro stack w hopen hroot hnest
    cases stack with
    | nil => exact ⟨hopen, hroot, ⟨[], by simp [runCalls]⟩, rfl, by simp [runCalls]⟩
    | cons c stack => simp [properlyNested.under] at hnest
  | cons call calls ih =>
    intro stack w hopen hroot hnest
    have hstep : ∀ (w1 : Writer) (stack1 : List Container) (added : List Token),
        call.run w = (.S_OK, w1) →
        w1.rapidWriter = w.rapidWriter ++ added → w1.m_Stream = w.m_Stream →
        openContainers w1.rapidWriter = some (stack1 ++ [.Object]) →
        (∀ n, 0 < n → n ≤ w1.rapidWriter.length →
          ∃ st, openContainers (w1.rapidWriter.take n) = some (st ++ [.Object])) →
        properlyNested.under stack1 calls = true →
        openContainers (runCalls (call :: calls) w).2.rapidWriter = some [.Object] ∧
          (∀ n, 0 < n → n ≤ (runCalls (call :: calls) w).2.rapidWriter.length →
            ∃ st, openContainers ((runCalls (call :: calls) w).2.rapidWriter.take n) =
              some (st ++ [.Object])) ∧
          (∃ added, (runCalls (call :: calls) w).2.rapidWriter = w.rapidWriter ++ added) ∧
          (runCalls (call :: calls) w).2.m_Stream = w.m_Stream ∧
          ∀ hr ∈ (runCalls (call :: calls) w).1, hr = .S_OK := by
      intro w1 stack1 added hrun hadd hstream hopen1 hroot1 hnest1
      obtain ⟨h1, h2, ⟨added1, h3⟩, h4, h5⟩ := ih stack1 w1 hopen1 hroot1 hnest1
      simp only [runCalls, hrun]
      refine ⟨h1, h2, ⟨added ++ added1, ?_⟩, h4.trans hstream, ?_⟩
      · rw [h3, hadd, List.append_assoc]
      · intro hr hmem
        rcases List.mem_cons.mp hmem with h | h
        · exact h
        · exact h5 hr h
    cases call with
    | BeginElement szElement =>
      have hnest1 : properlyNested.under (.Object :: stack) calls = true := by
        simpa [properlyNested.under] using hnest
      cases szElement with
      | none =>
        obtain ⟨ho, hp⟩ := root_open_push stack (.Object :: stack) w.rapidWriter .StartObject
          hopen hroot rfl
        exact hstep _ _ [.StartObject] rfl rfl rfl ho hp hnest1
      | some name =>
        obtain ⟨ho, hp⟩ := root_open_push stack stack w.rapidWriter (.Key name)
          hopen hroot rfl
        obtain ⟨ho1, hp1⟩ := root_open_push stack (.Object :: stack)
          (w.rapidWriter ++ [.Key name]) .StartObject ho hp rfl
        exact hstep _ _ [.Key name, .StartObject] rfl (by simp [List.append_assoc]) rfl
          ho1 hp1 hnest1
    | BeginCollection szCollection =>
      have hnest1 : properlyNested.under (.Array :: stack) calls = true := by
        simpa [properlyNested.under] using hnest
      cases szCollection with
      | none =>
        obtain ⟨ho, hp⟩ := root_open_push stack (.Array :: stack) w.rapidWriter .StartArray
          hopen hroot rfl
        exact hstep _ _ [.StartArray] rfl rfl rfl ho hp hnest1
      | some name =>
        obtain ⟨ho, hp⟩ := root_open_push stack stack w.rapidWriter (.Key name)
          hopen hroot rfl
        obtain ⟨ho1, hp1⟩ := root_open_push stack (.Array :: stack)
          (w.rapidWriter ++ [.Key name]) .StartArray ho hp rfl
        exact hstep _ _ [.Key name, .StartArray] rfl (by simp [List.append_assoc]) rfl
          ho1 hp1 hnest1
    | EndElement szElement =>
      cases stack with
      | nil => simp [properlyNested.under] at hnest
      | cons c stack =>
        cases c with
        | Array => simp [properlyNested.under] at hnest
        | Object =>
          have hnest1 : properlyNested.under stack calls = true := by
            simpa [properlyNested.under] using hnest
          obtain ⟨ho, hp⟩ := root_open_push (.Object :: stack) stack w.rapidWriter .EndObject
            hopen hroot rfl
          exact hstep _ _ [.EndObject] rfl rfl rfl ho hp hnest1
    | EndCollection szCollection =>
      cases stack with
      | nil => simp [properlyNested.under] at hnest
      | cons c stack =>
        cases c with
        | Object => simp [properlyNested.under] at hnest
        | Array =>
          have hnest1 : properlyNested.under stack calls = true := by
            simpa [properlyNested.under] using hnest
          obtain ⟨ho, hp⟩ := root_open_push (.Array :: stack) stack w.rapidWriter .EndArray
            hopen hroot rfl
          exact hstep _ _ [.EndArray] rfl rfl rfl ho hp hnest1

/-- C26: for a properly nested sequence of container calls on a new writer, followed by
`Close`, every call returns `S_OK`, and the tokens handed to the backend are the root
start-object of the constructor, then the tokens of the calls, then one end-object, which is the
one `Close` adds. Before `Close` exactly the root object is open, the whole sequence is balanced
(nothing is left open and no end token is misplaced; keys open and close nothing), and after
every shorter non-empty prefix the root object is still open. -/
theorem nested_calls_then_Close_balanced (calls : List Call)
    (h : properlyNested calls = true) :
    (∀ hr ∈ (runCalls calls Writer.new).1, hr = .S_OK) ∧
      (Close (runCalls calls Writer.new).2).1 = .S_OK ∧
      (∃ body, (runCalls calls Writer.new).2.rapidWriter = .StartObject :: body ∧
        (Close (runCalls calls Writer.new).2).2.rapidWriter =
          .StartObject :: body ++ [.EndObject]) ∧
      openContainers (runCalls calls Writer.new).2.rapidWriter = some [.Object] ∧
      openContainers (Close (runCalls calls Writer.new).2).2.rapidWriter = some [] ∧
      ∀ n, 0 < n → n < (Close (runCalls calls Writer.new).2).2.rapidWriter.length →
        ∃ stack, openContainers ((Close (runCalls calls Writer.new).2).2.rapidWriter.take n) =
          some (stack ++ [.Object]) := by
  have hroot0 : ∀ n, 0 < n → n ≤ Writer.new.rapidWriter.length →
      ∃ st, openContainers (Writer.new.rapidWriter.take n) = some (st ++ [.Object]) := by
    intro n hn hle
    have h1 : n = 1 := by
      have : Writer.new.rapidWriter.length = 1 := rfl
      omega
    subst h1
    exact ⟨[], rfl⟩
  obtain ⟨hopen, hroot, ⟨added, hadd⟩, _, hres⟩ :=
    runCalls_nested calls [] Writer.new rfl hroot0 h
  have hclose : (Close (runCalls calls Writer.new).2).2.rapidWriter =
      (runCalls calls Writer.new).2.rapidWriter ++ [.EndObject] := rfl
  refine ⟨hres, rfl, ⟨added, hadd, ?_⟩, hopen, ?_, ?_⟩
  · rw [hclose, hadd]
    rfl
  · rw [hclose, openContainers_append_one, hopen]
    rfl
  · intro n hn hlt
    rw [hclose] at hlt ⊢
    have hle : n ≤ (runCalls calls Writer.new).2.rapidWriter.length := by
      simp only [List.length_append, List.length_singleton] at hlt
      omega
    rw [List.take_append_of_le_length hle]
    exact hroot n hn hle

/-- C26 on the sample sequence: the tokens are those of a document whose root object holds an
object `file`, which holds an array `streams` of one empty object. -/
theorem nested_calls_then_Close_balanced_witness :
    ((∀ hr ∈ (runCalls Call.sample Writer.new).1, hr = .S_OK) ∧
      (Close (runCalls Call.sample Writer.new).2).1 = .S_OK ∧
      (∃ body, (runCalls Call.sample Writer.new).2.rapidWriter = .StartObject :: body ∧
        (Close (runCalls Call.sample Writer.new).2).2.rapidWriter =
          .StartObject :: body ++ [.EndObject]) ∧
      openContainers (runCalls Call.sample Writer.new).2.rapidWriter = some [.Object] ∧
      openContainers (Close (runCalls Call.sample Writer.new).2).2.rapidWriter = some [] ∧
      ∀ n, 0 < n → n < (Close (runCalls Call.sample Writer.new).2).2.rapidWriter.length →
        ∃ stack,
          openContainers ((Close (runCalls Call.sample Writer.new).2).2.rapidWriter.take n) =
            some (stack ++ [.Object])) ∧
      (Close (runCalls Call.sample Writer.new).2).2 =
        ⟨[.StartObject, .Key (L "file"), .StartObject, .Key (L "streams"), .StartArray,
          .StartObject, .EndObject, .EndArray, .EndObject, .EndObject], 1⟩ :=
  ⟨nested_calls_then_Close_balanced Call.sample (by decide), by decide⟩

end JSON

/-! ## Row alignment -/

theorem Exec.andThen_eq_ok {α β : Type} (x : Exec α) (k : α → Writer → Exec β) (b : β)
    (w1 : Writer) (h : x.andThen k = .ok b w1) : ∃ a w2, x = .ok a w2 ∧ k a w2 = .ok b w1 := by
  cases x with
  | undefined => simp at h
  | raise e w2 => simp at h
  | ok a w2 => exact ⟨a, w2, rfl, h⟩

theorem visit_eq_ok (f : Builder → Except Exception Builder) (i : Nat) (w w1 : Writer)
    (hf : ∀ arg arg1, f arg = .ok arg1 → ∃ c, arg1 = arg.Append c)
    (h : visit f i w = .ok () w1) :
    ∃ arg c, w.m_arrowBuilders[i]? = some arg ∧
      w1 = { w with m_arrowBuilders := w.m_arrowBuilders.set i (arg.Append c) } := by
  unfold visit at h
  cases hb : w.m_arrowBuilders[i]? with
  | none => simp [hb] at h
  | some arg =>
    cases hfa : f arg with
    | error e => simp [hb, hfa] at h
    | ok arg1 =>
      simp [hb, hfa] at h
      obtain ⟨c, hc⟩ := hf arg arg1 hfa
      subst hc
      exact ⟨arg, c, rfl, h.symm⟩

theorem AddColumnAndCheckNumbers_eq_ok (w w1 : Writer) (hr : HRESULT)
    (h : AddColumnAndCheckNumbers w = .ok hr w1) :
    hr = .S_OK ∧ w.m_dwColumnCounter < w.m_dwColumnNumber ∧
      w1 = { w with m_dwColumnCounter := w.m_dwColumnCounter + 1 } := by
  by_cases hlt : w.m_dwColumnCounter < w.m_dwColumnNumber
  · rw [AddColumnAndCheckNumbers_lt w hlt] at h
    cases h
    exact ⟨rfl, hlt, rfl⟩
  · rw [AddColumnAndCheckNumbers_ge w (by omega)] at h
    cases h

/-- The body shared by the value writes, when it returns: it returns `S_OK`, the cursor was
before the last column, and one entry has been appended to the builder there. -/
theorem column_write_eq_ok (f : Builder → Except Exception Builder) (w w1 : Writer)
    (hr : HRESULT) (hf : ∀ arg arg1, f arg = .ok arg1 → ∃ c, arg1 = arg.Append c)
    (h : ((visit f w.m_dwColumnCounter w).andThen fun _ w =>
        (AddColumnAndCheckNumbers w).andThen fun _ w => (.ok .S_OK w : Exec HRESULT)) =
      .ok hr w1) :
    hr = .S_OK ∧ ∃ arg c, w.m_arrowBuilders[w.m_dwColumnCounter]? = some arg ∧
      w.m_dwColumnCounter < w.m_dwColumnNumber ∧
      w1 = { w with
        m_arrowBuilders := w.m_arrowBuilders.set w.m_dwColumnCounter (arg.Append c)
        m_dwColumnCounter := w.m_dwColumnCounter + 1 } := by
  obtain ⟨u, w2, hv, h2⟩ := Exec.andThen_eq_ok _ _ _ _ h
  obtain ⟨arg, c, hb, hw2⟩ := visit_eq_ok f _ w w2 hf hv
  obtain ⟨hr3, w3, ha, h3⟩ := Exec.andThen_eq_ok _ _ _ _ h2
  obtain ⟨_, hlt, hw3⟩ := AddColumnAndCheckNumbers_eq_ok w2 w3 hr3 ha
  cases h3
  subst hw3
  subst hw2
  exact ⟨rfl, arg, c, hb, hlt, rfl⟩

theorem unicodeStringVisitor_appends (env : Env) (s : WString) (n : Nat) (arg arg1 : Builder)
    (h : unicodeStringVisitor env s n arg = .ok arg1) : ∃ c, arg1 = arg.Append c := by
  unfold unicodeStringVisitor at h
  split at h
  · cases h; exact ⟨_, rfl⟩
  · split at h <;> (cases h; exact ⟨_, rfl⟩)
  · cases h

theorem ansiStringVisitor_appends (s : String) (arg arg1 : Builder)
    (h : ansiStringVisitor s arg = .ok arg1) : ∃ c, arg1 = arg.Append c := by
  unfold ansiStringVisitor at h
  split at h
  · cases h; exact ⟨_, rfl⟩
  · cases h

theorem xmlVisitor_appends (l : List Nat) (arg arg1 : Builder)
    (h : xmlVisitor l arg = .ok arg1) : ∃ c, arg1 = arg.Append c := by
  unfold xmlVisitor at h
  split at h
  · cases h; exact ⟨_, rfl⟩
  · cases h

theorem WriteNothing_eq_ok (w w1 : Writer) (hr : HRESULT) (h : WriteNothing w = .ok hr w1) :
    hr = .S_OK ∧ ∃ arg c, w.m_arrowBuilders[w.m_dwColumnCounter]? = some arg ∧
      w.m_dwColumnCounter < w.m_dwColumnNumber ∧
      w1 = { w with
        m_arrowBuilders := w.m_arrowBuilders.set w.m_dwColumnCounter (arg.Append c)
        m_dwColumnCounter := w.m_dwColumnCounter + 1 } := by
  refine column_write_eq_ok _ w w1 hr ?_ h
  intro arg arg1 hf
  split at hf
  · cases hf
  · cases hf; exact ⟨.null, rfl⟩

/-- A value write other than `WriteExactFlags` that returns has returned `S_OK`, the cursor was
before the last column, and exactly one entry has been appended to the builder there. -/
theorem value_write_eq_ok (env : Env) (op : Op) (w w1 : Writer) (hr : HRESULT)
    (hop : op.isValueWrite = true) (hnx : op.isExactFlags = false)
    (h : op.run env w = .ok hr w1) :
    hr = .S_OK ∧ ∃ arg c, w.m_arrowBuilders[w.m_dwColumnCounter]? = some arg ∧
      w.m_dwColumnCounter < w.m_dwColumnNumber ∧
      w1 = { w with
        m_arrowBuilders := w.m_arrowBuilders.set w.m_dwColumnCounter (arg.Append c)
        m_dwColumnCounter := w.m_dwColumnCounter + 1 } := by
  cases op <;> simp [Op.isValueWrite] at hop <;> simp [Op.isExactFlags] at hnx
  case WriteFormated_W buffer =>
    simp only [Op.run, WriteFormated_W] at h
    split at h
    · exact WriteNothing_eq_ok w w1 hr h
    · exact column_write_eq_ok _ w w1 hr (unicodeStringVisitor_appends env _ _) h
  case WriteFormated_A buffer =>
    simp only [Op.run, WriteFormated_A] at h
    split at h
    · exact WriteNothing_eq_ok w w1 hr h
    · exact column_write_eq_ok _ w w1 hr (ansiStringVisitor_appends _) h
  case WriteAttributes dwFileAttributes =>
    simp only [Op.run, WriteAttributes, WriteFormated_A] at h
    have hne : (attributesText dwFileAttributes).data.isEmpty = false := by
      simp [attributesText]
    simp only [hne, Bool.false_eq_true, if_false] at h
    obtain ⟨hr2, w2, hv, h2⟩ := Exec.andThen_eq_ok _ _ _ _ h
    have hk := column_write_eq_ok _ w w2 hr2 (ansiStringVisitor_appends _) hv
    obtain ⟨hhr, rest⟩ := hk
    subst hhr
    simp [FAILED] at h2
    obtain ⟨h3, h4⟩ := h2
    subst h3
    subst h4
    exact ⟨rfl, rest⟩
  all_goals
    refine column_write_eq_ok _ w w1 hr ?_ h
    first
      | exact unicodeStringVisitor_appends env _ _
      | exact ansiStringVisitor_appends _
      | exact xmlVisitor_appends _
      | (intro arg arg1 hf
         split at hf <;> cases hf <;> exact ⟨_, rfl⟩)

/-- Appending one entry to the builder under the cursor and moving the cursor on keeps the
rows aligned. -/
theorem aligned_append (env : Env) (w : Writer) (r : Nat) (arg : Builder) (c : Cell)
    (h : w.Aligned env r) (hb : w.m_arrowBuilders[w.m_dwColumnCounter]? = some arg)
    (hk : w.m_dwColumnCounter < w.m_dwColumnNumber) :
    Writer.Aligned env { w with
      m_arrowBuilders := w.m_arrowBuilders.set w.m_dwColumnCounter (arg.Append c)
      m_dwColumnCounter := w.m_dwColumnCounter + 1 } r := by
  refine ⟨?_, ?_, ?_, ?_⟩
  · exact buildersMatchSchema_congr env w _ rfl
      (map_afterFinish_set _ _ arg _ hb (append_shape arg c)) h.fresh
  · simp only [List.length_set]
    exact h.count
  · exact hk
  · intro i arg1 hi
    simp only [List.getElem?_set] at hi
    have harg := h.entries _ arg hb
    simp only [Nat.lt_irrefl, if_false] at harg
    by_cases hik : w.m_dwColumnCounter = i
    · subst hik
      have hlt : w.m_dwColumnCounter < w.m_arrowBuilders.length := by
        rw [h.count]; exact hk
      simp only [if_true, hlt] at hi
      cases hi
      simp only [Builder.Append, List.length_append, List.length_singleton, harg,
        Nat.lt_succ_self, if_true]
    · simp only [if_neg hik] at hi
      have := h.entries i arg1 hi
      rw [this]
      by_cases hlt : i < w.m_dwColumnCounter
      · have h2 : i < w.m_dwColumnCounter + 1 := by omega
        simp only [hlt, h2, if_true]
      · have h2 : ¬ i < w.m_dwColumnCounter + 1 := by omega
        simp only [hlt, h2, if_false]

/-- A value write other than `WriteExactFlags`, `WriteNothing` or `AbandonColumn` that returns
keeps the rows aligned, and leaves the column count and the file alone. -/
theorem aligned_column_call (env : Env) (op : Op) (w w1 : Writer) (hr : HRESULT) (r : Nat)
    (hop : op = .WriteNothing ∨ op = .AbandonColumn ∨
      (op.isValueWrite = true ∧ op.isExactFlags = false))
    (h : w.Aligned env r) (hrun : op.run env w = .ok hr w1) :
    w1.Aligned env r ∧ w1.m_dwColumnNumber = w.m_dwColumnNumber ∧
      w1.m_arrowWriter = w.m_arrowWriter := by
  have key : hr = .S_OK ∧ ∃ arg c, w.m_arrowBuilders[w.m_dwColumnCounter]? = some arg ∧
      w.m_dwColumnCounter < w.m_dwColumnNumber ∧
      w1 = { w with
        m_arrowBuilders := w.m_arrowBuilders.set w.m_dwColumnCounter (arg.Append c)
        m_dwColumnCounter := w.m_dwColumnCounter + 1 } := by
    rcases hop with hop | hop | ⟨hop, hnx⟩
    · subst hop; exact WriteNothing_eq_ok w w1 hr hrun
    · subst hop; exact WriteNothing_eq_ok w w1 hr hrun
    · exact value_write_eq_ok env op w w1 hr hop hnx hrun
  obtain ⟨_, arg, c, hb, hk, hw1⟩ := key
  subst hw1
  exact ⟨aligned_append env w r arg c h hb hk, rfl, rfl⟩

/-- The loop of `AbandonRow`, when it returns, keeps the rows aligned and leaves the cursor at
the column count. -/
theorem aligned_AbandonRow_loop (env : Env) (r : Nat) (n : Nat) :
    ∀ (i : Nat) (w w1 : Writer), w.Aligned env r → w.m_dwColumnCounter = i →
      AbandonRow.loop n i w = .ok () w1 →
      w1.Aligned env r ∧ w1.m_dwColumnNumber = w.m_dwColumnNumber ∧
        w1.m_arrowWriter = w.m_arrowWriter := by
  induction n with
  | zero =>
    intro i w w1 h _ hrun
    simp only [AbandonRow.loop] at hrun
    cases hrun
    exact ⟨h, rfl, rfl⟩
  | succ n ih =>
    intro i w w1 h hi hrun
    subst hi
    unfold AbandonRow.loop at hrun
    obtain ⟨u, w2, hv, h2⟩ := Exec.andThen_eq_ok _ _ _ _ hrun
    obtain ⟨hr3, w3, ha, h3⟩ := Exec.andThen_eq_ok _ _ _ _ h2
    have hstep : ((visit (fun arg =>
          match arg.kind with
          | .ArrayBuilder => (.error (fatal .CannotAppendAbandonRow) : Except Exception Builder)
          | _ => .ok arg.AppendNull) w.m_dwColumnCounter w).andThen fun _ w =>
        (AddColumnAndCheckNumbers w).andThen fun _ w => (.ok .S_OK w : Exec HRESULT)) =
        .ok .S_OK w3 := by
      rw [hv]
      simp only [Exec.andThen_ok]
      rw [ha]
      obtain ⟨hhr, _, _⟩ := AddColumnAndCheckNumbers_eq_ok w2 w3 hr3 ha
      rfl
    obtain ⟨_, arg, c, hb, hk, hw3⟩ := column_write_eq_ok _ w w3 .S_OK (by
      intro arg arg1 hf
      split at hf
      · cases hf
      · cases hf; exact ⟨.null, rfl⟩) hstep
    have h3a : w3.Aligned env r := by
      rw [hw3]; exact aligned_append env w r arg c h hb hk
    have hc3 : w3.m_dwColumnCounter = w.m_dwColumnCounter + 1 := by rw [hw3]
    obtain ⟨hA, hN, hF⟩ := ih (w.m_dwColumnCounter + 1) w3 w1 h3a hc3 h3
    refine ⟨hA, ?_, ?_⟩
    · rw [hN, hw3]
    · rw [hF, hw3]

theorem aligned_AbandonRow (env : Env) (w w1 : Writer) (hr : HRESULT) (r : Nat)
    (h : w.Aligned env r) (hrun : AbandonRow w = .ok hr w1) :
    w1.Aligned env r ∧ w1.m_dwColumnNumber = w.m_dwColumnNumber ∧
      w1.m_arrowWriter = w.m_arrowWriter := by
  unfold AbandonRow at hrun
  obtain ⟨u, w2, hl, h2⟩ := Exec.andThen_eq_ok _ _ _ _ hrun
  cases h2
  exact aligned_AbandonRow_loop env r _ _ w w1 h rfl hl

theorem rectangular_of_length (t : Table) (n : Nat) (h : ∀ a ∈ t.arrays, a.length = n) :
    t.rectangular = true := by
  unfold Table.rectangular
  rw [List.all_eq_true]
  intro a ha
  have h0 : (t.arrays.headD []).length = n := by
    cases harr : t.arrays with
    | nil => rw [harr] at ha; cases ha
    | cons b bs =>
      rw [harr] at h
      exact h b (List.mem_cons_self _ _)
  exact decide_eq_true (by rw [h a ha, h0])

/-- A `Flush` with the cursor at 0 that returns leaves every builder empty, and the one table it
may have handed to the file has one column for each builder, all of the length the rows
completed since the last flush. -/
theorem aligned_Flush (env : Env) (w w1 : Writer) (hr : HRESULT) (r : Nat)
    (h : w.Aligned env r) (hk : w.m_dwColumnCounter = 0) (hrun : Flush env w = .ok hr w1) :
    w1.Aligned env 0 ∧ w1.m_dwColumnNumber = w.m_dwColumnNumber ∧
      ∃ batches, w1.m_arrowWriter = w.m_arrowWriter.map (fun written => written ++ batches) ∧
        ∀ t ∈ batches, t.arrays.length = w.m_dwColumnNumber ∧ t.rectangular = true := by
  obtain ⟨⟨_, _, hN, _⟩, hc⟩ := Flush_frame env w w1 (by rw [hrun]; rfl)
  have hbuilders : w1.m_arrowBuilders = w.m_arrowBuilders.map Builder.afterFinish ∧
      w1.m_arrowSchema = w.m_arrowSchema ∧
      ∃ batches, w1.m_arrowWriter = w.m_arrowWriter.map (fun written => written ++ batches) ∧
        ∀ t ∈ batches, t.arrays = w.m_arrowBuilders.map Builder.Finish := by
    rcases Flush_ok_cases env w w1 hr hrun with ⟨_, hfile, hb⟩ | ⟨_, written, fields, fresh, hw, hs, hg, hw1⟩
    · refine ⟨hb, ?_, [], ?_, ?_⟩
      · rcases Flush_cases env w with hu | ⟨b, file, ⟨hr2, hf⟩ | ⟨e, hf, _⟩⟩
        · rw [hu] at hrun; cases hrun
        · rw [hf] at hrun; cases hrun; rfl
        · rw [hf] at hrun; cases hrun
      · rw [hfile]
        cases w.m_arrowWriter <;> simp
      · intro t ht; cases ht
    · obtain ⟨fields1, hs1, hg1⟩ := (buildersMatchSchema_iff env w).mp h.fresh
      rw [hs] at hs1
      cases hs1
      rw [hg] at hg1
      cases hg1
      subst hw1
      refine ⟨rfl, rfl, [⟨w.m_arrowSchema, w.m_arrowBuilders.map Builder.Finish⟩], ?_, ?_⟩
      · rw [hw]; rfl
      · intro t ht
        simp only [List.mem_singleton] at ht
        subst ht
        rfl
  obtain ⟨hb, hs, batches, hfile, hbatches⟩ := hbuilders
  have hlen : ∀ a ∈ w.m_arrowBuilders.map Builder.Finish, a.length = r := by
    intro a ha
    obtain ⟨arg, harg, rfl⟩ := List.mem_map.mp ha
    obtain ⟨i, hi, hget⟩ := List.getElem_of_mem harg
    have := h.entries i arg (by rw [List.getElem?_eq_getElem hi, hget])
    rw [hk] at this
    simpa [Builder.Finish] using this
  refine ⟨⟨?_, ?_, ?_, ?_⟩, hN, batches, hfile, ?_⟩
  · exact buildersMatchSchema_congr env w w1 hs (by rw [hb, map_afterFinish_idem]) h.fresh
  · rw [hb, List.length_map, hN]
    exact h.count
  · rw [hc, hk]
    exact Nat.zero_le _
  · intro i arg hi
    rw [hb, List.getElem?_map] at hi
    cases hget : w.m_arrowBuilders[i]? with
    | none => rw [hget] at hi; cases hi
    | some arg0 =>
      rw [hget] at hi
      cases hi
      simp [Builder.afterFinish, hc, hk]
  · intro t ht
    have harr := hbatches t ht
    refine ⟨?_, rectangular_of_length t r ?_⟩
    · rw [harr, List.length_map]
      exact h.count
    · rw [harr]
      exact hlen

/-- A `WriteEndOfLine` that returns has completed a row: the rows stay aligned, with one more
row completed, or with none when it flushed; and the table it may have handed to the file has
one column for each builder, all of one length. -/
theorem aligned_WriteEndOfLine (env : Env) (w w1 : Writer) (hr : HRESULT) (r : Nat)
    (h : w.Aligned env r) (hrun : WriteEndOfLine env w = .ok hr w1) :
    w1.Aligned env (rowsSinceFlush .WriteEndOfLine w r) ∧
      w1.m_dwColumnNumber = w.m_dwColumnNumber ∧
      ∃ batches, w1.m_arrowWriter = w.m_arrowWriter.map (fun written => written ++ batches) ∧
        ∀ t ∈ batches, t.arrays.length = w.m_dwColumnNumber ∧ t.rectangular = true := by
  unfold WriteEndOfLine at hrun
  obtain ⟨u, w2, hfirst, hrest⟩ := Exec.andThen_eq_ok _ _ _ _ hrun
  have hfull : w.m_dwColumnCounter = w.m_dwColumnNumber ∧
      w2 = { w with m_dwColumnCounter := 0 } := by
    split at hfirst
    · rename_i heq
      cases hfirst
      exact ⟨heq, rfl⟩
    · split at hfirst
      · cases hfirst
      · split at hfirst
        · cases hfirst
        · omega
  obtain ⟨hfull, hw2⟩ := hfull
  subst hw2
  have hA : Writer.Aligned env
      { w with
        m_dwColumnCounter := 0
        m_dwBatchRowCount := w.m_dwBatchRowCount + 1
        m_dwTotalRowCount := w.m_dwTotalRowCount + 1 } (r + 1) := by
    refine ⟨?_, h.count, Nat.zero_le _, ?_⟩
    · exact buildersMatchSchema_congr env w _ rfl rfl h.fresh
    · intro i arg hi
      have hlt : i < w.m_dwColumnCounter := by
        have := (List.getElem?_eq_some_iff.mp hi).1
        rw [hfull, ← h.count]
        exact this
      have := h.entries i arg hi
      simp only [hlt, if_true] at this
      simp only [Nat.not_lt_zero, if_false]
      exact this
  have hplain : ∀ r1, r1 = r + 1 →
      hr = .S_OK ∧ w1 = { w with
        m_dwColumnCounter := 0
        m_dwBatchRowCount := w.m_dwBatchRowCount + 1
        m_dwTotalRowCount := w.m_dwTotalRowCount + 1 } →
      w1.Aligned env r1 ∧ w1.m_dwColumnNumber = w.m_dwColumnNumber ∧
        ∃ batches, w1.m_arrowWriter = w.m_arrowWriter.map (fun written => written ++ batches) ∧
          ∀ t ∈ batches, t.arrays.length = w.m_dwColumnNumber ∧ t.rectangular = true := by
    intro r1 hr1 hw1
    obtain ⟨_, hw1⟩ := hw1
    subst hw1
    subst hr1
    refine ⟨hA, rfl, [], ?_, ?_⟩
    · cases w.m_arrowWriter <;> simp
    · intro t ht; cases ht
  simp only [] at hrest
  unfold rowsSinceFlush Writer.batchSize
  cases hopt : w.m_Options with
  | none =>
    simp only [hopt] at hrest ⊢
    cases hrest
    exact hplain _ rfl ⟨rfl, by rw [hopt]⟩
  | some options =>
    simp only [hopt] at hrest ⊢
    cases hbs : options.BatchSize with
    | none =>
      simp only [hbs] at hrest ⊢
      cases hrest
      exact hplain _ rfl ⟨rfl, by rw [hopt]⟩
    | some BatchSize =>
      simp only [hbs] at hrest ⊢
      by_cases hge : BatchSize ≤ w.m_dwBatchRowCount + 1
      · simp only [ge_iff_le, hge, if_true] at hrest ⊢
        obtain ⟨hr2, w3, hflush, htail⟩ := Exec.andThen_eq_ok _ _ _ _ hrest
        have hw3 : w3 = w1 := by
          split at htail <;> (cases htail; rfl)
        subst hw3
        rw [hopt] at hA
        have hfl := aligned_Flush env _ w3 hr2 (r + 1) hA rfl hflush
        exact hfl
      · simp only [ge_iff_le, hge, if_false] at hrest ⊢
        cases hrest
        exact hplain _ rfl ⟨rfl, by rw [hopt]⟩

/-- Every row call that returns keeps the rows aligned, and every table it hands to the file has
one column for each builder, all of one length. -/
theorem aligned_row_call (env : Env) (op : Op) (w w1 : Writer) (hr : HRESULT) (r : Nat)
    (hop : op.isRowCall w = true) (h : w.Aligned env r) (hrun : op.run env w = .ok hr w1) :
    w1.Aligned env (rowsSinceFlush op w r) ∧ w1.m_dwColumnNumber = w.m_dwColumnNumber ∧
      ∃ batches, w1.m_arrowWriter = w.m_arrowWriter.map (fun written => written ++ batches) ∧
        ∀ t ∈ batches, t.arrays.length = w.m_dwColumnNumber ∧ t.rectangular = true := by
  have hnone : ∀ w2 : Writer, w2.m_arrowWriter = w.m_arrowWriter →
      ∃ batches : List Table,
        w2.m_arrowWriter = w.m_arrowWriter.map (fun written => written ++ batches) ∧
        ∀ t ∈ batches, t.arrays.length = w.m_dwColumnNumber ∧ t.rectangular = true := by
    intro w2 hw2
    refine ⟨[], ?_, ?_⟩
    · rw [hw2]
      cases w.m_arrowWriter <;> simp
    · intro t ht; cases ht
  cases op
  case Flush =>
    have hk : w.m_dwColumnCounter = 0 := by simpa [Op.isRowCall] using hop
    exact aligned_Flush env w w1 hr r h hk hrun
  case WriteEndOfLine => exact aligned_WriteEndOfLine env w w1 hr r h hrun
  case AbandonRow =>
    obtain ⟨hA, hN, hF⟩ := aligned_AbandonRow env w w1 hr r h hrun
    exact ⟨hA, hN, hnone w1 hF⟩
  case SetSchema columns => simp [Op.isRowCall, Op.isValueWrite] at hop
  case Close => simp [Op.isRowCall, Op.isValueWrite] at hop
  case WriteExactFlags dwFlags =>
    simp [Op.isRowCall, Op.isValueWrite, Op.isExactFlags] at hop
  case WriteExactFlags_defs dwFlags FlagValues =>
    simp [Op.isRowCall, Op.isValueWrite, Op.isExactFlags] at hop
  all_goals
    have hcol := aligned_column_call env _ w w1 hr r
      (by first
        | exact Or.inl rfl
        | exact Or.inr (Or.inl rfl)
        | exact Or.inr (Or.inr (by simp [Op.isValueWrite, Op.isExactFlags]))) h hrun
    exact ⟨hcol.1, hcol.2.1, hnone w1 hcol.2.2⟩

/-- A sequence of row calls that all return keeps the rows aligned, and every table it hands to
the file has one column for each builder, all of one length. -/
theorem runRows_aligned (env : Env) (ops : List Op) :
    ∀ (w w1 : Writer) (r r1 : Nat), w.Aligned env r → runRows env ops w r = some (w1, r1) →
      w1.Aligned env r1 ∧ w1.m_dwColumnNumber = w.m_dwColumnNumber ∧
        ∃ batches, w1.m_arrowWriter = w.m_arrowWriter.map (fun written => written ++ batches) ∧
          ∀ t ∈ batches, t.arrays.length = w.m_dwColumnNumber ∧ t.rectangular = true := by
  induction ops with
  | nil =>
    intro w w1 r r1 h hrun
    simp only [runRows, Option.some.injEq, Prod.mk.injEq] at hrun
    obtain ⟨hw, hr⟩ := hrun
    subst hw
    subst hr
    refine ⟨h, rfl, [], ?_, ?_⟩
    · cases w.m_arrowWriter <;> simp
    · intro t ht; cases ht
  | cons op ops ih =>
    intro w w1 r r1 h hrun
    unfold runRows at hrun
    by_cases hop : op.isRowCall w = true
    · simp only [hop, if_true] at hrun
      cases hstep : op.run env w with
      | undefined => simp [hstep] at hrun
      | raise e w2 => simp [hstep] at hrun
      | ok hr w2 =>
        simp only [hstep] at hrun
        obtain ⟨hA, hN, b1, hF1, hB1⟩ := aligned_row_call env op w w2 hr r hop h hstep
        obtain ⟨hA2, hN2, b2, hF2, hB2⟩ := ih w2 w1 _ r1 hA hrun
        refine ⟨hA2, hN2.trans hN, b1 ++ b2, ?_, ?_⟩
        · rw [hF2, hF1]
          cases w.m_arrowWriter <;> simp
        · intro t ht
          rcases List.mem_append.mp ht with ht | ht
          · exact hB1 t ht
          · rw [← hN]
            exact hB2 t ht
    · simp [hop] at hrun

theorem rowAligned_of_aligned (env : Env) (w : Writer) (r : Nat) (h : w.Aligned env r) :
    w.rowAligned r = true := by
  unfold Writer.rowAligned
  rw [List.all_eq_true]
  intro i hi
  have hl : i < w.m_arrowBuilders.length := by
    rw [h.count]
    exact List.mem_range.mp hi
  have hget : w.m_arrowBuilders[i]? = some w.m_arrowBuilders[i] := List.getElem?_eq_getElem hl
  rw [hget]
  exact decide_eq_true (h.entries i _ hget)

/-- After a `SetSchema` that returned `S_OK` with the cursor at 0 and made one builder for each
column, the rows are aligned, with no row completed. -/
theorem SetSchema_aligned (env : Env) (columns : Schema) (w w0 : Writer)
    (hset : SetSchema env columns w = .ok .S_OK w0) (hcursor : w.m_dwColumnCounter = 0)
    (hcount : w0.m_arrowBuilders.length = w0.m_dwColumnNumber) : w0.Aligned env 0 := by
  have hmatch := SetSchema_establishes_match env columns w w0 hset
  obtain ⟨fields, fresh, _, _, hg, hw0⟩ := SetSchema_success env columns w w0 hset
  have hempty := GetBuilders_fields_values_empty env fields [] fresh (by simp) hg
  refine ⟨hmatch, hcount, ?_, ?_⟩
  · rw [hw0]
    simp only [hcursor]
    exact Nat.zero_le _
  · intro i arg hi
    rw [hw0] at hi ⊢
    simp only [hcursor, Nat.not_lt_zero, if_false] at hi ⊢
    have := hempty arg (List.getElem?_mem hi)
    rw [this]
    rfl

/-- C28 as stated fails. On the sample writer, after the first column of a row has been written
(cursor 1), `SetSchema` with the same schema returns `S_OK`: the builders are empty and the
cursor is still 1, so the builder before the cursor holds no entry, whatever the number of rows
completed. Going on from there with the second column, `WriteEndOfLine` and `Flush` (every call
returns `S_OK`), the table handed to the file has a first column of length 0 and a second of
length 1. -/
theorem SetSchema_in_mid_row_misaligns :
    WriteString_string "a.txt" (Writer.sample none) =
        .ok .S_OK { Writer.sample none with
          m_dwColumnCounter := 1
          m_arrowBuilders :=
            [⟨.StringBuilder, .utf8, [.string "a.txt"]⟩, ⟨.UInt64Builder, .uint64, []⟩] } ∧
      SetSchema Env.sample Schema.sample
          { Writer.sample none with
            m_dwColumnCounter := 1
            m_arrowBuilders :=
              [⟨.StringBuilder, .utf8, [.string "a.txt"]⟩, ⟨.UInt64Builder, .uint64, []⟩] } =
        .ok .S_OK { Writer.sample none with m_dwColumnCounter := 1 } ∧
      (∀ r, Writer.rowAligned { Writer.sample none with m_dwColumnCounter := 1 } r = false) ∧
      (runRows Env.sample [.WriteFileSize_ULONGLONG 10, .WriteEndOfLine, .Flush]
          { Writer.sample none with m_dwColumnCounter := 1 } 0).map
          (fun p => (p.1.m_arrowWriter.map (List.map Table.arrays),
            p.1.m_arrowWriter.map (List.map Table.rectangular))) =
        some (some [[[], [.uint64 10]]], some [false]) := by
  refine ⟨by decide, by decide, ?_, by decide⟩
  intro r
  simp [Writer.rowAligned, Writer.sample, List.range_succ]

/-- C28, amended: in every state reached from a `SetSchema` that returned `S_OK` with the cursor
at 0 and made one builder for each of its `N` columns, through row calls that all return (value
writes other than `WriteExactFlags`, `WriteNothing`, `AbandonColumn`, `AbandonRow`,
`WriteEndOfLine` with the flushes it triggers, and `Flush` called with the cursor at 0), the
builders are row-aligned: with the cursor at `k` and `r` rows completed since the last flush,
builders `0..k-1` hold `r + 1` entries each and builders `k..N-1` hold `r` entries each. The
cursor is within the column count, and every table handed to the file on the way has `N`
columns, all of one length. -/
theorem rows_stay_aligned (env : Env) (columns : Schema) (w w0 w1 : Writer) (ops : List Op)
    (r : Nat) (hset : SetSchema env columns w = .ok .S_OK w0)
    (hcursor : w.m_dwColumnCounter = 0)
    (hcount : w0.m_arrowBuilders.length = w0.m_dwColumnNumber)
    (hrun : runRows env ops w0 0 = some (w1, r)) :
    w1.rowAligned r = true ∧
      w1.m_dwColumnCounter ≤ w1.m_dwColumnNumber ∧
      w1.m_dwColumnNumber = columns.length ∧
      ∃ batches, w1.m_arrowWriter = w.m_arrowWriter.map (fun written => written ++ batches) ∧
        ∀ t ∈ batches, t.arrays.length = columns.length ∧ t.rectangular = true := by
  have h0 := SetSchema_aligned env columns w w0 hset hcursor hcount
  obtain ⟨fields, fresh, _, _, _, hw0⟩ := SetSchema_success env columns w w0 hset
  have hN0 : w0.m_dwColumnNumber = columns.length := by rw [hw0]
  have hF0 : w0.m_arrowWriter = w.m_arrowWriter := by rw [hw0]
  obtain ⟨hA, hN, batches, hF, hB⟩ := runRows_aligned env ops w0 w1 0 r h0 hrun
  refine ⟨rowAligned_of_aligned env w1 r hA, hA.cursor, hN.trans hN0, batches, ?_, ?_⟩
  · rw [hF, hF0]
  · intro t ht
    rw [← hN0]
    exact hB t ht

/-- C28, amended, on the sample rows: `SetSchema` on a new writer with an open file and a batch
size of 2, then three rows and the first column of a fourth. -/
theorem rows_stay_aligned_witness :
    SetSchema Env.sample Schema.sample
        { Writer.new (some ⟨some 2⟩) with m_arrowWriter := some [] } =
        .ok .S_OK (Writer.sample (some ⟨some 2⟩)) ∧
      runRows Env.sample Op.rowsSample (Writer.sample (some ⟨some 2⟩)) 0 =
        some (Writer.rowsSampleEnd, 0) ∧
      Writer.rowsSampleEnd.rowAligned 0 = true ∧
      Writer.rowsSampleEnd.m_dwColumnCounter ≤ Writer.rowsSampleEnd.m_dwColumnNumber ∧
      Writer.rowsSampleEnd.m_dwColumnNumber = Schema.sample.length ∧
      ∃ batches,
        Writer.rowsSampleEnd.m_arrowWriter =
          (some [] : Option (List Table)).map (fun written => written ++ batches) ∧
        ∀ t ∈ batches, t.arrays.length = Schema.sample.length ∧ t.rectangular = true :=
  ⟨by decide, by decide,
    rows_stay_aligned Env.sample Schema.sample
      { Writer.new (some ⟨some 2⟩) with m_arrowWriter := some [] }
      (Writer.sample (some ⟨some 2⟩)) Writer.rowsSampleEnd Op.rowsSample 0
      (by decide) rfl rfl (by decide)⟩

end Orc
